import Mathlib

/-!
# c-web-server: a shallow embedding of the request parser, router, response
validator/serializer and connection driver

Conventions of the embedding.

* A C string (`char *`, NUL terminated) is a `List Char`; a `Char` stands for one
  byte. A pointer that may be `NULL` is an `Option`.
* A function that returns `0`/`-1` and mutates a struct through a pointer returns
  the return code together with the struct after the call.
* A function that can reach undefined behaviour (a `NULL` dereference, `free` of a
  pointer that did not come from `malloc`, a write past the end of a fixed buffer)
  returns an `Option`; `none` is undefined behaviour.
* `malloc`, `strdup`, `strndup` and `realloc` are assumed to succeed, `send` is
  assumed to transmit all the bytes it is given, and the character classes are
  those of the C locale.
* The request buffer of `handle_request` is kept as memory: the bytes behind the
  terminator stay where they are, and the bytes of the fresh allocation that were
  never written read as zero.
* `size_t` values that the code subtracts from are kept modulo 2^64.
-/

namespace CWebServer

/-- A NUL terminated C string, without its terminator. -/
abbrev CStr := List Char

/-- The string terminator. -/
def NUL : Char := Char.ofNat 0

/-- A string literal of the source as a C string. -/
def str (s : String) : CStr := s.toList

/-! ## linked_list.c -/

/-- The `node_t` of linked_list.h, without its `next` pointer: a list of nodes is
a `List node_t`, head first. Keys and values are the `strdup` copies made by
`create_node`, so they are never `NULL`. -/
structure node_t where
  key : CStr
  value : CStr
deriving DecidableEq

/-- `insert_node`: the new node becomes the head; returns 0. -/
def insert_node (head : List node_t) (key value : CStr) : Int × List node_t :=
  (0, { key := key, value := value } :: head)

/-- `delete_node`: unlinks the first node whose key compares equal; returns 0,
or -1 when the list is empty or no node has the key. -/
def delete_node : List node_t → CStr → Int × List node_t
  | [], _ => (-1, [])
  | current :: rest, key =>
    if current.key = key then (0, rest)
    else ((delete_node rest key).1, current :: (delete_node rest key).2)

/-- `search_node`: the first node from the head whose key compares equal, or
`NULL`. -/
def search_node : List node_t → CStr → Option node_t
  | [], _ => none
  | current :: rest, key =>
    if current.key = key then some current else search_node rest key

/-! ## http_data.c -/

/-- The anonymous `body` struct of `request_t`. `data` holds the `size` bytes
copied by `set_body` (they may include NUL bytes). -/
structure body_t where
  data : Option (List Char)
  params : List node_t
  n_params : Nat
deriving DecidableEq

/-- The `request_t` of http_data.h. -/
structure request_t where
  method : Option CStr
  path : Option CStr
  version : Option CStr
  headers : List node_t
  body : body_t
deriving DecidableEq

/-- The `response_t` of http_data.h. -/
structure response_t where
  version : Option CStr
  status_code : Option CStr
  headers : List node_t
  body : Option CStr
deriving DecidableEq

/-- `init_request`: every field `NULL`, `n_params` zero. -/
def init_request : request_t :=
  { method := none, path := none, version := none, headers := [],
    body := { data := none, params := [], n_params := 0 } }

/-- `init_response`: every field `NULL`. -/
def init_response : response_t :=
  { version := none, status_code := none, headers := [], body := none }

/-- `get_header`: the value of the node found by `search_node`, or `NULL`. -/
def get_header (headers : List node_t) (key : CStr) : Option CStr :=
  match search_node headers key with
  | none => none
  | some node => some node.value

/-- `add_header`: `insert_node`, return code dropped. -/
def add_header (headers : List node_t) (key value : CStr) : List node_t :=
  (insert_node headers key value).2

/-- `add_param`: `insert_node`, return code dropped. -/
def add_param (params : List node_t) (key value : CStr) : List node_t :=
  (insert_node params key value).2

/-- `add_body_res`: the body becomes a copy of the given string. -/
def add_body_res (res : response_t) (body : CStr) : response_t :=
  { res with body := some body }

/-- `add_version_res`. -/
def add_version_res (res : response_t) (version : CStr) : response_t :=
  { res with version := some version }

/-- `add_status_code_res`. -/
def add_status_code_res (res : response_t) (status_code : CStr) : response_t :=
  { res with status_code := some status_code }

/-! ## route.c -/

/-- The `route_t` of route.h, without its `next` pointer. `H` is the type of the
callbacks. -/
structure route_t (H : Type) where
  path : CStr
  method : CStr
  cb : H

/-- The five static list heads of route.c. -/
structure Routes (H : Type) where
  get : List (route_t H)
  post : List (route_t H)
  put : List (route_t H)
  delete : List (route_t H)
  patch : List (route_t H)

/-- The route table before any registration: the static heads are `NULL`. -/
def Routes.empty (H : Type) : Routes H :=
  { get := [], post := [], put := [], delete := [], patch := [] }

/-- `insert_route`: the new route becomes the head; returns 0. -/
def insert_route {H : Type} (head : List (route_t H)) (path method : CStr) (cb : H) :
    Int × List (route_t H) :=
  (0, { path := path, method := method, cb := cb } :: head)

/-- `add_route`: dispatches on the method string; -1 for any other method. -/
def add_route {H : Type} (rt : Routes H) (method path : CStr) (cb : H) : Int × Routes H :=
  if method = str "GET" then
    ((insert_route rt.get path (str "GET") cb).1,
      { rt with get := (insert_route rt.get path (str "GET") cb).2 })
  else if method = str "POST" then
    ((insert_route rt.post path (str "POST") cb).1,
      { rt with post := (insert_route rt.post path (str "POST") cb).2 })
  else if method = str "PUT" then
    ((insert_route rt.put path (str "PUT") cb).1,
      { rt with put := (insert_route rt.put path (str "PUT") cb).2 })
  else if method = str "DELETE" then
    ((insert_route rt.delete path (str "DELETE") cb).1,
      { rt with delete := (insert_route rt.delete path (str "DELETE") cb).2 })
  else if method = str "PATCH" then
    ((insert_route rt.patch path (str "PATCH") cb).1,
      { rt with patch := (insert_route rt.patch path (str "PATCH") cb).2 })
  else (-1, rt)

/-- The `while` loop of `get_route`: the callback of the first route from the
head whose path compares equal, or `NULL`. -/
def get_route_loop {H : Type} : List (route_t H) → CStr → Option H
  | [], _ => none
  | head :: next, path => if head.path = path then some head.cb else get_route_loop next path

/-- `get_route`: picks the list of the method (`NULL` for any other method) and
scans it. -/
def get_route {H : Type} (rt : Routes H) (method path : CStr) : Option H :=
  let head : List (route_t H) :=
    if method = str "GET" then rt.get
    else if method = str "POST" then rt.post
    else if method = str "PUT" then rt.put
    else if method = str "DELETE" then rt.delete
    else if method = str "PATCH" then rt.patch
    else []
  get_route_loop head path

/-! ## process_response.c -/

/-- The `strcmp` chain of `get_status_message`: the fixed table; `"Unknown"` for
any other code. -/
def status_message (status_code : CStr) : CStr :=
  if status_code = str "100" then str "Continue"
  else if status_code = str "101" then str "Switching Protocols"
  else if status_code = str "200" then str "OK"
  else if status_code = str "201" then str "Created"
  else if status_code = str "202" then str "Accepted"
  else if status_code = str "204" then str "No Content"
  else if status_code = str "301" then str "Moved Permanently"
  else if status_code = str "302" then str "Found"
  else if status_code = str "304" then str "Not Modified"
  else if status_code = str "400" then str "Bad Request"
  else if status_code = str "401" then str "Unauthorized"
  else if status_code = str "403" then str "Forbidden"
  else if status_code = str "404" then str "Not Found"
  else if status_code = str "413" then str "Payload Too Large"
  else if status_code = str "415" then str "Unsupported Media Type"
  else if status_code = str "500" then str "Internal Server Error"
  else if status_code = str "501" then str "Not Implemented"
  else if status_code = str "502" then str "Bad Gateway"
  else if status_code = str "503" then str "Service Unavailable"
  else str "Unknown"

/-- `get_status_message`: the table entry of `res->status_code`, which must not
be `NULL` (it is an argument of `strcmp`). -/
def get_status_message (res : response_t) : Option CStr :=
  match res.status_code with
  | none => none
  | some status_code => some (status_message status_code)

/-- The `while` loop of `headers_to_string`. `max_size` is the current size of the
`headers` buffer and `headers` its content. The buffer is doubled at most once per
node, so `strcat` writes past its end (`none`) when one doubling is not enough. -/
def headers_to_string_loop : List node_t → Nat → CStr → Option CStr
  | [], _, headers => some headers
  | current :: next, max_size, headers =>
    let headers_len := current.key.length + current.value.length + 4
    let max_size1 := if headers.length + headers_len + 1 > max_size then max_size * 2 else max_size
    if headers.length + headers_len + 1 > max_size1 then none
    else headers_to_string_loop next max_size1
      (headers ++ current.key ++ (str ": ") ++ current.value ++ (str "\r\n"))

/-- `headers_to_string`: `Key: Value\r\n` for each node from the head, in a buffer
that starts at 4096 bytes. -/
def headers_to_string (res : response_t) : Option CStr :=
  headers_to_string_loop res.headers 4096 []

/-- `content_length`: `"0"` for a `NULL` or empty body, otherwise the decimal
`strlen` of the body (`%zu`; the 20 byte buffer holds every length below 10^19). -/
def content_length (res : response_t) : CStr :=
  match res.body with
  | none => (str "0")
  | some body => if body.length = 0 then str "0" else (Nat.repr body.length).toList

/-- `validate_response`: -1 without headers; then defaults for version and status
code; -1 without `Content-Type`; then `Content-Length` is added when absent. -/
def validate_response (res : response_t) : Int × response_t :=
  if res.headers.isEmpty then (-1, res)
  else
    let res1 : response_t :=
      if res.version.isNone then { res with version := some (str "1.1") } else res
    let res2 : response_t :=
      if res1.status_code.isNone then { res1 with status_code := some (str "200") } else res1
    if (get_header res2.headers (str "Content-Type")).isNone then (-1, res2)
    else if (get_header res2.headers (str "Content-Length")).isNone then
      (0, { res2 with
            headers := add_header res2.headers (str "Content-Length") (content_length res2) })
    else (0, res2)

/-! ## POSIX regular expressions (`regcomp` with `REG_EXTENDED`, `regexec`)

The four patterns of process_request.c are sequences of single-character
elements (a literal, `.` or a bracket expression), some of them under `+`, with
parentheses around runs of elements. `regexec` returns the leftmost match, among
those the longest, and among those the one whose subexpressions, from left to
right, are the longest. -/

/-- One element of a pattern: a character class matched once, or one or more
times. -/
inductive Atom where
  | one (cls : Char → Bool)
  | plus (cls : Char → Bool)

/-- The length of the longest prefix of `s` made of characters of the class. -/
def classRun (cls : Char → Bool) : List Char → Nat
  | [] => 0
  | c :: cs => if cls c then classRun cls cs + 1 else 0

/-- The numbers `n, n-1, ..., 1`. -/
def downFrom : Nat → List Nat
  | 0 => []
  | n + 1 => (n + 1) :: downFrom n

/-- Every way in which the sequence of elements matches a prefix of `s`, each
given as the list of the lengths matched by the elements. An element under `+`
tries its longest run first, so the results come in decreasing lexicographic
order. -/
def matchLens : List Atom → List Char → List (List Nat)
  | [], _ => [[]]
  | Atom.one _ :: _, [] => []
  | Atom.one cls :: rest, c :: cs =>
    if cls c then (matchLens rest cs).map (fun l => 1 :: l) else []
  | Atom.plus cls :: rest, s =>
    (downFrom (classRun cls s)).flatMap
      (fun n => (matchLens rest (s.drop n)).map (fun l => n :: l))

/-- The first of the candidates of greatest total length. -/
def pickLongest : List (List Nat) → Option (List Nat)
  | [] => none
  | l :: ls =>
    match pickLongest ls with
    | none => some l
    | some b => if b.sum ≤ l.sum then some l else some b

/-- `regexec` without flags: the start offset of the leftmost match and the
lengths matched by the elements, or `none` for `REG_NOMATCH`. -/
def regexec (pattern : List Atom) : List Char → Option (Nat × List Nat)
  | [] => (pickLongest (matchLens pattern [])).map (fun l => (0, l))
  | c :: cs =>
    match pickLongest (matchLens pattern (c :: cs)) with
    | some l => some (0, l)
    | none => (regexec pattern cs).map (fun r => (r.1 + 1, r.2))

/-- The text matched by the elements `i ..< j` of the pattern, for a match that
starts at `so`: `strndup(s + rm_so, rm_eo - rm_so)` of the subexpression made of
these elements. -/
def submatch (s : List Char) (so : Nat) (lens : List Nat) (i j : Nat) : CStr :=
  (s.drop (so + (lens.take i).sum)).take ((lens.drop i).take (j - i)).sum

/-- The class of a literal character. -/
def lit (a : Char) : Char → Bool := fun c => c == a

/-- The class `.`: any character. -/
def anyChar : Char → Bool := fun _ => true

/-- The class `[A-Z]`. -/
def upperAZ : Char → Bool := fun c => decide (65 ≤ c.toNat) && decide (c.toNat ≤ 90)

/-- The class `[0-9]`. -/
def digit09 : Char → Bool := fun c => decide (48 ≤ c.toNat) && decide (c.toNat ≤ 57)

/-- The class `[0-1]`. -/
def digit01 : Char → Bool := fun c => decide (48 ≤ c.toNat) && decide (c.toNat ≤ 49)

/-- The class `[^x]`. -/
def notChar (a : Char) : Char → Bool := fun c => !(c == a)

/-- The pattern of `parse_first_line`, `([A-Z]+) ([^ ]+) HTTP/([0-9].[0-1])`.
Subexpression 1 is element 0, subexpression 2 element 2, subexpression 3 the
elements 9 to 11. -/
def first_line_pattern : List Atom :=
  [Atom.plus upperAZ, Atom.one (lit ' '), Atom.plus (notChar ' '), Atom.one (lit ' '),
   Atom.one (lit 'H'), Atom.one (lit 'T'), Atom.one (lit 'T'), Atom.one (lit 'P'),
   Atom.one (lit '/'), Atom.one digit09, Atom.one anyChar, Atom.one digit01]

/-- The pattern of `parse_headers`, `([^:]+): (.+)`. Subexpression 1 is element 0,
subexpression 2 element 3. -/
def header_pattern : List Atom :=
  [Atom.plus (notChar ':'), Atom.one (lit ':'), Atom.one (lit ' '), Atom.plus anyChar]

/-- The double quote character. -/
def dquote : Char := Char.ofNat 34

/-- The pattern of `process_json`: a quote, `([^"]+)`, a quote, a colon, a space,
a quote, `([^"]+)`, a quote. Subexpression 1 is element 1, subexpression 2
element 6. -/
def json_pattern : List Atom :=
  [Atom.one (lit dquote), Atom.plus (notChar dquote), Atom.one (lit dquote),
   Atom.one (lit ':'), Atom.one (lit ' '), Atom.one (lit dquote),
   Atom.plus (notChar dquote), Atom.one (lit dquote)]

/-- The pattern of `process_urlencoded`, `([^:]+)=(.+)`. Subexpression 1 is
element 0, subexpression 2 element 2. -/
def urlencoded_pattern : List Atom :=
  [Atom.plus (notChar ':'), Atom.one (lit '='), Atom.plus anyChar]

/-! ## string.h, ctype.h, stdlib.h -/

/-- `isspace` in the C locale: space, `\t`, `\n`, `\v`, `\f`, `\r`. -/
def isspace (c : Char) : Bool :=
  decide (c.toNat = 32) || (decide (9 ≤ c.toNat) && decide (c.toNat ≤ 13))

/-- `strchr`: the offset of the first occurrence of the character, or `NULL`. -/
def strchr : CStr → Char → Option Nat
  | [], _ => none
  | c :: cs, a => if c = a then some 0 else (strchr cs a).map (fun i => i + 1)

/-- `strstr`: the offset of the first occurrence of the needle, or `NULL`. -/
def strstr : CStr → CStr → Option Nat
  | [], needle => if needle.isEmpty then some 0 else none
  | c :: cs, needle =>
    if needle.isPrefixOf (c :: cs) then some 0
    else (strstr cs needle).map (fun i => i + 1)

/-- The pieces of `s` between the delimiter characters, empty pieces included. -/
def splitDelim (delim : CStr) : CStr → List CStr
  | [] => [[]]
  | c :: cs =>
    if c ∈ delim then [] :: splitDelim delim cs
    else
      match splitDelim delim cs with
      | [] => [[c]]
      | t :: ts => (c :: t) :: ts

/-- The successive results of `strtok(s, delim)`, `strtok(NULL, delim)`, ... up to
the first `NULL`: the maximal runs of non-delimiter characters. -/
def strtok_all (s delim : CStr) : List CStr :=
  (splitDelim delim s).filter (fun t => !t.isEmpty)

/-- The value of a run of decimal digits. -/
def digitsValue (ds : List Char) : Nat :=
  ds.foldl (fun acc d => acc * 10 + (d.toNat - 48)) 0

/-- `strtoul(s, NULL, 10)` for a 64 bit `unsigned long`: white space, an optional
sign, then digits; `ULONG_MAX` on overflow; a minus sign negates modulo 2^64. -/
def strtoul (s : CStr) : Nat :=
  let s1 := s.dropWhile isspace
  let neg : Bool := match s1 with
    | c :: _ => c == '-'
    | [] => false
  let s2 : CStr := match s1 with
    | c :: cs => if c == '-' || c == '+' then cs else c :: cs
    | [] => []
  let v := digitsValue (s2.takeWhile digit09)
  if 2 ^ 64 ≤ v then 2 ^ 64 - 1
  else if neg then (2 ^ 64 - v) % 2 ^ 64 else v

/-- The C string that starts at the beginning of a memory region: the bytes up to
the first NUL. Memory past the end of the list reads as NUL. -/
def cstr (mem : List Char) : CStr := mem.takeWhile (fun c => !(c == NUL))

/-- `strlen` of the C string at the beginning of a memory region. -/
def strlen (mem : List Char) : Nat := (cstr mem).length

/-- The region after `bytes` has been copied to offset `off` (`memcpy`,
`memmove`, a store to one byte). -/
def memwrite (mem : List Char) (off : Nat) (bytes : List Char) : List Char :=
  mem.take off ++ List.replicate (off - mem.length) NUL ++ bytes ++ mem.drop (off + bytes.length)

/-! ## process_request.c -/

/-- `is_valid_key`: 1 when the key has a character that is not white space. -/
def is_valid_key (key : CStr) : Bool := key.any (fun c => !isspace c)

/-- The `while` loop of `process_query` over the tokens of the query string.
`params` is `req->body.params` and `n_params` the local counter. A token without
`=` leaves `value` pointing at the string literal `""` and `end_key` `NULL`, so
`strndup(token, end_key - token)` copies the whole token, and, once the key has
passed `is_valid_key`, `free(value)` is called on the literal: undefined
behaviour (`none`). -/
def process_query_loop : List CStr → List node_t → Nat → Option (Int × List node_t × Nat)
  | [], params, n_params => some (0, params, n_params)
  | token :: rest, params, n_params =>
    match strchr token '=' with
    | some end_key =>
      let value := token.drop (end_key + 1)
      let key := token.take end_key
      if !is_valid_key key then some (-1, params, n_params)
      else process_query_loop rest (add_param params key value) (n_params + 1)
    | none =>
      let key := token
      if !is_valid_key key then some (-1, params, n_params)
      else none

/-- `process_query`: without `?` in the buffer nothing changes; otherwise the
path becomes the text before the first `?` and the tokens after it, split at `&`,
are added to `body.params`; `n_params` is stored only when the loop ends
normally. -/
def process_query (req : request_t) (buffer : CStr) : Option (Int × request_t) :=
  match strchr buffer '?' with
  | none => some (0, req)
  | some end_path =>
    let copy := buffer.drop (end_path + 1)
    let req1 : request_t := { req with path := some (buffer.take end_path) }
    match process_query_loop (strtok_all copy (str "&")) req1.body.params 0 with
    | none => none
    | some (rc, params, n_params) =>
      if rc < 0 then some (-1, { req1 with body := { req1.body with params := params } })
      else some (0, { req1 with body := { req1.body with params := params, n_params := n_params } })

/-- `parse_first_line`: -1 when the pattern does not match; otherwise method, path
and version are the three subexpressions and `process_query` runs on the path. -/
def parse_first_line (req : request_t) (buffer : CStr) : Option (Int × request_t) :=
  let copy := buffer
  match regexec first_line_pattern copy with
  | none => some (-1, req)
  | some (so, lens) =>
    let path := submatch copy so lens 2 3
    let req1 : request_t :=
      { req with method := some (submatch copy so lens 0 1),
                 path := some path,
                 version := some (submatch copy so lens 9 12) }
    match process_query req1 path with
    | none => none
    | some (rc, req2) => if rc < 0 then some (-1, req2) else some (0, req2)

/-- The `while` loop of `parse_headers` over the tokens of the block. -/
def parse_headers_loop : List CStr → List node_t → Int × List node_t
  | [], headers => (0, headers)
  | token :: rest, headers =>
    match regexec header_pattern token with
    | none => (-1, headers)
    | some (so, lens) =>
      parse_headers_loop rest
        (add_header headers (submatch token so lens 0 1) (submatch token so lens 3 4))

/-- `parse_headers`: the block is split at `\r` and `\n`; each token must match
the header pattern and is added to `req->headers`. -/
def parse_headers (req : request_t) (buffer : CStr) : Int × request_t :=
  let r := parse_headers_loop (strtok_all buffer (str "\r\n")) req.headers
  (r.1, { req with headers := r.2 })

/-- `set_body`: `body.data` becomes a copy of the first `size` bytes of the
buffer. Reading past the end of the buffer is undefined behaviour. -/
def set_body (req : request_t) (buffer : List Char) (size : Nat) : Option (Int × request_t) :=
  if buffer.length < size then none
  else some (0, { req with body := { req.body with data := some (buffer.take size) } })

/-- The `while` loop of `process_json` over the lines of the body. -/
def process_json_loop : List CStr → List node_t → Nat → Int × List node_t × Nat
  | [], params, n_params => (0, params, n_params)
  | token :: rest, params, n_params =>
    if token.head? = some (Char.ofNat 123) || token.head? = some (Char.ofNat 125) then
      process_json_loop rest params n_params
    else
      match regexec json_pattern token with
      | none => (-1, params, n_params)
      | some (so, lens) =>
        process_json_loop rest
          (add_param params (submatch token so lens 1 2) (submatch token so lens 6 7))
          (n_params + 1)

/-- `process_json`: `strdup(buffer)` needs a terminator inside the buffer; the
lines that do not start with a brace must match the JSON pattern. -/
def process_json (req : request_t) (buffer : List Char) (_size : Nat) :
    Option (Int × request_t) :=
  if !(buffer.contains NUL) then none
  else
    match process_json_loop (strtok_all (cstr buffer) (str "\r\n")) req.body.params 0 with
    | (rc, params, n_params) =>
      if rc < 0 then some (-1, { req with body := { req.body with params := params } })
      else some (0, { req with body := { req.body with params := params, n_params := n_params } })

/-- The `while` loop of `process_urlencoded` over the tokens of the body. -/
def process_urlencoded_loop : List CStr → List node_t → Nat → Int × List node_t × Nat
  | [], params, n_params => (0, params, n_params)
  | token :: rest, params, n_params =>
    match regexec urlencoded_pattern token with
    | none => (-1, params, n_params)
    | some (so, lens) =>
      process_urlencoded_loop rest
        (add_param params (submatch token so lens 0 1) (submatch token so lens 2 3))
        (n_params + 1)

/-- `process_urlencoded`: `strdup(buffer)` needs a terminator inside the buffer;
every token between `&` must match the urlencoded pattern. -/
def process_urlencoded (req : request_t) (buffer : List Char) (_size : Nat) :
    Option (Int × request_t) :=
  if !(buffer.contains NUL) then none
  else
    match process_urlencoded_loop (strtok_all (cstr buffer) (str "&")) req.body.params 0 with
    | (rc, params, n_params) =>
      if rc < 0 then some (-1, { req with body := { req.body with params := params } })
      else some (0, { req with body := { req.body with params := params, n_params := n_params } })

/-- `parse_body`: reads `->value` of the node found for `Content-Type` (a `NULL`
dereference when there is none), runs the parser of that content type, and then
`set_body`. -/
def parse_body (req : request_t) (buffer : List Char) (size : Nat) : Option (Int × request_t) :=
  match search_node req.headers (str "Content-Type") with
  | none => none
  | some node =>
    let content := node.value
    let r1 : Option (Int × request_t) :=
      if content = str "application/json" then process_json req buffer size
      else some (0, req)
    match r1 with
    | none => none
    | some (rc1, req1) =>
      if rc1 < 0 then some (-1, req1)
      else
        let r2 : Option (Int × request_t) :=
          if content = str "application/x-www-form-urlencoded" then
            process_urlencoded req1 buffer size
          else some (0, req1)
        match r2 with
        | none => none
        | some (rc2, req2) =>
          if rc2 < 0 then some (-1, req2)
          else
            match set_body req2 buffer size with
            | none => none
            | some (rc3, req3) => if rc3 < 0 then some (-1, req3) else some (0, req3)

/-! ## server.c -/

/-- The size of the receive buffer. -/
def BUFFER_SIZE : Nat := 2000

/-- The size of the request buffer and of the serialization buffer. -/
def MAX_SIZE : Nat := 1048576

/-- The states of the loop of `handle_request`. -/
def STATE_FIRST_LINE : Nat := 0

/-- State 1 of the enum. -/
def STATE_HEADERS : Nat := 1

/-- State 2 of the enum. -/
def STATE_BODY : Nat := 2

/-- State 3 of the enum. -/
def STATE_ELABORATE_RESPONSE : Nat := 3

/-- State 4 of the enum. -/
def STATE_RESET : Nat := 4

/-- `serialize`: the returned pointer (`NULL` when validation fails or the status
message is rejected) and the response after `validate_response`. The status
message is compared with the literal `"Unknown"` by address: `merged` says
whether the compiler and linker gave the two `"Unknown"` literals of
process_response.c and server.c one address (C leaves this unspecified). The
result is built in a buffer of `MAX_SIZE` bytes; writing more, terminator
included, is undefined behaviour (`none`). -/
def serialize (merged : Bool) (res : response_t) : Option (Option CStr × response_t) :=
  match validate_response res with
  | (rc, res1) =>
    if rc < 0 then some (none, res1)
    else
      match get_status_message res1, res1.version, res1.status_code with
      | some status_message, some version, some status_code =>
        if merged && decide (status_message = (str "Unknown")) then some (none, res1)
        else
          match headers_to_string res1 with
          | none => none
          | some headers =>
            let serialized : CStr :=
              (str "HTTP/") ++ version ++ (str " ") ++ status_code ++ (str " ")
                ++ status_message ++ (str "\r\n") ++ headers ++ (str "\r\n")
                ++ (match res1.body with
                    | none => []
                    | some body => body)
            if MAX_SIZE < serialized.length + 1 then none
            else some (some serialized, res1)
      | _, _, _ => none

/-- The `client_t` of client.h as far as the driver uses it: the request and
response in flight, and `out`, the byte strings handed to `send` on `client_fd`
so far, oldest first. -/
structure client_t where
  req : request_t
  res : response_t
  out : List CStr
deriving DecidableEq

/-- `send_response`: -1 and nothing sent when `serialize` returns `NULL`. -/
def send_response (merged : Bool) (client : client_t) : Option (Int × client_t) :=
  match serialize merged client.res with
  | none => none
  | some (none, res1) => some (-1, { client with res := res1 })
  | some (some response, res1) =>
    some (0, { client with res := res1, out := client.out ++ [response] })

/-- `send_error`: replaces the response by a fresh one with the status code, the
message as body and `Content-Type: text/plain`, and sends it; returns 0 whatever
`send_response` returned. -/
def send_error (merged : Bool) (client : client_t) (status_code message : CStr) :
    Option client_t :=
  let res := init_response
  let res := add_status_code_res res status_code
  let res := add_body_res res message
  let res := { res with headers := add_header res.headers (str "Content-Type") (str "text/plain") }
  match send_response merged { client with res := res } with
  | none => none
  | some (_, client1) => some client1

/-- `handle_line`: the line up to and including the first `\r\n` goes to
`parse_first_line`; on failure a 400 is sent, on success the rest of the string,
with its terminator, is moved to the front of the request buffer. Returns the
return code, the client and the request buffer. -/
def handle_line (merged : Bool) (client : client_t) (request : List Char) :
    Option (Int × client_t × List Char) :=
  match strstr (cstr request) (str "\r\n") with
  | none => none
  | some end_of_line =>
    let line := (cstr request).take (end_of_line + 2)
    match parse_first_line client.req line with
    | none => none
    | some (rc, req1) =>
      if rc < 0 then
        match send_error merged { client with req := req1 } (str "400") (str "Bad Request") with
        | none => none
        | some client1 => some (-1, client1, request)
      else
        some (0, { client with req := req1 },
          memwrite request 0 ((cstr request).drop (end_of_line + 2) ++ [NUL]))

/-- `handle_headers`: the block up to and including the first `\r\n\r\n` goes to
`parse_headers`; on failure a 400 is sent. -/
def handle_headers (merged : Bool) (client : client_t) (request : List Char) :
    Option (Int × client_t) :=
  match strstr (cstr request) (str "\r\n\r\n") with
  | none => none
  | some end_of_headers =>
    let headers := (cstr request).take (end_of_headers + 4)
    match parse_headers client.req headers with
    | (rc, req1) =>
      if rc < 0 then
        match send_error merged { client with req := req1 } (str "400") (str "Bad Request") with
        | none => none
        | some client1 => some (-1, client1)
      else some (0, { client with req := req1 })

/-- `handle_body`: `strtoul` of the `Content-Length` header (which must exist),
413 above `MAX_SIZE`, then `parse_body` on that many bytes, 400 when it fails.
The comparison `content_length < 0` of an unsigned value is never true. The
request buffer is followed by zero bytes, so the buffer handed to `parse_body`
is shown with one of them. -/
def handle_body (merged : Bool) (client : client_t) (request : List Char) :
    Option (Int × client_t) :=
  match get_header client.req.headers (str "Content-Length") with
  | none => none
  | some h =>
    let content_length := strtoul h
    if MAX_SIZE < content_length then
      match send_error merged client (str "413") (str "Request Entity Too Large") with
      | none => none
      | some client1 => some (-1, client1)
    else
      match parse_body client.req (request ++ [NUL]) content_length with
      | none => none
      | some (rc, req1) =>
        if rc < 0 then
          match send_error merged { client with req := req1 } (str "400") (str "Bad Request") with
          | none => none
          | some client1 => some (-1, client1)
        else some (0, { client with req := req1 })

/-- The type of the route callbacks: a handler reads the request and fills in the
response. -/
abbrev callback := request_t → response_t → response_t

/-- `handle_response`: 404 when `get_route` finds nothing, otherwise the callback
runs on the request and the response. Method and path must not be `NULL`. -/
def handle_response (merged : Bool) (rt : Routes callback) (client : client_t) :
    Option (Int × client_t) :=
  match client.req.path, client.req.method with
  | some path, some method =>
    match get_route rt method path with
    | none =>
      match send_error merged client (str "404") (str "Not Found") with
      | none => none
      | some client1 => some (-1, client1)
    | some cb => some (0, { client with res := cb client.req client.res })
  | _, _ => none

/-- The locals of `handle_request` together with the client: the state, the
byte counter (a `size_t`, kept modulo 2^64) and the request buffer. The request
buffer has `MAX_SIZE + 1` bytes; `request` lists the bytes from its start up to
the last one written so far, and the bytes after them are zero (the allocator
serves a block of this size from fresh pages). -/
structure conn_t where
  state : Nat
  total_received : Nat
  request : List Char
  client : client_t
deriving DecidableEq

/-- The locals before the first `recv`: `request[0] = 0`. -/
def conn_init (client : client_t) : conn_t :=
  { state := STATE_FIRST_LINE, total_received := 0, request := [NUL], client := client }

/-- The first part of the loop body: the byte counter and the append to the
request buffer. `memcpy` must stay inside the `MAX_SIZE + 1` bytes of the
buffer, and the terminator is stored at `strlen(request)` as measured after the
copy. -/
def step_receive (merged : Bool) (c : conn_t) (buffer : List Char) : Option conn_t :=
  let received := buffer.length
  let total := (c.total_received + received) % 2 ^ 64
  if MAX_SIZE < total then
    match send_error merged c.client (str "413") (str "Request Entity Too Large") with
    | none => none
    | some client1 => some { c with total_received := total, client := client1, state := STATE_RESET }
  else
    if MAX_SIZE + 1 < strlen c.request + received then none
    else
      let request1 := memwrite c.request (strlen c.request) buffer
      if MAX_SIZE < strlen request1 then none
      else some { c with total_received := total,
                         request := memwrite request1 (strlen request1) [NUL] }

/-- The `if (state == STATE_FIRST_LINE)` block. -/
def step_first_line (merged : Bool) (c : conn_t) : Option conn_t :=
  if c.state = STATE_FIRST_LINE then
    if (strstr (cstr c.request) (str "\r\n")).isSome then
      match handle_line merged c.client c.request with
      | none => none
      | some (rc, client1, request1) =>
        some { c with client := client1, request := request1,
                      state := if rc < 0 then STATE_RESET else STATE_HEADERS }
    else some c
  else some c

/-- The `if (state == STATE_HEADERS)` block. The byte counter is decreased by
`strlen(end_of_headers) + 4`, read after the `memmove`. -/
def step_headers (merged : Bool) (c : conn_t) : Option conn_t :=
  if c.state = STATE_HEADERS then
    match strstr (cstr c.request) (str "\r\n\r\n") with
    | none => some c
    | some end_of_headers =>
      match handle_headers merged c.client c.request with
      | none => none
      | some (rc, client1) =>
        let state1 :=
          if rc < 0 then STATE_RESET
          else if (get_header client1.req.headers (str "Content-Length")).isSome then STATE_BODY
          else STATE_ELABORATE_RESPONSE
        let request1 := memwrite c.request 0 ((cstr c.request).drop (end_of_headers + 4) ++ [NUL])
        let total := (c.total_received + 2 ^ 64 - (strlen (request1.drop end_of_headers) + 4) % 2 ^ 64) % 2 ^ 64
        some { state := state1, total_received := total, request := request1, client := client1 }
  else some c

/-- The `if (state == STATE_BODY)` block. -/
def step_body (merged : Bool) (c : conn_t) : Option conn_t :=
  if c.state = STATE_BODY then
    match get_header c.client.req.headers (str "Content-Length") with
    | none => none
    | some h =>
      let content_length := strtoul h
      let request_length := strlen c.request
      if request_length = content_length then
        match handle_body merged c.client c.request with
        | none => none
        | some (rc, client1) =>
          some { c with client := client1,
                        state := if rc < 0 then STATE_RESET else STATE_ELABORATE_RESPONSE }
      else if content_length < request_length then
        match send_error merged c.client (str "400") (str "Bad Request") with
        | none => none
        | some client1 => some { c with client := client1, state := STATE_RESET }
      else some c
  else some c

/-- The `if (state == STATE_ELABORATE_RESPONSE)` block. -/
def step_elaborate (merged : Bool) (rt : Routes callback) (c : conn_t) : Option conn_t :=
  if c.state = STATE_ELABORATE_RESPONSE then
    match handle_response merged rt c.client with
    | none => none
    | some (rc, client1) =>
      if rc < 0 then some { c with client := client1, state := STATE_RESET }
      else
        match send_response merged client1 with
        | none => none
        | some (_, client2) => some { c with client := client2, state := STATE_RESET }
  else some c

/-- The `if (state == STATE_RESET)` block. -/
def step_reset (c : conn_t) : conn_t :=
  if c.state = STATE_RESET then
    { c with client := { c.client with req := init_request, res := init_response },
             request := memwrite c.request 0 [NUL],
             state := STATE_FIRST_LINE }
  else c

/-- One iteration of the `while` loop of `handle_request`, for a `recv` that
returned `buffer.length > 0` bytes. -/
def handle_request_step (merged : Bool) (rt : Routes callback) (c : conn_t) (buffer : List Char) :
    Option conn_t :=
  (step_receive merged c buffer).bind fun c1 =>
  (step_first_line merged c1).bind fun c2 =>
  (step_headers merged c2).bind fun c3 =>
  (step_body merged c3).bind fun c4 =>
  (step_elaborate merged rt c4).bind fun c5 =>
  some (step_reset c5)

/-- The `while` loop of `handle_request` over the successive non-empty results
of `recv`. -/
def handle_request_loop (merged : Bool) (rt : Routes callback) : conn_t → List (List Char) → Option conn_t
  | c, [] => some c
  | c, buffer :: rest =>
    match handle_request_step merged rt c buffer with
    | none => none
    | some c1 => handle_request_loop merged rt c1 rest

/-- The bytes sent on a connection that `run_server` has just accepted (fresh
request and response) while the loop of `handle_request` consumes the chunks. -/
def replies (merged : Bool) (rt : Routes callback) (chunks : List (List Char)) : Option (List CStr) :=
  (handle_request_loop merged rt
    (conn_init { req := init_request, res := init_response, out := [] }) chunks).map
    (fun c => c.client.out)

/-! ## Inputs used by the examples -/

/-- A response as a handler leaves it: status 200, one `Content-Type` header and
a body; version and `Content-Length` unset. -/
def handler_response (t b : CStr) : response_t :=
  add_body_res
    { add_status_code_res init_response (str "200") with
      headers := add_header init_response.headers (str "Content-Type") t } b

/-- A handler that sets status 200, `Content-Type: text/html` and the body
`<h1>Hi</h1>`. -/
def hi_handler : callback := fun _ res =>
  add_body_res
    { add_status_code_res res (str "200") with
      headers := add_header res.headers (str "Content-Type") (str "text/html") }
    (str "<h1>Hi</h1>")

/-- The text `Key: Value\r\n` for each node of a header list, head first. -/
def render_headers (headers : List node_t) : CStr :=
  headers.flatMap (fun n => n.key ++ str ": " ++ n.value ++ str "\r\n")

/-- The bytes of a response on the wire: the status line, the header lines, an
empty line and the body. -/
def wire_format (version status_code reason : CStr) (headers : List node_t)
    (body : Option CStr) : CStr :=
  str "HTTP/" ++ version ++ str " " ++ status_code ++ str " " ++ reason ++ str "\r\n"
    ++ render_headers headers ++ str "\r\n"
    ++ (match body with
        | none => []
        | some b => b)

/-- The text of a block of header lines `K: V\r\n`, one for each pair. -/
def header_block (kvs : List (CStr × CStr)) : CStr :=
  kvs.flatMap (fun kv => kv.1 ++ str ": " ++ kv.2 ++ str "\r\n")

/-- The node that stores a key and value pair. -/
def node_of (kv : CStr × CStr) : node_t := { key := kv.1, value := kv.2 }

/-- The value of the last pair of the list that has the key, if any. -/
def last_value (kvs : List (CStr × CStr)) (k : CStr) : Option CStr :=
  match kvs.reverse.find? (fun kv => decide (kv.1 = k)) with
  | some kv => some kv.2
  | none => none

/-- The route table after `add_route("POST", "/", hi_handler)`. -/
def post_routes : Routes callback :=
  (add_route (Routes.empty callback) (str "POST") (str "/") hi_handler).2

/-- A complete request with a one-byte body, up to and including the empty line. -/
def post_head : List Char :=
  str "POST / HTTP/1.1\r\nContent-Type: text/plain\r\nContent-Length: 1\r\n\r\n"

/-- The query string `k1=v1&...&kn=vn` of a list of pairs. -/
def query_string : List (CStr × CStr) → CStr
  | [] => []
  | [kv] => kv.1 ++ '=' :: kv.2
  | kv :: kv2 :: rest => kv.1 ++ '=' :: kv.2 ++ '&' :: query_string (kv2 :: rest)

/-- The 19 status codes of the table of `get_status_message`. -/
def status_codes : List CStr :=
  [str "100", str "101", str "200", str "201", str "202", str "204", str "301", str "302",
   str "304", str "400", str "401", str "403", str "404", str "413", str "415", str "500",
   str "501", str "502", str "503"]

/-- A 404 response with two headers, before validation. -/
def not_found_response : response_t :=
  { version := none, status_code := some (str "404"),
    headers := [{ key := str "X-A", value := str "1" },
                { key := str "Content-Type", value := str "text/plain" }],
    body := some (str "gone") }

/-- The response `not_found_response` after validation. -/
def not_found_validated : response_t :=
  { version := some (str "1.1"), status_code := some (str "404"),
    headers := [{ key := str "Content-Length", value := str "4" },
                { key := str "X-A", value := str "1" },
                { key := str "Content-Type", value := str "text/plain" }],
    body := some (str "gone") }

/-- A body of 1,048,576 bytes. -/
def big_body : CStr := List.replicate 1048576 'a'

/-- A header value of 8,192 bytes. -/
def big_value : CStr := List.replicate 8192 'a'

/-- The five methods that `add_route` accepts. -/
def supported_methods : List CStr :=
  [(str "GET"), (str "POST"), (str "PUT"), (str "DELETE"), (str "PATCH")]

/-- The list that `get_route` scans for a method: the list of that method, or
the empty list (`head` stays `NULL`) for any other method. -/
def method_routes {H : Type} (rt : Routes H) (method : CStr) : List (route_t H) :=
  if method = str "GET" then rt.get
  else if method = str "POST" then rt.post
  else if method = str "PUT" then rt.put
  else if method = str "DELETE" then rt.delete
  else if method = str "PATCH" then rt.patch
  else []

/-- The route table after the calls `add_route(method, path, cb)` of a list of
registrations, made in list order on the table `rt`. -/
def register_all {H : Type} (regs : List (CStr × CStr × H)) (rt : Routes H) : Routes H :=
  regs.foldl (fun t r => (add_route t r.1 r.2.1 r.2.2).2) rt

/-- The text `k1=v1&...&kn=vn&` of a list of pairs, each pair followed by `&`. -/
def query_run (kvs : List (CStr × CStr)) : CStr :=
  kvs.flatMap (fun kv => kv.1 ++ '=' :: kv.2 ++ ['&'])

/-- A response with the status code `999`, which is not in the table, a
`Content-Type` header and the body `x`. -/
def unknown_status_response : response_t :=
  { version := none, status_code := some (str "999"),
    headers := [{ key := str "Content-Type", value := str "text/plain" }],
    body := some (str "x") }

/-- A line begins with an opening or a closing brace, the test of `process_json`
on `token[0]`. -/
def starts_with_brace (token : CStr) : Bool :=
  token.head? = some (Char.ofNat 123) || token.head? = some (Char.ofNat 125)

/-- A request that carries only the header `Content-Type: application/json`. -/
def json_request : request_t :=
  { init_request with headers := [{ key := str "Content-Type", value := str "application/json" }] }

/-- A request that carries only the header
`Content-Type: application/x-www-form-urlencoded`. -/
def form_request : request_t :=
  { init_request with
    headers := [{ key := str "Content-Type", value := str "application/x-www-form-urlencoded" }] }

/-- The pieces joined with a separator between neighbours. -/
def sep_join (sep : CStr) : List CStr → CStr
  | [] => []
  | [t] => t
  | t :: t2 :: rest => t ++ sep ++ sep_join sep (t2 :: rest)

/-- A line of a JSON body, by what `process_json` does with it: a line that
begins with a brace, or a line `indent "key": "value" trailer`. -/
inductive json_line where
  | skipped (text : CStr)
  | pair (indent key value trailer : CStr)

/-- The characters of a line. -/
def json_line.text : json_line → CStr
  | json_line.skipped t => t
  | json_line.pair indent k v trailer =>
    indent ++ (dquote :: (k ++ (dquote :: ':' :: ' ' :: dquote :: (v ++ (dquote :: trailer)))))

/-- The params that a line contributes. -/
def json_line.params : json_line → List node_t
  | json_line.skipped _ => []
  | json_line.pair _ k v _ => [{ key := k, value := v }]

/-- A character that can stand inside a line of a body: not a line break and not
the terminator. -/
def line_char (c : Char) : Bool := !(c == '\r') && !(c == '\n') && !(c == NUL)

/-- The shape of the lines: a skipped line begins with a brace; a pair line does
not, has no quote in its indent, and has a key and a value that are non-empty and
free of quotes; no line is empty or holds a line break or a terminator. -/
def json_line.wf : json_line → Bool
  | json_line.skipped t => starts_with_brace t && t.all line_char
  | json_line.pair indent k v trailer =>
    !starts_with_brace (json_line.text (json_line.pair indent k v trailer)) &&
    indent.all (notChar dquote) &&
    !k.isEmpty && k.all (notChar dquote) && !v.isEmpty && v.all (notChar dquote) &&
    (json_line.text (json_line.pair indent k v trailer)).all line_char

/-- The three lines of an object with the pair `a`, `b`: an opening brace, the
pair, a closing brace. -/
def json_object_lines : List json_line :=
  [json_line.skipped [Char.ofNat 123], json_line.pair [] (str "a") (str "b") [],
   json_line.skipped [Char.ofNat 125]]

/-- The same object on one line: brace, quoted `a`, colon, space, quoted `b`,
brace. -/
def json_one_line : CStr :=
  Char.ofNat 123 :: dquote :: 'a' :: dquote :: ':' :: ' ' :: dquote :: 'b' :: dquote ::
    [Char.ofNat 125]

/-- An array bracket on a line of its own, then the pair `a`, `b` on a line. -/
def json_array_lines : CStr :=
  '[' :: '\n' :: dquote :: 'a' :: dquote :: ':' :: ' ' :: dquote :: 'b' :: [dquote]

/-- The response that `send_error` builds before it is validated: the status
code, `Content-Type: text/plain` and the message as body. -/
def error_response (status_code message : CStr) : response_t :=
  { version := none, status_code := some status_code,
    headers := [{ key := str "Content-Type", value := str "text/plain" }], body := some message }

/-- The bytes of the 400 response of `send_error`. -/
def bad_request_bytes : CStr :=
  str "HTTP/1.1 400 Bad Request\r\nContent-Length: 11\r\nContent-Type: text/plain\r\n\r\nBad Request"

/-- The bytes of the 404 response of `send_error`. -/
def not_found_bytes : CStr :=
  str "HTTP/1.1 404 Not Found\r\nContent-Length: 9\r\nContent-Type: text/plain\r\n\r\nNot Found"

/-- The line stage runs in this state and fails: the state is `STATE_FIRST_LINE`,
the buffer holds a `\r\n`, and `parse_first_line` returns -1 on the line. -/
def line_stage_fails (c : conn_t) : Bool :=
  decide (c.state = STATE_FIRST_LINE) &&
  match strstr (cstr c.request) (str "\r\n") with
  | none => false
  | some end_of_line =>
    match parse_first_line c.client.req ((cstr c.request).take (end_of_line + 2)) with
    | none => false
    | some (rc, _) => decide (rc < 0)

/-- The headers stage runs in this state and fails: the state is `STATE_HEADERS`,
the buffer holds a `\r\n\r\n`, and `parse_headers` returns -1 on the block. -/
def headers_stage_fails (c : conn_t) : Bool :=
  decide (c.state = STATE_HEADERS) &&
  match strstr (cstr c.request) (str "\r\n\r\n") with
  | none => false
  | some end_of_headers =>
    decide ((parse_headers c.client.req ((cstr c.request).take (end_of_headers + 4))).1 < 0)

/-- The body stage fails in this state: the state is `STATE_BODY` and either the
buffer holds more bytes than the declared `Content-Length`, or it holds exactly
that many, at most `MAX_SIZE`, and `parse_body` returns -1 on them. -/
def body_stage_fails (c : conn_t) : Bool :=
  decide (c.state = STATE_BODY) &&
  match get_header c.client.req.headers (str "Content-Length") with
  | none => false
  | some h =>
    if strtoul h < strlen c.request then true
    else if strlen c.request = strtoul h ∧ strtoul h ≤ MAX_SIZE then
      match parse_body c.client.req (c.request ++ [NUL]) (strtoul h) with
      | none => false
      | some (rc, _) => decide (rc < 0)
    else false

/-- The blocks of the loop body from the `STATE_ELABORATE_RESPONSE` block on. -/
def from_elaborate (merged : Bool) (rt : Routes callback) (c : conn_t) : Option conn_t :=
  (step_elaborate merged rt c).bind fun c5 => some (step_reset c5)

/-- The blocks of the loop body from the `STATE_BODY` block on. -/
def from_body (merged : Bool) (rt : Routes callback) (c : conn_t) : Option conn_t :=
  (step_body merged c).bind (from_elaborate merged rt)

/-- The blocks of the loop body from the `STATE_HEADERS` block on. -/
def from_headers (merged : Bool) (rt : Routes callback) (c : conn_t) : Option conn_t :=
  (step_headers merged c).bind (from_body merged rt)

/-- The blocks of the loop body from the `STATE_FIRST_LINE` block on. -/
def from_first_line (merged : Bool) (rt : Routes callback) (c : conn_t) : Option conn_t :=
  (step_first_line merged c).bind (from_headers merged rt)

/-- The connection after the `STATE_RESET` block, with the bytes sent so far:
state `STATE_FIRST_LINE`, a terminator at the start of the request buffer, a
fresh request and a fresh response. The byte counter is left as it is. -/
def after_reset (c : conn_t) (out : List CStr) : conn_t :=
  { state := STATE_FIRST_LINE, total_received := c.total_received,
    request := memwrite c.request 0 [NUL],
    client := { req := init_request, res := init_response, out := out } }

/-- The client of a connection that `run_server` has just accepted. -/
def fresh_client : client_t := { req := init_request, res := init_response, out := [] }

/-- A connection in `STATE_ELABORATE_RESPONSE` with the parsed request `GET /`. -/
def dispatch_conn : conn_t :=
  { state := STATE_ELABORATE_RESPONSE, total_received := 0, request := [NUL],
    client := { req := { init_request with method := some (str "GET"), path := some (str "/"),
                                           version := some (str "1.1") },
                res := init_response, out := [] } }

/-- The route table after `add_route("GET", "/", hi_handler)`. -/
def get_routes : Routes callback :=
  (add_route (Routes.empty callback) (str "GET") (str "/") hi_handler).2

/-- A request head that declares a body of 2,000,000 bytes. -/
def oversize_head : List Char :=
  str "POST / HTTP/1.1\r\nContent-Type: text/plain\r\nContent-Length: 2000000\r\n\r\n"

/-- A complete request without a body. -/
def get_request : List Char := str "GET / HTTP/1.1\r\nHost: x\r\n\r\n"

/-- A body whose first line is the pair `a`, `b` and whose second line is
`oops`. -/
def json_bad_second_line : CStr :=
  dquote :: 'a' :: dquote :: ':' :: ' ' :: dquote :: 'b' :: dquote :: '\n' :: str "oops"

/-- The bytes of the 413 response of `send_error`. -/
def too_large_bytes : CStr :=
  str "HTTP/1.1 413 Payload Too Large\r\nContent-Length: 24\r\nContent-Type: text/plain\r\n\r\nRequest Entity Too Large"

/-- The bytes of the response that `hi_handler` leaves. -/
def hi_bytes : CStr :=
  str "HTTP/1.1 200 OK\r\nContent-Length: 11\r\nContent-Type: text/html\r\n\r\n<h1>Hi</h1>"

/-- A chunk that is not a request line: one hundred `x` and a line end. -/
def long_bad_line : List Char := List.replicate 100 'x' ++ str "\r\n"

/-- A complete `POST /` request with the one-byte body `x`. -/
def post_request : List Char := post_head ++ str "x"

/-- A complete `GET` request for a path that has no route, longer than
`post_request`. -/
def long_get_request : List Char :=
  str "GET /a/long/path/without/a/route/that/is/longer/than/the/post/request HTTP/1.1\r\nHost: x\r\n\r\n"

/-- A complete `GET /x` request. -/
def get_x_request : List Char := str "GET /x HTTP/1.1\r\nHost: x\r\n\r\n"

/-- A request line followed directly by the empty line. -/
def bare_get_request : List Char := str "GET / HTTP/1.1\r\n\r\n"

/-- A request that declares an empty body and has no `Content-Type` header. -/
def empty_body_request : List Char := str "POST / HTTP/1.1\r\nContent-Length: 0\r\n\r\n"

/-- A handler that sets a body and no `Content-Type` header. -/
def bare_handler : callback := fun _ res => add_body_res res (str "hi")

/-- A handler that sets the status code `999`, a `Content-Type` header and a
body. -/
def odd_status_handler : callback := fun _ res =>
  add_body_res
    { add_status_code_res res (str "999") with
      headers := add_header res.headers (str "Content-Type") (str "text/plain") }
    (str "x")

/-- The route table after `add_route("GET", "/", bare_handler)`. -/
def bare_routes : Routes callback :=
  (add_route (Routes.empty callback) (str "GET") (str "/") bare_handler).2

/-- The route table after `add_route("GET", "/", odd_status_handler)`. -/
def odd_status_routes : Routes callback :=
  (add_route (Routes.empty callback) (str "GET") (str "/") odd_status_handler).2

/-- What a call of `recv` on the client socket gives: bytes (as many as the
return value), 0 when the peer has closed, or -1 on an error. -/
inductive recv_t where
  | data (bytes : List Char)
  | closed
  | error

/-- The return value of `recv`, an `ssize_t`. -/
def recv_t.ret : recv_t → Int
  | recv_t.data bytes => bytes.length
  | recv_t.closed => 0
  | recv_t.error => -1

/-- The bytes that `recv` stored in `buffer`. -/
def recv_t.bytes : recv_t → List Char
  | recv_t.data bytes => bytes
  | recv_t.closed => []
  | recv_t.error => []

/-- The loop condition `(received = recv(...)) > 0` of `handle_request` and, when
it holds, one run of the loop body. `received` is a `size_t`: the return value of
`recv` is converted modulo 2^64 before it is compared with 0. The loop body
starts with `buffer[received] = 0`, and `buffer` has `BUFFER_SIZE + 1` bytes: a
store past them is undefined behaviour (`none`). `some none` says that the loop
has ended. -/
def handle_request_recv (merged : Bool) (rt : Routes callback) (c : conn_t) (r : recv_t) :
    Option (Option conn_t) :=
  let received : Nat := (r.ret % 2 ^ 64).toNat
  if 0 < received then
    if BUFFER_SIZE < received then none
    else (handle_request_step merged rt c r.bytes).map some
  else some none

/-- An entry of the list `clients` of client.c, as far as `remove_client` and
`free_clients` read it. -/
structure entry_t where
  client_fd : Int
  thread_id : Nat
deriving DecidableEq

/-- `remove_client`: unlinks the first entry with the descriptor and closes its
socket. Returns the descriptors passed to `close` and the list. -/
def remove_client : List entry_t → Int → List Int × List entry_t
  | [], _ => ([], [])
  | current :: rest, client_fd =>
    if current.client_fd = client_fd then ([current.client_fd], rest)
    else ((remove_client rest client_fd).1, current :: (remove_client rest client_fd).2)

/-- `handle_request` from the first `recv` on: the loop over the results of
`recv`, then `remove_client(client->client_fd)` on the list `clients`. Returns the
connection at the end of the loop, the descriptors closed and the list. When the
results run out the peer is taken to have closed. -/
def handle_request (merged : Bool) (rt : Routes callback) (clients : List entry_t)
    (client_fd : Int) : conn_t → List recv_t → Option (conn_t × List Int × List entry_t)
  | c, [] => some (c, remove_client clients client_fd)
  | c, r :: rest =>
    match handle_request_recv merged rt c r with
    | none => none
    | some none => some (c, remove_client clients client_fd)
    | some (some c1) => handle_request merged rt clients client_fd c1 rest

/-- The loop of `free_clients` over the entries from `current` on. `head` is the
entry that the global `clients` points to during the whole loop and `head_freed`
says whether an earlier iteration has freed it: the loop passes
`clients->client_fd` and `clients->thread_id`, not the fields of `current`, to
`close` and `pthread_cancel`, and reading them from a freed entry is undefined
behaviour. Returns the descriptors closed and the threads cancelled, in order. -/
def free_clients_loop (head : entry_t) :
    List entry_t → Bool → List Int → List Nat → Option (List Int × List Nat)
  | [], _, closed, cancelled => some (closed, cancelled)
  | _ :: next, head_freed, closed, cancelled =>
    if head_freed then none
    else
      free_clients_loop head next true (closed ++ [head.client_fd])
        (if head.thread_id ≠ 0 then cancelled ++ [head.thread_id] else cancelled)

/-- `free_clients`: the loop, then `clients = NULL`. Returns the descriptors
closed, the threads cancelled and the list afterwards. -/
def free_clients (clients : List entry_t) : Option (List Int × List Nat × List entry_t) :=
  match clients with
  | [] => some ([], [], [])
  | head :: rest =>
    (free_clients_loop head (head :: rest) false [] []).map (fun r => (r.1, r.2, []))

/-- The request buffer after `get_request` has been answered on a fresh
connection: a terminator, then what is left of the request. -/
def idle_request : List Char :=
  NUL :: (str "ost: x\r\n\r\n" ++ NUL :: (str ".1\r\nHost: x\r\n\r\n" ++ [NUL]))

/-- The connection between two exchanges of `get_request`: state
`STATE_FIRST_LINE`, the byte counter `total`, the buffer `idle_request`, a fresh
request and response, and the bytes `out` sent so far. -/
def idle_conn (total : Nat) (out : List CStr) : conn_t :=
  { state := STATE_FIRST_LINE, total_received := total, request := idle_request,
    client := { req := init_request, res := init_response, out := out } }

/-- The request line `POST /p?x=1 HTTP/1.1`, the header block that declares a
JSON body, and the one-line body with the pair `a`, `b`. -/
def query_and_json_line : CStr := str "POST /p?x=1 HTTP/1.1\r\n"

/-- The header block of the request of `query_and_json_line`. -/
def json_header_block : CStr := str "Content-Type: application/json\r\n\r\n"

/-- The body of the request of `query_and_json_line`. -/
def json_pair_body : CStr :=
  dquote :: 'a' :: dquote :: ':' :: ' ' :: dquote :: 'b' :: [dquote]

/-- The line stage, the headers stage and the body stage applied in turn to a
fresh request; `none` when a stage fails or is undefined. -/
def parse_all (line headers body : CStr) : Option request_t :=
  match parse_first_line init_request line with
  | some (0, req1) =>
    match parse_headers req1 headers with
    | (0, req2) =>
      match parse_body req2 (body ++ [NUL]) body.length with
      | some (0, req3) => some req3
      | _ => none
    | _ => none
  | _ => none

/-- The request buffer after the request line of `get_request` has been
consumed. -/
def idle_request_headers : List Char :=
  str "Host: x\r\n\r\n" ++ NUL :: (str ".1\r\nHost: x\r\n\r\n" ++ [NUL])

/-- The request that the line stage makes of `get_request`. -/
def get_request_line_fields : request_t :=
  { init_request with method := some (str "GET"), path := some (str "/"),
                      version := some (str "1.1") }

/-- The request that the line and headers stages make of `get_request`. -/
def get_request_fields : request_t :=
  { get_request_line_fields with headers := [{ key := str "Host", value := str "x" }] }

/-- The response that `bare_handler` leaves for the request of `dispatch_conn`. -/
def bare_dispatch_response : response_t := bare_handler dispatch_conn.client.req init_response

/-! ## Theorems -/

/-! ### Response validation -/

theorem get_header_eq_none_iff (l : List node_t) (k : CStr) :
    get_header l k = none ↔ search_node l k = none := by
  unfold get_header
  cases search_node l k <;> simp

theorem get_header_add_header_self (l : List node_t) (k v : CStr) :
    get_header (add_header l k v) k = some v := by
  simp [get_header, add_header, insert_node, search_node]

theorem get_header_add_header_of_ne (l : List node_t) (k k2 v : CStr) (h : k ≠ k2) :
    get_header (add_header l k v) k2 = get_header l k2 := by
  simp [get_header, add_header, insert_node, search_node, h]

theorem get_header_nil (k : CStr) : get_header [] k = none := rfl

/-- C8: `validate_response` returns -1 exactly when the response has no
`Content-Type` header (a response without any header is such a response), and
returns 0 exactly when it has one, whatever the other fields are. -/
theorem validate_response_fails_iff_no_content_type (res : response_t) :
    ((validate_response res).1 = -1 ↔ get_header res.headers (str "Content-Type") = none) ∧
    ((validate_response res).1 = 0 ↔ get_header res.headers (str "Content-Type") ≠ none) := by
  unfold validate_response
  cases hh : res.headers with
  | nil => simp [get_header_nil]
  | cons n ns =>
    cases hv : res.version <;> cases hs : res.status_code <;>
      cases hct : get_header (n :: ns) (str "Content-Type") <;>
      cases hcl : get_header (n :: ns) (str "Content-Length") <;>
      simp [hh, hv, hs, hct, hcl]

/-- C9: with a `Content-Type` header and no `Content-Length` header,
`validate_response` succeeds and `Content-Length` is afterwards found with the
decimal length of the body (`0` for an absent or empty body); with a
`Content-Length` header already present the header list is left as it was. -/
theorem validate_response_content_length (res : response_t) :
    (get_header res.headers (str "Content-Type") ≠ none →
      get_header res.headers (str "Content-Length") = none →
        (validate_response res).1 = 0 ∧
        get_header (validate_response res).2.headers (str "Content-Length") =
          some (Nat.repr (match res.body with
                          | none => 0
                          | some body => body.length)).toList) ∧
    (get_header res.headers (str "Content-Length") ≠ none →
      (validate_response res).2.headers = res.headers) := by
  unfold validate_response
  cases hh : res.headers with
  | nil => simp [get_header_nil]
  | cons n ns =>
    cases hv : res.version <;> cases hs : res.status_code <;>
      cases hct : get_header (n :: ns) (str "Content-Type") <;>
      cases hcl : get_header (n :: ns) (str "Content-Length") <;>
      cases hb : res.body <;>
      simp [hh, hv, hs, hct, hcl, hb, content_length, get_header_add_header_self] <;>
      first
        | rfl
        | (intro h0; subst h0; rfl)

/-- C9, at the response with `Content-Type: text/plain` and body `hello`:
validation succeeds and `Content-Length` is `5`. -/
theorem validate_response_content_length_witness :
    (validate_response (handler_response (str "text/plain") (str "hello"))).1 = 0 ∧
    get_header (validate_response (handler_response (str "text/plain") (str "hello"))).2.headers
      (str "Content-Length") = some (str "5") :=
  (validate_response_content_length (handler_response (str "text/plain") (str "hello"))).1
    (by decide) (by decide)

/-! ### Router -/

theorem add_route_of_mem {H : Type} (rt : Routes H) (m p : CStr) (h : H)
    (hm : m ∈ supported_methods) :
    (add_route rt m p h).1 = 0 := by
  simp only [supported_methods, List.mem_cons, List.mem_singleton, List.mem_nil_iff,
    or_false] at hm
  unfold add_route insert_route
  rcases hm with hm | hm | hm | hm | hm <;> subst hm <;> (repeat' split) <;>
    first
      | rfl
      | (exfalso; simp_all)

theorem get_route_add_route {H : Type} (rt : Routes H) (m p : CStr) (h : H)
    (hok : (add_route rt m p h).1 = 0) :
    get_route (add_route rt m p h).2 m p = some h := by
  unfold add_route insert_route at *
  unfold get_route
  by_cases h1 : m = str "GET"
  · simp [h1, get_route_loop]
  by_cases h2 : m = str "POST"
  · simp [h1, h2, get_route_loop]
  by_cases h3 : m = str "PUT"
  · simp [h1, h2, h3, get_route_loop]
  by_cases h4 : m = str "DELETE"
  · simp [h1, h2, h3, h4, get_route_loop]
  by_cases h5 : m = str "PATCH"
  · simp [h1, h2, h3, h4, h5, get_route_loop]
  simp [h1, h2, h3, h4, h5] at hok

/-- C10: for a supported method, after `add_route(m, p, h1)` and then
`add_route(m, p, h2)`, `get_route(m, p)` returns `h2`; and right after any
successful `add_route(m, p, h)`, `get_route(m, p)` returns `h`, whatever the
table held before. -/
theorem get_route_returns_latest {H : Type} (rt : Routes H) (m p : CStr) (h1 h2 : H) :
    (m ∈ supported_methods →
      get_route (add_route (add_route rt m p h1).2 m p h2).2 m p = some h2) ∧
    ((add_route rt m p h2).1 = 0 → get_route (add_route rt m p h2).2 m p = some h2) :=
  ⟨fun hm => get_route_add_route _ m p h2 (add_route_of_mem _ m p h2 hm),
   fun hok => get_route_add_route rt m p h2 hok⟩

/-- C10, at the empty table with `GET /a` registered twice (handlers 1 and 2):
the lookup returns handler 2. -/
theorem get_route_returns_latest_witness :
    get_route (add_route (add_route (Routes.empty Nat) (str "GET") (str "/a") 1).2
      (str "GET") (str "/a") 2).2 (str "GET") (str "/a") = some 2 :=
  (get_route_returns_latest (Routes.empty Nat) (str "GET") (str "/a") 1 2).1 (by decide)

/-! ### The body stage -/

theorem set_body_eq_some (req req1 : request_t) (buffer : List Char) (size : Nat) (rc : Int)
    (h : set_body req buffer size = some (rc, req1)) :
    rc = 0 ∧ req1.body.data = some (buffer.take size) ∧ size ≤ buffer.length := by
  unfold set_body at h
  split at h
  · simp at h
  · rename_i hlen
    simp only [Option.some.injEq, Prod.mk.injEq] at h
    obtain ⟨h1, h2⟩ := h
    subst h2
    exact ⟨h1.symm, rfl, by omega⟩

/-- C4: whenever `parse_body` succeeds, `body.data` is the first `size` bytes of
the buffer, and these are `size` bytes, whatever the content type and whatever
`body.data` and `body.params` held before. -/
theorem parse_body_stores_raw_bytes (req req1 : request_t) (buffer : List Char) (size : Nat)
    (hok : parse_body req buffer size = some (0, req1)) :
    req1.body.data = some (buffer.take size) ∧ (buffer.take size).length = size := by
  have key : ∀ r : request_t, (∃ rc, set_body r buffer size = some (rc, req1)) →
      req1.body.data = some (buffer.take size) ∧ (buffer.take size).length = size := by
    intro r ⟨rc, h⟩
    obtain ⟨_, h2, h3⟩ := set_body_eq_some r req1 buffer size rc h
    exact ⟨h2, by simp only [List.length_take]; omega⟩
  unfold parse_body at hok
  split at hok
  · simp at hok
  · simp only at hok
    split at hok
    · simp at hok
    · split at hok
      · simp at hok
      · split at hok
        · simp at hok
        · split at hok
          · simp at hok
          · split at hok
            · simp at hok
            · rename_i rc3 req3 hset
              split at hok
              · simp at hok
              · simp only [Option.some.injEq, Prod.mk.injEq, true_and] at hok
                subst hok
                exact key _ ⟨rc3, hset⟩

/-- C4, at a form body `a=b` of three bytes: `parse_body` succeeds, stores the
three bytes and the param next to them. -/
theorem parse_body_stores_raw_bytes_witness :
    (parse_body { init_request with
        headers := [{ key := str "Content-Type", value := str "application/x-www-form-urlencoded" }] }
      (str "a=b" ++ [NUL]) 3 =
      some (0, { init_request with
        headers := [{ key := str "Content-Type", value := str "application/x-www-form-urlencoded" }],
        body := { data := some (str "a=b"), params := [{ key := str "a", value := str "b" }],
                  n_params := 1 } })) ∧
    (some (str "a=b") = some ((str "a=b" ++ [NUL]).take 3) ∧
      ((str "a=b" ++ [NUL]).take 3).length = 3) :=
  ⟨by decide,
   parse_body_stores_raw_bytes
     { init_request with
        headers := [{ key := str "Content-Type", value := str "application/x-www-form-urlencoded" }] }
     { init_request with
        headers := [{ key := str "Content-Type", value := str "application/x-www-form-urlencoded" }],
        body := { data := some (str "a=b"), params := [{ key := str "a", value := str "b" }],
                  n_params := 1 } }
     (str "a=b" ++ [NUL]) 3 (by decide)⟩

/-! ### Serialization -/

theorem headers_to_string_loop_eq (hs : List node_t) :
    ∀ (max_size : Nat) (acc : CStr), 4096 ≤ max_size → acc.length + 1 ≤ max_size →
      (∀ n ∈ hs, n.key.length + n.value.length + 4 < 4096) →
      headers_to_string_loop hs max_size acc = some (acc ++ render_headers hs) := by
  induction hs with
  | nil => intro max_size acc _ _ _; simp [headers_to_string_loop, render_headers]
  | cons n ns ih =>
    intro max_size acc hmax hacc hfit
    have hn := hfit n (List.mem_cons_self n ns)
    have hns : ∀ m ∈ ns, m.key.length + m.value.length + 4 < 4096 :=
      fun m hm => hfit m (List.mem_cons_of_mem n hm)
    have hlen : (acc ++ n.key ++ str ": " ++ n.value ++ str "\r\n").length =
        acc.length + (n.key.length + n.value.length + 4) := by
      simp only [List.length_append]
      have h1 : (str ": ").length = 2 := by decide
      have h2 : (str "\r\n").length = 2 := by decide
      omega
    unfold headers_to_string_loop
    simp only
    by_cases hgrow : acc.length + (n.key.length + n.value.length + 4) + 1 > max_size
    · rw [if_pos hgrow]
      have hfits : ¬ (acc.length + (n.key.length + n.value.length + 4) + 1 > max_size * 2) := by
        omega
      rw [if_neg hfits, ih (max_size * 2) _ (by omega) (by rw [hlen]; omega) hns]
      simp [render_headers, List.append_assoc]
    · rw [if_neg hgrow, if_neg hgrow, ih max_size _ hmax (by rw [hlen]; omega) hns]
      simp [render_headers, List.append_assoc]

theorem headers_to_string_eq (res : response_t)
    (hfit : ∀ n ∈ res.headers, n.key.length + n.value.length + 4 < 4096) :
    headers_to_string res = some (render_headers res.headers) := by
  unfold headers_to_string
  rw [headers_to_string_loop_eq res.headers 4096 [] (le_refl _) (by simp) hfit]
  simp

theorem status_message_of_mem :
    ∀ status_code ∈ status_codes, status_message status_code ≠ str "Unknown" := by
  decide

theorem serialize_eq_wire_format (merged : Bool) (res res1 : response_t)
    (version status_code : CStr)
    (hval : validate_response res = (0, res1))
    (hv : res1.version = some version) (hs : res1.status_code = some status_code)
    (hmem : status_code ∈ status_codes)
    (hfit : ∀ n ∈ res1.headers, n.key.length + n.value.length + 4 < 4096)
    (hsize : (wire_format version status_code (status_message status_code) res1.headers
      res1.body).length < MAX_SIZE) :
    serialize merged res =
      some (some (wire_format version status_code (status_message status_code) res1.headers
        res1.body), res1) := by
  have hunk := status_message_of_mem status_code hmem
  unfold serialize
  rw [hval]
  simp only [get_status_message, hs, hv, headers_to_string_eq res1 hfit]
  have hnot : ¬ (MAX_SIZE < (wire_format version status_code (status_message status_code)
      res1.headers res1.body).length + 1) := by omega
  unfold wire_format at hnot hsize ⊢
  simp only [hunk, decide_False, Bool.and_false, if_neg hnot]
  simp

theorem big_body_length : big_body.length = 1048576 := List.length_replicate _ _

theorem big_value_length : big_value.length = 8192 := List.length_replicate _ _

theorem content_type_ne_content_length : str "Content-Type" ≠ str "Content-Length" := by
  decide

theorem validate_handler_response (t b : CStr) :
    validate_response (handler_response t b) =
      (0, { version := some (str "1.1"), status_code := some (str "200"),
            headers := [{ key := str "Content-Length", value := (Nat.repr b.length).toList },
                        { key := str "Content-Type", value := t }],
            body := some b }) := by
  have hne := content_type_ne_content_length
  cases b with
  | nil =>
    simp [validate_response, handler_response, add_body_res, add_status_code_res,
      init_response, add_header, insert_node, get_header, search_node, hne, content_length]
    rfl
  | cons c cs =>
    simp [validate_response, handler_response, add_body_res, add_status_code_res,
      init_response, add_header, insert_node, get_header, search_node, hne, content_length]

/-- C5 (as amended): for a response that passes validation, with a status code of
the table, every header line shorter than 4096 bytes and a rendering shorter than
`MAX_SIZE`, `serialize` returns the status line with the reason phrase of the
table, then `Key: Value\r\n` for each header in list order, then `\r\n`, then the
body unchanged. -/
theorem serialize_renders_validated_response (merged : Bool) (res res1 : response_t)
    (version status_code : CStr)
    (hval : validate_response res = (0, res1))
    (hv : res1.version = some version) (hs : res1.status_code = some status_code)
    (hmem : status_code ∈ status_codes)
    (hfit : ∀ n ∈ res1.headers, n.key.length + n.value.length + 4 < 4096)
    (hsize : (wire_format version status_code (status_message status_code) res1.headers
      res1.body).length < MAX_SIZE) :
    serialize merged res =
      some (some (str "HTTP/" ++ version ++ str " " ++ status_code ++ str " "
          ++ status_message status_code ++ str "\r\n"
          ++ render_headers res1.headers ++ str "\r\n"
          ++ (match res1.body with
              | none => []
              | some b => b)), res1) :=
  serialize_eq_wire_format merged res res1 version status_code hval hv hs hmem hfit hsize

/-- C5, at a 404 response with two headers and the body `gone`. -/
theorem serialize_renders_validated_response_witness :
    serialize true not_found_response =
      some (some (str "HTTP/" ++ str "1.1" ++ str " " ++ str "404" ++ str " "
          ++ status_message (str "404") ++ str "\r\n"
          ++ render_headers not_found_validated.headers ++ str "\r\n"
          ++ (match not_found_validated.body with
              | none => []
              | some b => b)), not_found_validated) :=
  serialize_renders_validated_response true not_found_response not_found_validated
    (str "1.1") (str "404") (by decide) (by decide) (by decide) (by decide) (by decide)
    (by decide)

theorem serialize_none_of_overflow (merged : Bool) (res res1 : response_t)
    (version status_code : CStr)
    (hval : validate_response res = (0, res1))
    (hv : res1.version = some version) (hs : res1.status_code = some status_code)
    (hmem : status_code ∈ status_codes)
    (hfit : ∀ n ∈ res1.headers, n.key.length + n.value.length + 4 < 4096)
    (hsize : MAX_SIZE ≤ (wire_format version status_code (status_message status_code)
      res1.headers res1.body).length) :
    serialize merged res = none := by
  have hunk := status_message_of_mem status_code hmem
  unfold serialize
  rw [hval]
  simp only [get_status_message, hs, hv, headers_to_string_eq res1 hfit]
  have hnot : MAX_SIZE < (wire_format version status_code (status_message status_code)
      res1.headers res1.body).length + 1 := by omega
  unfold wire_format at hnot hsize
  simp only [hunk, decide_False, Bool.and_false, if_pos hnot]
  simp

theorem headers_to_string_loop_overflow (n : node_t) (rest : List node_t) (acc : CStr)
    (h : 8192 < acc.length + (n.key.length + n.value.length + 4) + 1) :
    headers_to_string_loop (n :: rest) 4096 acc = none := by
  unfold headers_to_string_loop
  simp only
  have h1 : acc.length + (n.key.length + n.value.length + 4) + 1 > 4096 := by omega
  rw [if_pos h1, if_pos (by omega)]

theorem str_lengths :
    (str "Content-Length").length = 14 ∧ (str "Content-Type").length = 12 ∧
    (str ": ").length = 2 ∧ (str "\r\n").length = 2 := by decide

theorem serialize_handler_response_big_body (merged : Bool) (t b : CStr)
    (ht : t.length + 16 < 4096) (hrepr : (Nat.repr b.length).toList.length + 18 < 4096)
    (hb : MAX_SIZE ≤ b.length) :
    serialize merged (handler_response t b) = none := by
  obtain ⟨l1, l2, _, _⟩ := str_lengths
  refine serialize_none_of_overflow merged _ _ (str "1.1") (str "200")
    (validate_handler_response t b) rfl rfl (by decide) ?_ ?_
  · intro n hn
    simp only [List.mem_cons, List.mem_singleton, List.mem_nil_iff, or_false] at hn
    rcases hn with hn | hn <;> subst hn <;> simp only [l1, l2] <;> omega
  · unfold wire_format
    simp only [List.length_append]
    omega

theorem headers_to_string_loop_fit (n : node_t) (rest : List node_t) (acc : CStr)
    (h : acc.length + (n.key.length + n.value.length + 4) + 1 ≤ 4096) :
    headers_to_string_loop (n :: rest) 4096 acc =
      headers_to_string_loop rest 4096 (acc ++ n.key ++ str ": " ++ n.value ++ str "\r\n") := by
  have h1 : ¬ (acc.length + (n.key.length + n.value.length + 4) + 1 > 4096) := by omega
  conv => lhs; unfold headers_to_string_loop
  simp only [if_neg h1]

theorem serialize_handler_response_big_value (merged : Bool) (t b : CStr)
    (ht : 8192 ≤ t.length) (hrepr : (Nat.repr b.length).toList.length + 18 < 4096) :
    serialize merged (handler_response t b) = none := by
  obtain ⟨l1, l2, _, _⟩ := str_lengths
  unfold serialize
  rw [validate_handler_response]
  have hov : headers_to_string
      { version := some (str "1.1"), status_code := some (str "200"),
        headers := [{ key := str "Content-Length", value := (Nat.repr b.length).toList },
                    { key := str "Content-Type", value := t }],
        body := some b } = none := by
    unfold headers_to_string
    rw [headers_to_string_loop_fit _ _ _ (by simp only [List.length_nil, l1]; omega)]
    apply headers_to_string_loop_overflow
    simp only [List.length_append, l1, l2, List.length_nil]
    omega
  simp only [get_status_message, hov]
  have hunk : status_message (str "200") ≠ str "Unknown" := by decide
  simp [hunk]

/-- C5 as stated fails: a response with `Content-Type: text/plain` and a body of
1,048,576 bytes passes validation with status 200, and so does a response whose
`Content-Type` value has 8,192 bytes, but for neither does `serialize` return
the rendering: the writes run past the end of the fixed buffers. -/
theorem serialize_overflows_fixed_buffers :
    ((validate_response (handler_response (str "text/plain") big_body)).1 = 0 ∧
      (validate_response (handler_response (str "text/plain") big_body)).2.status_code
        = some (str "200") ∧
      serialize true (handler_response (str "text/plain") big_body) = none) ∧
    ((validate_response (handler_response big_value (str "x"))).1 = 0 ∧
      (validate_response (handler_response big_value (str "x"))).2.status_code
        = some (str "200") ∧
      serialize true (handler_response big_value (str "x")) = none) := by
  refine ⟨⟨?_, ?_, ?_⟩, ?_, ?_, ?_⟩
  · rw [validate_handler_response]
  · rw [validate_handler_response]
  · apply serialize_handler_response_big_body
    · decide
    · rw [big_body_length]; decide
    · rw [big_body_length]; decide
  · rw [validate_handler_response]
  · rw [validate_handler_response]
  · apply serialize_handler_response_big_value
    · rw [big_value_length]
    · decide

theorem repr_length_le (n : Nat) (h : n < 10000000) : (Nat.repr n).toList.length ≤ 7 :=
  Nat.repr_length n 7 (by decide) (by omega)

theorem wire_format_handler_response (t b : CStr) :
    wire_format (str "1.1") (str "200") (status_message (str "200"))
      [{ key := str "Content-Length", value := (Nat.repr b.length).toList },
       { key := str "Content-Type", value := t }] (some b) =
    str "HTTP/1.1 200 OK\r\nContent-Length: " ++ (Nat.repr b.length).toList
      ++ str "\r\nContent-Type: " ++ t ++ str "\r\n\r\n" ++ b := by
  have hok : status_message (str "200") = str "OK" := by decide
  rw [hok]
  simp [wire_format, render_headers, str]

theorem send_response_handler_response (merged : Bool) (req : request_t) (out : List CStr)
    (t b : CStr) (ht : (str "Content-Type").length + t.length + 4 < 4096)
    (hsize : (str "HTTP/1.1 200 OK\r\nContent-Length: " ++ (Nat.repr b.length).toList
      ++ str "\r\nContent-Type: " ++ t ++ str "\r\n\r\n" ++ b).length < MAX_SIZE) :
    send_response merged { req := req, res := handler_response t b, out := out } =
      some (0, { req := req,
                 res := (validate_response (handler_response t b)).2,
                 out := out ++ [str "HTTP/1.1 200 OK\r\nContent-Length: "
                   ++ (Nat.repr b.length).toList ++ str "\r\nContent-Type: " ++ t
                   ++ str "\r\n\r\n" ++ b] }) := by
  obtain ⟨l1, l2, _, _⟩ := str_lengths
  have hb : b.length < 10000000 := by
    simp only [List.length_append, MAX_SIZE] at hsize
    omega
  have hrepr := repr_length_le b.length hb
  have hser := serialize_eq_wire_format merged (handler_response t b) _ (str "1.1") (str "200")
    (validate_handler_response t b) rfl rfl (by decide)
    (by
      intro n hn
      simp only [List.mem_cons, List.mem_singleton, List.mem_nil_iff, or_false] at hn
      rcases hn with hn | hn <;> subst hn <;> simp only [l1, l2] at * <;> omega)
    (by rw [wire_format_handler_response]; exact hsize)
  rw [wire_format_handler_response] at hser
  unfold send_response
  simp only [hser, validate_handler_response]

theorem send_response_of_serialize_none (merged : Bool) (client : client_t)
    (h : serialize merged client.res = none) : send_response merged client = none := by
  unfold send_response
  rw [h]

/-- C6 (as amended): for a response with status 200, the single header
`Content-Type: t` and body `b`, whose `Content-Type` line is shorter than 4096
bytes and whose rendering is shorter than `MAX_SIZE`, the bytes sent are
`HTTP/1.1 200 OK\r\nContent-Length: <decimal length of b>\r\nContent-Type: t\r\n\r\n`
followed by `b`: the `Content-Length` line comes first. -/
theorem send_response_bytes (merged : Bool) (req : request_t) (out : List CStr) (t b : CStr)
    (ht : (str "Content-Type").length + t.length + 4 < 4096)
    (hsize : (str "HTTP/1.1 200 OK\r\nContent-Length: " ++ (Nat.repr b.length).toList
      ++ str "\r\nContent-Type: " ++ t ++ str "\r\n\r\n" ++ b).length < MAX_SIZE) :
    (send_response merged { req := req, res := handler_response t b, out := out }).map
        (fun r => (r.1, r.2.out)) =
      some (0, out ++ [str "HTTP/1.1 200 OK\r\nContent-Length: " ++ (Nat.repr b.length).toList
        ++ str "\r\nContent-Type: " ++ t ++ str "\r\n\r\n" ++ b]) := by
  rw [send_response_handler_response merged req out t b ht hsize]
  rfl

/-- C6, at `t = text/html` and `b = <h1>Hi</h1>`. -/
theorem send_response_bytes_witness :
    (send_response true
        { req := init_request, res := handler_response (str "text/html") (str "<h1>Hi</h1>"),
          out := [] }).map (fun r => (r.1, r.2.out)) =
      some (0, [] ++ [str "HTTP/1.1 200 OK\r\nContent-Length: "
        ++ (Nat.repr (str "<h1>Hi</h1>").length).toList
        ++ str "\r\nContent-Type: " ++ str "text/html" ++ str "\r\n\r\n" ++ str "<h1>Hi</h1>"]) :=
  send_response_bytes true init_request [] (str "text/html") (str "<h1>Hi</h1>")
    (by decide) (by decide)

/-- C6 as stated fails: for `t = text/html` and `b = <h1>Hi</h1>` the bytes sent
are not the ones of the claim, they have the `Content-Length` line before the
`Content-Type` line; and for a body of 1,048,576 bytes no rendering is returned
at all. -/
theorem send_response_bytes_differ :
    ((send_response true
        { req := init_request, res := handler_response (str "text/html") (str "<h1>Hi</h1>"),
          out := [] }).map (fun r => r.2.out) ≠
      some [str "HTTP/1.1 200 OK\r\nContent-Type: text/html\r\nContent-Length: 11\r\n\r\n<h1>Hi</h1>"]) ∧
    ((send_response true
        { req := init_request, res := handler_response (str "text/html") (str "<h1>Hi</h1>"),
          out := [] }).map (fun r => r.2.out) =
      some [str "HTTP/1.1 200 OK\r\nContent-Length: 11\r\nContent-Type: text/html\r\n\r\n<h1>Hi</h1>"]) ∧
    send_response true
        { req := init_request, res := handler_response (str "text/html") big_body, out := [] }
      = none := by
  refine ⟨by decide, by decide, ?_⟩
  exact send_response_of_serialize_none _ _
    (serialize_handler_response_big_body true (str "text/html") big_body (by decide)
      (by rw [big_body_length]; decide) (by rw [big_body_length]; decide))

/-! ### Lookup in a list built from pairs -/

theorem search_node_map_append (hs : List node_t) (k : CStr) :
    ∀ (l : List (CStr × CStr)),
      search_node (l.map node_of ++ hs) k =
        match l.find? (fun kv => decide (kv.1 = k)) with
        | some kv => some (node_of kv)
        | none => search_node hs k := by
  intro l
  induction l with
  | nil => simp
  | cons kv l ih =>
    by_cases hk : kv.1 = k
    · simp [search_node, node_of, hk]
    · simp only [List.map_cons, List.cons_append, search_node, node_of, hk, if_false,
        List.find?_cons, decide_False]
      simpa [node_of] using ih

theorem get_header_reverse_append (kvs : List (CStr × CStr)) (hs : List node_t) (k : CStr)
    (hk : k ∈ kvs.map (fun kv => kv.1)) :
    get_header ((kvs.map node_of).reverse ++ hs) k = last_value kvs k := by
  unfold get_header last_value
  rw [← List.map_reverse, search_node_map_append hs k kvs.reverse]
  cases hf : kvs.reverse.find? (fun kv => decide (kv.1 = k)) with
  | some kv => simp [node_of]
  | none =>
    exfalso
    rw [List.find?_eq_none] at hf
    simp only [List.mem_map] at hk
    obtain ⟨kv, hmem, hkv⟩ := hk
    have := hf kv (List.mem_reverse.mpr hmem)
    simp [hkv] at this

/-! ### Regular expression matching -/

theorem classRun_append (p : Char → Bool) (X : List Char) (hX : ∀ x ∈ X, p x = true) :
    ∀ (Y : List Char), classRun p (X ++ Y) = X.length + classRun p Y := by
  induction X with
  | nil => intro Y; simp
  | cons x xs ih =>
    intro Y
    have hx : p x = true := hX x (List.mem_cons_self x xs)
    have hxs : ∀ y ∈ xs, p y = true := fun y hy => hX y (List.mem_cons_of_mem x hy)
    show (if p x = true then classRun p (xs ++ Y) + 1 else 0) = (x :: xs).length + classRun p Y
    rw [if_pos hx, ih hxs Y, List.length_cons]
    omega

theorem classRun_cons_false (p : Char → Bool) (c : Char) (Y : List Char) (hc : p c = false) :
    classRun p (c :: Y) = 0 := by
  simp [classRun, hc]

theorem classRun_all (p : Char → Bool) (X : List Char) (hX : ∀ x ∈ X, p x = true) :
    classRun p X = X.length := by
  have h := classRun_append p X hX []
  simpa [classRun] using h

theorem matchLens_one_cons (cls : Char → Bool) (rest : List Atom) (c : Char) (cs : List Char) :
    matchLens (Atom.one cls :: rest) (c :: cs) =
      if cls c then (matchLens rest cs).map (fun l => 1 :: l) else [] := by
  simp [matchLens]

theorem matchLens_one_nil (cls : Char → Bool) (rest : List Atom) :
    matchLens (Atom.one cls :: rest) [] = [] := by
  simp [matchLens]

theorem matchLens_plus (cls : Char → Bool) (rest : List Atom) (s : List Char) :
    matchLens (Atom.plus cls :: rest) s =
      (downFrom (classRun cls s)).flatMap
        (fun n => (matchLens rest (s.drop n)).map (fun l => n :: l)) := by
  simp [matchLens]

theorem flatMap_downFrom_eq_nil (f : Nat → List (List Nat)) :
    ∀ k : Nat, (∀ n, 1 ≤ n → n ≤ k → f n = []) → (downFrom k).flatMap f = [] := by
  intro k
  induction k with
  | zero => intro _; simp [downFrom]
  | succ k ih =>
    intro h
    simp only [downFrom, List.flatMap_cons, h (k + 1) (by omega) (le_refl _), List.nil_append]
    exact ih (fun n h1 h2 => h n h1 (by omega))

/-- A run under `+` that is followed by a single-character element of a disjoint
class can only take the whole run. -/
theorem matchLens_plus_one (p q : Char → Bool) (rest : List Atom) (X : List Char) (c : Char)
    (Y : List Char) (hne : X ≠ []) (hp : ∀ x ∈ X, p x = true) (hq : ∀ x ∈ X, q x = false)
    (hpc : p c = false) (hqc : q c = true) :
    matchLens (Atom.plus p :: Atom.one q :: rest) (X ++ c :: Y) =
      (matchLens rest Y).map (fun l => X.length :: 1 :: l) := by
  rw [matchLens_plus, classRun_append p X hp, classRun_cons_false p c Y hpc, Nat.add_zero]
  cases hlen : X.length with
  | zero => exact absurd (List.length_eq_zero.mp hlen) hne
  | succ k =>
    simp only [downFrom, List.flatMap_cons]
    have hdrop : (X ++ c :: Y).drop (k + 1) = c :: Y := by
      rw [← hlen]; exact List.drop_left _ _
    rw [hdrop, matchLens_one_cons, hqc, if_pos rfl]
    have hrest : (downFrom k).flatMap
        (fun n => (matchLens (Atom.one q :: rest) ((X ++ c :: Y).drop n)).map (fun l => n :: l))
        = [] := by
      apply flatMap_downFrom_eq_nil
      intro n h1 h2
      have hn : n < X.length := by omega
      have hd : (X ++ c :: Y).drop n = X.get ⟨n, hn⟩ :: ((X.drop (n + 1)) ++ c :: Y) := by
        rw [List.drop_append_of_le_length (by omega)]
        rw [List.drop_eq_getElem_cons hn]
        rfl
      rw [hd, matchLens_one_cons, hq _ (List.get_mem X n hn)]
      simp
    rw [hrest]
    simp [List.map_map, Function.comp]

theorem pickLongest_singleton (l : List Nat) : pickLongest [l] = some l := by
  simp [pickLongest]

theorem regexec_of_pickLongest (pattern : List Atom) (s : List Char) (l : List Nat)
    (h : pickLongest (matchLens pattern s) = some l) : regexec pattern s = some (0, l) := by
  cases s with
  | nil => simp [regexec, h]
  | cons c cs => simp [regexec, h]

theorem submatch_eq (pre seg post : List Char) (so : Nat) (lens : List Nat) (i j : Nat)
    (h1 : so + (lens.take i).sum = pre.length)
    (h2 : ((lens.drop i).take (j - i)).sum = seg.length) :
    submatch (pre ++ seg ++ post) so lens i j = seg := by
  unfold submatch
  rw [h1, h2, List.append_assoc, List.drop_left, List.take_left]

theorem strchr_eq_none (s : CStr) (a : Char) (h : a ∉ s) : strchr s a = none := by
  induction s with
  | nil => rfl
  | cons c cs ih =>
    have h1 : c ≠ a := fun e => h (e ▸ List.mem_cons_self c cs)
    have h2 : a ∉ cs := fun e => h (List.mem_cons_of_mem c e)
    simp [strchr, h1, ih h2]

/-! ### The line stage -/

theorem lit_eq_false_of_ne (a c : Char) (h : c ≠ a) : lit a c = false := by
  simp [lit, h]

theorem lit_self (a : Char) : lit a a = true := by
  simp [lit]

theorem notChar_eq_true_of_ne (a c : Char) (h : c ≠ a) : notChar a c = true := by
  simp [notChar, h]

theorem notChar_self (a : Char) : notChar a a = false := by
  simp [notChar]

theorem ne_space_of_upperAZ (c : Char) (h : upperAZ c = true) : c ≠ ' ' := by
  intro e
  subst e
  exact absurd h (by decide)

theorem matchLens_first_line (M P rest : List Char) (a d b : Char)
    (hM : M ≠ []) (hMu : ∀ c ∈ M, upperAZ c = true)
    (hP : P ≠ []) (hPs : ∀ c ∈ P, c ≠ ' ')
    (ha : digit09 a = true) (hb : digit01 b = true) :
    matchLens first_line_pattern
      (M ++ ' ' :: (P ++ ' ' :: 'H' :: 'T' :: 'T' :: 'P' :: '/' :: a :: d :: b :: rest)) =
      [[M.length, 1, P.length, 1, 1, 1, 1, 1, 1, 1, 1, 1]] := by
  unfold first_line_pattern
  rw [matchLens_plus_one upperAZ (lit ' ') _ M ' ' _ hM hMu
    (fun x hx => lit_eq_false_of_ne ' ' x (ne_space_of_upperAZ x (hMu x hx)))
    (by decide) (lit_self ' ')]
  rw [matchLens_plus_one (notChar ' ') (lit ' ') _ P ' ' _ hP
    (fun x hx => notChar_eq_true_of_ne ' ' x (hPs x hx))
    (fun x hx => lit_eq_false_of_ne ' ' x (hPs x hx))
    (notChar_self ' ') (lit_self ' ')]
  simp only [matchLens_one_cons, lit_self, ha, hb, anyChar, if_true, matchLens, List.map_cons,
    List.map_nil]

theorem parse_first_line_eq_process_query (req : request_t) (M P rest : List Char)
    (a d b : Char) (hM : M ≠ []) (hMu : ∀ c ∈ M, upperAZ c = true)
    (hP : P ≠ []) (hPs : ∀ c ∈ P, c ≠ ' ')
    (ha : digit09 a = true) (hb : digit01 b = true) :
    parse_first_line req (M ++ [' '] ++ P ++ str " HTTP/" ++ [a, d, b] ++ rest) =
      match process_query
          { req with method := some M, path := some P, version := some [a, d, b] } P with
      | none => none
      | some (rc, req2) => if rc < 0 then some (-1, req2) else some (0, req2) := by
  have hline : M ++ [' '] ++ P ++ str " HTTP/" ++ [a, d, b] ++ rest =
      M ++ ' ' :: (P ++ ' ' :: 'H' :: 'T' :: 'T' :: 'P' :: '/' :: a :: d :: b :: rest) := by
    simp [str]
  have hre := regexec_of_pickLongest first_line_pattern _ _
    (by rw [matchLens_first_line M P rest a d b hM hMu hP hPs ha hb]
        exact pickLongest_singleton _)
  have h1 : submatch (M ++ [' '] ++ P ++ str " HTTP/" ++ [a, d, b] ++ rest) 0
      [M.length, 1, P.length, 1, 1, 1, 1, 1, 1, 1, 1, 1] 0 1 = M := by
    have := submatch_eq [] M ([' '] ++ P ++ str " HTTP/" ++ [a, d, b] ++ rest) 0
      [M.length, 1, P.length, 1, 1, 1, 1, 1, 1, 1, 1, 1] 0 1 (by simp) (by simp)
    simpa [List.append_assoc] using this
  have h2 : submatch (M ++ [' '] ++ P ++ str " HTTP/" ++ [a, d, b] ++ rest) 0
      [M.length, 1, P.length, 1, 1, 1, 1, 1, 1, 1, 1, 1] 2 3 = P := by
    have := submatch_eq (M ++ [' ']) P (str " HTTP/" ++ [a, d, b] ++ rest) 0
      [M.length, 1, P.length, 1, 1, 1, 1, 1, 1, 1, 1, 1] 2 3 (by simp) (by simp)
    simpa [List.append_assoc] using this
  have h3 : submatch (M ++ [' '] ++ P ++ str " HTTP/" ++ [a, d, b] ++ rest) 0
      [M.length, 1, P.length, 1, 1, 1, 1, 1, 1, 1, 1, 1] 9 12 = [a, d, b] := by
    have hl : (str " HTTP/").length = 6 := by decide
    have := submatch_eq (M ++ [' '] ++ P ++ str " HTTP/") [a, d, b] rest 0
      [M.length, 1, P.length, 1, 1, 1, 1, 1, 1, 1, 1, 1] 9 12
      (by simp [hl]; omega) (by simp)
    simpa [List.append_assoc] using this
  unfold parse_first_line
  simp only [hline] at h1 h2 h3 ⊢
  rw [hre]
  simp only [h1, h2, h3]

theorem parse_first_line_of_form (req : request_t) (M P rest : List Char) (a d b : Char)
    (hM : M ≠ []) (hMu : ∀ c ∈ M, upperAZ c = true)
    (hP : P ≠ []) (hPs : ∀ c ∈ P, c ≠ ' ') (hPq : '?' ∉ P)
    (ha : digit09 a = true) (hb : digit01 b = true) :
    parse_first_line req (M ++ [' '] ++ P ++ str " HTTP/" ++ [a, d, b] ++ rest) =
      some (0, { req with method := some M, path := some P, version := some [a, d, b] }) := by
  rw [parse_first_line_eq_process_query req M P rest a d b hM hMu hP hPs ha hb]
  simp only [process_query, strchr_eq_none P '?' hPq]
  simp

/-- C1 (as amended): for every line `M P HTTP/a.b`, followed by any text (the
driver passes the line with its `\r\n`), where `M` is a non-empty run of
uppercase letters, `P` is non-empty without space and without `?`, `a` is a
decimal digit and `b` is `0` or `1`, `parse_first_line` succeeds and sets method
`M`, path `P` and version `a.b`, leaving the other fields as they were. -/
theorem parse_first_line_sets_fields (req : request_t) (M P rest : List Char) (a b : Char)
    (hM : M ≠ []) (hMu : ∀ c ∈ M, upperAZ c = true)
    (hP : P ≠ []) (hPs : ∀ c ∈ P, c ≠ ' ') (hPq : '?' ∉ P)
    (ha : digit09 a = true) (hb : digit01 b = true) :
    parse_first_line req (M ++ [' '] ++ P ++ str " HTTP/" ++ [a, '.', b] ++ rest) =
      some (0, { req with method := some M, path := some P, version := some [a, '.', b] }) :=
  parse_first_line_of_form req M P rest a '.' b hM hMu hP hPs hPq ha hb

/-- C1, at the line `GET /index.html HTTP/1.1` followed by `\r\n`. -/
theorem parse_first_line_sets_fields_witness :
    parse_first_line init_request
        (str "GET" ++ [' '] ++ str "/index.html" ++ str " HTTP/" ++ ['1', '.', '1'] ++ str "\r\n") =
      some (0, { init_request with method := some (str "GET"), path := some (str "/index.html"),
                                   version := some ['1', '.', '1'] }) :=
  parse_first_line_sets_fields init_request (str "GET") (str "/index.html") (str "\r\n") '1' '1'
    (by decide) (by decide) (by decide) (by decide) (by decide) (by decide) (by decide)

/-- C1 as stated fails: `GET / HTTP/1.2` has an uppercase method, a path without
space or `?` and one-digit version numbers, and `parse_first_line` returns -1
without setting any field. -/
theorem parse_first_line_rejects_minor_two :
    (∀ c ∈ str "GET", upperAZ c = true) ∧ (∀ c ∈ str "/", c ≠ ' ' ∧ c ≠ '?') ∧
    digit09 '1' = true ∧ digit09 '2' = true ∧
    parse_first_line init_request (str "GET" ++ [' '] ++ str "/" ++ str " HTTP/" ++ ['1', '.', '2'])
      = some (-1, init_request) := by
  decide

/-! ### Tokens -/

theorem splitDelim_append (delim : CStr) (c : Char) (rest : CStr) (hc : c ∈ delim) :
    ∀ (L : CStr), (∀ x ∈ L, x ∉ delim) →
      splitDelim delim (L ++ c :: rest) = L :: splitDelim delim rest := by
  intro L
  induction L with
  | nil => intro _; simp [splitDelim, hc]
  | cons x xs ih =>
    intro hL
    have hx : x ∉ delim := hL x (List.mem_cons_self x xs)
    have hxs : ∀ y ∈ xs, y ∉ delim := fun y hy => hL y (List.mem_cons_of_mem x hy)
    have e : splitDelim delim (x :: (xs ++ c :: rest)) =
        match splitDelim delim (xs ++ c :: rest) with
        | [] => [[x]]
        | t :: ts => (x :: t) :: ts := by
      simp [splitDelim, hx]
    rw [List.cons_append, e, ih hxs]

theorem strtok_all_append (delim : CStr) (c : Char) (rest L : CStr) (hc : c ∈ delim)
    (hne : L ≠ []) (hL : ∀ x ∈ L, x ∉ delim) :
    strtok_all (L ++ c :: rest) delim = L :: strtok_all rest delim := by
  unfold strtok_all
  rw [splitDelim_append delim c rest hc L hL]
  cases L with
  | nil => exact absurd rfl hne
  | cons x xs => simp

theorem strtok_all_cons_delim (delim : CStr) (c : Char) (rest : CStr) (hc : c ∈ delim) :
    strtok_all (c :: rest) delim = strtok_all rest delim := by
  unfold strtok_all
  simp [splitDelim, hc]

theorem strtok_all_of_delims (delim : CStr) :
    ∀ (tail : CStr), (∀ x ∈ tail, x ∈ delim) → strtok_all tail delim = [] := by
  intro tail
  induction tail with
  | nil => intro _; simp [strtok_all, splitDelim]
  | cons x xs ih =>
    intro h
    rw [strtok_all_cons_delim delim x xs (h x (List.mem_cons_self x xs))]
    exact ih (fun y hy => h y (List.mem_cons_of_mem x hy))

/-! ### The query string -/

theorem strchr_append (K V : CStr) (a : Char) (h : a ∉ K) :
    strchr (K ++ a :: V) a = some K.length := by
  induction K with
  | nil => simp [strchr]
  | cons c cs ih =>
    have h1 : c ≠ a := fun e => h (e ▸ List.mem_cons_self c cs)
    have h2 : a ∉ cs := fun e => h (List.mem_cons_of_mem c e)
    simp [strchr, h1, ih h2]

theorem splitDelim_of_free (delim : CStr) :
    ∀ (L : CStr), (∀ x ∈ L, x ∉ delim) → splitDelim delim L = [L] := by
  intro L
  induction L with
  | nil => intro _; rfl
  | cons x xs ih =>
    intro hL
    have hx : x ∉ delim := hL x (List.mem_cons_self x xs)
    have hxs : ∀ y ∈ xs, y ∉ delim := fun y hy => hL y (List.mem_cons_of_mem x hy)
    have e : splitDelim delim (x :: xs) =
        match splitDelim delim xs with
        | [] => [[x]]
        | t :: ts => (x :: t) :: ts := by
      simp [splitDelim, hx]
    rw [e, ih hxs]

theorem strtok_all_of_free (delim L : CStr) (hne : L ≠ []) (hL : ∀ x ∈ L, x ∉ delim) :
    strtok_all L delim = [L] := by
  unfold strtok_all
  rw [splitDelim_of_free delim L hL]
  cases L with
  | nil => exact absurd rfl hne
  | cons x xs => simp

theorem strtok_all_query_string :
    ∀ (kvs : List (CStr × CStr)),
      (∀ kv ∈ kvs, kv.1 ≠ [] ∧ (∀ c ∈ kv.1, c ≠ '&') ∧ (∀ c ∈ kv.2, c ≠ '&')) →
      strtok_all (query_string kvs) (str "&") = kvs.map (fun kv => kv.1 ++ '=' :: kv.2) := by
  have hamp : '&' ∈ str "&" := by decide
  have hmem : ∀ x : Char, x ∈ str "&" → x = '&' := by
    intro x hx
    simpa [str] using hx
  have hfree : ∀ kv : CStr × CStr, (∀ c ∈ kv.1, c ≠ '&') → (∀ c ∈ kv.2, c ≠ '&') →
      ∀ x ∈ kv.1 ++ '=' :: kv.2, x ∉ str "&" := by
    intro kv h1 h2 x hx hd
    have e := hmem x hd
    subst e
    simp only [List.mem_append, List.mem_cons] at hx
    rcases hx with hx | hx | hx
    · exact h1 _ hx rfl
    · exact absurd hx (by decide)
    · exact h2 _ hx rfl
  intro kvs
  induction kvs with
  | nil => intro _; rfl
  | cons kv kvs ih =>
    intro h
    obtain ⟨hk, hkc, hvc⟩ := h kv (List.mem_cons_self kv kvs)
    have hne : kv.1 ++ '=' :: kv.2 ≠ [] := by simp
    cases kvs with
    | nil =>
      simp only [query_string, List.map_cons, List.map_nil]
      exact strtok_all_of_free _ _ hne (hfree kv hkc hvc)
    | cons kv2 rest =>
      have hrest := ih (fun x hx => h x (List.mem_cons_of_mem kv hx))
      have e : query_string (kv :: kv2 :: rest) =
          (kv.1 ++ '=' :: kv.2) ++ '&' :: query_string (kv2 :: rest) := by
        simp [query_string]
      rw [e, strtok_all_append _ '&' _ _ hamp hne (hfree kv hkc hvc), hrest]
      rfl

theorem process_query_loop_pairs :
    ∀ (kvs : List (CStr × CStr)) (params : List node_t) (n : Nat),
      (∀ kv ∈ kvs, '=' ∉ kv.1 ∧ is_valid_key kv.1 = true) →
      process_query_loop (kvs.map (fun kv => kv.1 ++ '=' :: kv.2)) params n =
        some (0, (kvs.map node_of).reverse ++ params, n + kvs.length) := by
  intro kvs
  induction kvs with
  | nil => intro params n _; simp [process_query_loop]
  | cons kv kvs ih =>
    intro params n h
    obtain ⟨hk, hv⟩ := h kv (List.mem_cons_self kv kvs)
    simp only [List.map_cons, process_query_loop, strchr_append kv.1 kv.2 '=' hk, hv,
      Bool.not_true, Bool.false_eq_true, if_false]
    rw [ih _ _ (fun x hx => h x (List.mem_cons_of_mem kv hx))]
    have e1 : (kv.1 ++ '=' :: kv.2).take kv.1.length = kv.1 := List.take_left _ _
    have e2 : (kv.1 ++ '=' :: kv.2).drop (kv.1.length + 1) = kv.2 := by
      have : kv.1 ++ '=' :: kv.2 = (kv.1 ++ ['=']) ++ kv.2 := by simp
      rw [this]
      have hl : (kv.1 ++ ['=']).length = kv.1.length + 1 := by simp
      rw [← hl]
      exact List.drop_left _ _
    simp only [e1, e2, add_param, insert_node, node_of, List.map_cons, List.reverse_cons,
      List.append_assoc, List.singleton_append, List.length_cons]
    have hn : n + 1 + kvs.length = n + (kvs.length + 1) := by omega
    rw [hn]
    simp [hv]

theorem process_query_of_query_string (req : request_t) (p : CStr) (kvs : List (CStr × CStr))
    (hp : '?' ∉ p)
    (h : ∀ kv ∈ kvs, (kv.1 ≠ [] ∧ is_valid_key kv.1 = true ∧ ∀ c ∈ kv.1, c ≠ '=' ∧ c ≠ '&') ∧
      ∀ c ∈ kv.2, c ≠ '&') :
    process_query req (p ++ '?' :: query_string kvs) =
      some (0, { req with
        path := some p,
        body := { req.body with params := (kvs.map node_of).reverse ++ req.body.params,
                                n_params := kvs.length } }) := by
  unfold process_query
  have e1 : (p ++ '?' :: query_string kvs).take p.length = p := List.take_left _ _
  have e2 : (p ++ '?' :: query_string kvs).drop (p.length + 1) = query_string kvs := by
    have : p ++ '?' :: query_string kvs = (p ++ ['?']) ++ query_string kvs := by simp
    rw [this]
    have hl : (p ++ ['?']).length = p.length + 1 := by simp
    rw [← hl]
    exact List.drop_left _ _
  simp only [strchr_append p _ '?' hp, e1, e2]
  rw [strtok_all_query_string kvs
    (fun kv hkv => ⟨(h kv hkv).1.1, fun c hc => ((h kv hkv).1.2.2 c hc).2, (h kv hkv).2⟩)]
  rw [process_query_loop_pairs kvs _ 0
    (fun kv hkv => ⟨fun hc => ((h kv hkv).1.2.2 _ hc).1 rfl, (h kv hkv).1.2.1⟩)]
  simp

/-- For a request line whose path is `p?k1=v1&...&kn=vn`, every token with its
`=`, and whose minor version is 0 or 1, `parse_first_line` succeeds, the
path becomes `p`, `n_params` becomes `n`, the pairs are added to `body.params`
with the later ones nearer the head, and looking up a key returns the value of the
last pair with that key. -/
theorem parse_first_line_query_pairs (req : request_t) (M p rest : List Char) (a b : Char)
    (kvs : List (CStr × CStr))
    (hM : M ≠ []) (hMu : ∀ c ∈ M, upperAZ c = true)
    (hp : ∀ c ∈ p, c ≠ ' ' ∧ c ≠ '?')
    (h : ∀ kv ∈ kvs,
      (kv.1 ≠ [] ∧ is_valid_key kv.1 = true ∧ ∀ c ∈ kv.1, c ≠ '=' ∧ c ≠ '&' ∧ c ≠ ' ') ∧
      ∀ c ∈ kv.2, c ≠ '&' ∧ c ≠ ' ')
    (ha : digit09 a = true) (hb : digit01 b = true) :
    parse_first_line req
        (M ++ [' '] ++ (p ++ '?' :: query_string kvs) ++ str " HTTP/" ++ [a, '.', b] ++ rest) =
      some (0, { req with
        method := some M, path := some p, version := some [a, '.', b],
        body := { req.body with params := (kvs.map node_of).reverse ++ req.body.params,
                                n_params := kvs.length } }) ∧
    ∀ k ∈ kvs.map (fun kv => kv.1),
      get_header ((kvs.map node_of).reverse ++ req.body.params) k = last_value kvs k := by
  have hq : ∀ (l : List (CStr × CStr)),
      (∀ kv ∈ l, (∀ c ∈ kv.1, c ≠ ' ') ∧ ∀ c ∈ kv.2, c ≠ ' ') →
      ∀ c ∈ query_string l, c ≠ ' ' := by
    intro l
    induction l with
    | nil => intro _ c hc; simp [query_string] at hc
    | cons kv l ih =>
      intro hl c hc
      obtain ⟨h1, h2⟩ := hl kv (List.mem_cons_self kv l)
      cases l with
      | nil =>
        simp only [query_string, List.mem_append, List.mem_cons] at hc
        rcases hc with hc | hc | hc
        · exact h1 c hc
        · subst hc; decide
        · exact h2 c hc
      | cons kv2 l2 =>
        simp only [query_string, List.mem_append, List.mem_cons, or_assoc] at hc
        rcases hc with hc | hc | hc | hc | hc
        · exact h1 c hc
        · subst hc; decide
        · exact h2 c hc
        · subst hc; decide
        · exact ih (fun x hx => hl x (List.mem_cons_of_mem kv hx)) c hc
  have hPs : ∀ c ∈ p ++ '?' :: query_string kvs, c ≠ ' ' := by
    intro c hc
    simp only [List.mem_append, List.mem_cons] at hc
    rcases hc with hc | hc | hc
    · exact (hp c hc).1
    · subst hc; decide
    · exact hq kvs (fun kv hkv => ⟨fun c hc => ((h kv hkv).1.2.2 c hc).2.2,
        fun c hc => ((h kv hkv).2 c hc).2⟩) c hc
  refine ⟨?_, fun k hk => get_header_reverse_append kvs req.body.params k hk⟩
  rw [parse_first_line_eq_process_query req M (p ++ '?' :: query_string kvs) rest a '.' b
    hM hMu (by simp) hPs ha hb]
  rw [process_query_of_query_string _ p kvs (fun hc => (hp _ hc).2 rfl)
    (fun kv hkv => ⟨⟨(h kv hkv).1.1, (h kv hkv).1.2.1,
      fun c hc => ⟨((h kv hkv).1.2.2 c hc).1, ((h kv hkv).1.2.2 c hc).2.1⟩⟩,
      fun c hc => ((h kv hkv).2 c hc).1⟩)]
  simp

/-- C2 fails on the code at a token without `=`: for `GET /a?x HTTP/1.1` the loop
of `process_query` adds the pair and then calls `free` on the string literal
`""`, which is undefined behaviour, so `parse_first_line` does not return
success; the line of the witness, with an `=` in each token, is parsed as the
claim says. -/
theorem parse_first_line_bare_key :
    parse_first_line init_request (str "GET /a?x HTTP/1.1") = none ∧
    parse_first_line init_request (str "GET /search?x=1&y=2 HTTP/1.1") =
      some (0, { init_request with
        method := some (str "GET"), path := some (str "/search"), version := some (str "1.1"),
        body := { data := none,
                  params := [{ key := str "y", value := str "2" },
                             { key := str "x", value := str "1" }],
                  n_params := 2 } }) := by
  decide

/-! ### The headers stage -/

theorem pickLongest_mem : ∀ (ls : List (List Nat)) (b : List Nat),
    pickLongest ls = some b → b ∈ ls := by
  intro ls
  induction ls with
  | nil => intro b h; simp [pickLongest] at h
  | cons l ls ih =>
    intro b h
    unfold pickLongest at h
    cases hp : pickLongest ls with
    | none =>
      rw [hp] at h
      simp only [Option.some.injEq] at h
      subst h
      exact List.mem_cons_self _ _
    | some b2 =>
      rw [hp] at h
      simp only at h
      split at h
      · simp only [Option.some.injEq] at h
        subst h
        exact List.mem_cons_self _ _
      · simp only [Option.some.injEq] at h
        subst h
        exact List.mem_cons_of_mem _ (ih b2 hp)

theorem pickLongest_head (l : List Nat) (ls : List (List Nat))
    (h : ∀ x ∈ ls, x.sum ≤ l.sum) : pickLongest (l :: ls) = some l := by
  unfold pickLongest
  cases hp : pickLongest ls with
  | none => rfl
  | some b =>
    simp only
    rw [if_pos (h b (pickLongest_mem ls b hp))]

theorem mem_downFrom (k n : Nat) (h : n ∈ downFrom k) : n ≤ k := by
  induction k with
  | zero => simp [downFrom] at h
  | succ k ih =>
    simp only [downFrom, List.mem_cons] at h
    rcases h with h | h
    · omega
    · have := ih h
      omega

theorem matchLens_plus_any_last (V : List Char) :
    matchLens [Atom.plus anyChar] V = (downFrom V.length).map (fun n => [n]) := by
  rw [matchLens_plus, classRun_all anyChar V (fun _ _ => rfl)]
  simp only [matchLens, List.map_cons, List.map_nil]
  generalize V.length = k
  induction k with
  | zero => simp [downFrom]
  | succ k ih => simp [downFrom, List.flatMap_cons, ih]

theorem regexec_header_line (K V : List Char) (hK : K ≠ []) (hKc : ∀ c ∈ K, c ≠ ':')
    (hV : V ≠ []) :
    regexec header_pattern (K ++ str ": " ++ V) = some (0, [K.length, 1, 1, V.length]) := by
  have hline : K ++ str ": " ++ V = K ++ ':' :: ' ' :: V := by simp [str]
  apply regexec_of_pickLongest
  rw [hline]
  unfold header_pattern
  rw [matchLens_plus_one (notChar ':') (lit ':') _ K ':' _ hK
    (fun x hx => notChar_eq_true_of_ne ':' x (hKc x hx))
    (fun x hx => lit_eq_false_of_ne ':' x (hKc x hx))
    (notChar_self ':') (lit_self ':')]
  rw [matchLens_one_cons, lit_self, if_pos rfl, matchLens_plus_any_last]
  cases hlen : V.length with
  | zero => exact absurd (List.length_eq_zero.mp hlen) hV
  | succ k =>
    simp only [downFrom, List.map_cons, List.map_map]
    apply pickLongest_head
    intro x hx
    simp only [List.mem_map, Function.comp] at hx
    obtain ⟨n, hn, rfl⟩ := hx
    have := mem_downFrom k n hn
    simp only [List.sum_cons, List.sum_nil]
    omega

theorem submatch_header_line (K V : List Char) :
    submatch (K ++ str ": " ++ V) 0 [K.length, 1, 1, V.length] 0 1 = K ∧
    submatch (K ++ str ": " ++ V) 0 [K.length, 1, 1, V.length] 3 4 = V := by
  constructor
  · have := submatch_eq [] K (str ": " ++ V) 0 [K.length, 1, 1, V.length] 0 1 (by simp) (by simp)
    simpa [List.append_assoc] using this
  · have hl : (str ": ").length = 2 := by decide
    have := submatch_eq (K ++ str ": ") V [] 0 [K.length, 1, 1, V.length] 3 4
      (by simp [hl]) (by simp)
    simpa [List.append_assoc] using this

theorem strtok_all_header_block (tail : CStr) (htail : ∀ x ∈ tail, x ∈ str "\r\n") :
    ∀ (kvs : List (CStr × CStr)),
      (∀ kv ∈ kvs, kv.1 ≠ [] ∧ (∀ c ∈ kv.1, c ≠ '\r' ∧ c ≠ '\n') ∧
        (∀ c ∈ kv.2, c ≠ '\r' ∧ c ≠ '\n')) →
      strtok_all (header_block kvs ++ tail) (str "\r\n") =
        kvs.map (fun kv => kv.1 ++ str ": " ++ kv.2) := by
  intro kvs
  induction kvs with
  | nil => intro _; simpa [header_block] using strtok_all_of_delims _ tail htail
  | cons kv kvs ih =>
    intro h
    obtain ⟨hk, hkc, hvc⟩ := h kv (List.mem_cons_self kv kvs)
    have hrest := ih (fun x hx => h x (List.mem_cons_of_mem kv hx))
    have hblock : header_block (kv :: kvs) ++ tail =
        (kv.1 ++ str ": " ++ kv.2) ++ '\r' :: '\n' :: (header_block kvs ++ tail) := by
      simp [header_block, str]
    have hcr : '\r' ∈ str "\r\n" := by decide
    have hlf : '\n' ∈ str "\r\n" := by decide
    have hmem : ∀ x : Char, x ∈ str "\r\n" → x = '\r' ∨ x = '\n' := by
      intro x hx
      simpa [str] using hx
    rw [hblock, strtok_all_append _ '\r' _ _ hcr, strtok_all_cons_delim _ '\n' _ hlf, hrest]
    · rfl
    · cases hk1 : kv.1 with
      | nil => exact absurd hk1 hk
      | cons x xs => simp
    · intro x hx hd
      simp only [List.mem_append] at hx
      rcases hx with (hx | hx) | hx
      · rcases hmem x hd with e | e
        · exact (hkc x hx).1 e
        · exact (hkc x hx).2 e
      · have : x = ':' ∨ x = ' ' := by simpa [str] using hx
        rcases this with e | e <;> subst e <;> exact absurd hd (by decide)
      · rcases hmem x hd with e | e
        · exact (hvc x hx).1 e
        · exact (hvc x hx).2 e

theorem parse_headers_loop_lines :
    ∀ (kvs : List (CStr × CStr)) (headers : List node_t),
      (∀ kv ∈ kvs, kv.1 ≠ [] ∧ (∀ c ∈ kv.1, c ≠ ':') ∧ kv.2 ≠ []) →
      parse_headers_loop (kvs.map (fun kv => kv.1 ++ str ": " ++ kv.2)) headers =
        (0, (kvs.map node_of).reverse ++ headers) := by
  intro kvs
  induction kvs with
  | nil => intro headers _; simp [parse_headers_loop]
  | cons kv kvs ih =>
    intro headers h
    obtain ⟨hk, hkc, hv⟩ := h kv (List.mem_cons_self kv kvs)
    obtain ⟨s1, s2⟩ := submatch_header_line kv.1 kv.2
    simp only [List.map_cons, parse_headers_loop, regexec_header_line kv.1 kv.2 hk hkc hv, s1, s2]
    rw [ih _ (fun x hx => h x (List.mem_cons_of_mem kv hx))]
    simp [add_header, insert_node, node_of]

theorem parse_headers_of_block (req : request_t) (kvs : List (CStr × CStr)) (tail : CStr)
    (h : ∀ kv ∈ kvs, (kv.1 ≠ [] ∧ ∀ c ∈ kv.1, c ≠ ':' ∧ c ≠ '\r' ∧ c ≠ '\n') ∧
      (kv.2 ≠ [] ∧ ∀ c ∈ kv.2, c ≠ '\r' ∧ c ≠ '\n'))
    (htail : ∀ x ∈ tail, x ∈ str "\r\n") :
    parse_headers req (header_block kvs ++ tail) =
      (0, { req with headers := (kvs.map node_of).reverse ++ req.headers }) := by
  unfold parse_headers
  rw [strtok_all_header_block tail htail kvs
    (fun kv hkv => ⟨(h kv hkv).1.1, fun c hc => ((h kv hkv).1.2 c hc).2, (h kv hkv).2.2⟩)]
  rw [parse_headers_loop_lines kvs req.headers
    (fun kv hkv => ⟨(h kv hkv).1.1, fun c hc => ((h kv hkv).1.2 c hc).1, (h kv hkv).2.1⟩)]

/-- C3 (as amended): for every block of lines `K: V\r\n` in which each `K` is
non-empty and free of colons and line-break characters and each `V` is non-empty
and free of line-break characters, optionally followed by the `\r\n` of the empty
line, `parse_headers` succeeds, stores for each line the key `K` (the text before
the first colon) and the value `V` (everything after the space that follows that
colon), the later lines nearer the head, and looking up a key of the block
returns the value of the last line with that key. -/
theorem parse_headers_stores_pairs (req : request_t) (kvs : List (CStr × CStr)) (tail : CStr)
    (h : ∀ kv ∈ kvs, (kv.1 ≠ [] ∧ ∀ c ∈ kv.1, c ≠ ':' ∧ c ≠ '\r' ∧ c ≠ '\n') ∧
      (kv.2 ≠ [] ∧ ∀ c ∈ kv.2, c ≠ '\r' ∧ c ≠ '\n'))
    (htail : ∀ x ∈ tail, x ∈ str "\r\n") :
    parse_headers req (header_block kvs ++ tail) =
      (0, { req with headers := (kvs.map node_of).reverse ++ req.headers }) ∧
    ∀ k ∈ kvs.map (fun kv => kv.1),
      get_header (parse_headers req (header_block kvs ++ tail)).2.headers k = last_value kvs k := by
  have hp := parse_headers_of_block req kvs tail h htail
  refine ⟨hp, fun k hk => ?_⟩
  rw [hp]
  exact get_header_reverse_append kvs req.headers k hk

/-- C3, at the block `Host: x`, `A: 1`, `A: 2` followed by the empty line: the
lookup of `A` returns `2`. -/
theorem parse_headers_stores_pairs_witness :
    get_header (parse_headers init_request
        (header_block [(str "Host", str "x"), (str "A", str "1"), (str "A", str "2")]
          ++ str "\r\n")).2.headers (str "A") =
      last_value [(str "Host", str "x"), (str "A", str "1"), (str "A", str "2")] (str "A") :=
  (parse_headers_stores_pairs init_request
    [(str "Host", str "x"), (str "A", str "1"), (str "A", str "2")] (str "\r\n")
    (by decide) (by decide)).2 (str "A") (by decide)

/-- C3 as stated fails: the line `a:b: c` is accepted and stored with key `b`,
not with the text `a` before its first colon; and the lines `K: ` (empty value),
`: v` (empty key) and `K: a\rb` (a bare carriage return in the value) are
rejected, so nothing can be looked up for them. -/
theorem parse_headers_key_not_before_first_colon :
    parse_headers init_request (str "a:b: c\r\n") =
      (0, { init_request with headers := [{ key := str "b", value := str "c" }] }) ∧
    (parse_headers init_request (str "K: \r\n")).1 = -1 ∧
    (parse_headers init_request (str ": v\r\n")).1 = -1 ∧
    (parse_headers init_request (str "K: a\rb\r\n")).1 = -1 := by
  decide

/-! ### The connection driver -/

/-- C7 fails on the code: the complete request `post_head` followed by the body
byte `x` gets the 200 reply of the handler when it arrives in one chunk, and a
400 reply when the body byte arrives in a chunk of its own, because the append
lands in front of the stale bytes that the consumed header block left in the
request buffer. -/
theorem replies_depend_on_chunking :
    ∀ merged : Bool,
      replies merged post_routes [post_head ++ str "x"] =
        some [str "HTTP/1.1 200 OK\r\nContent-Length: 11\r\nContent-Type: text/html\r\n\r\n<h1>Hi</h1>"] ∧
      replies merged post_routes [post_head, str "x"] =
        some [str "HTTP/1.1 400 Bad Request\r\nContent-Length: 11\r\nContent-Type: text/plain\r\n\r\nBad Request"] := by
  intro merged
  cases merged <;> decide!

/-! ### Association lists -/

/-- C13: searching `k` in the list obtained by `insert_node(l, k, v)` finds the
new entry, so the lookup returns `v`, whatever entries with key `k` the list
already held; after inserting `(k, 1)` and then `(k, 2)` the lookup returns `2`. -/
theorem search_node_insert_node (l : List node_t) (k v : CStr) :
    search_node (insert_node l k v).2 k = some { key := k, value := v } ∧
    get_header (insert_node l k v).2 k = some v ∧
    get_header (insert_node (insert_node l k (str "1")).2 k (str "2")).2 k = some (str "2") := by
  simp [insert_node, search_node, get_header]

/-- C15: `insert_node(l, k, v)` returns 0 and yields the list whose head is the
new entry `(k, v)` and whose tail is exactly `l`; the length grows by one and
every entry of `l`, also one with key `k`, is still there at the next position. -/
theorem insert_node_prepends (l : List node_t) (k v : CStr) :
    insert_node l k v = (0, { key := k, value := v } :: l) ∧
    (insert_node l k v).2.length = l.length + 1 ∧
    (insert_node l k v).2.tail = l ∧
    ∀ i : Nat, (insert_node l k v).2.get? (i + 1) = l.get? i := by
  simp [insert_node]

theorem delete_node_of_not_mem (k : CStr) :
    ∀ l : List node_t, (∀ m ∈ l, m.key ≠ k) → delete_node l k = (-1, l) := by
  intro l
  induction l with
  | nil => intro _; rfl
  | cons n ns ih =>
    intro h
    have hn : n.key ≠ k := h n (List.mem_cons_self n ns)
    have hns := ih (fun m hm => h m (List.mem_cons_of_mem n hm))
    simp [delete_node, hn, hns]

theorem delete_node_of_split (k : CStr) (n : node_t) (post : List node_t) (hn : n.key = k) :
    ∀ pre : List node_t, (∀ m ∈ pre, m.key ≠ k) →
      delete_node (pre ++ n :: post) k = (0, pre ++ post) := by
  intro pre
  induction pre with
  | nil => intro _; simp [delete_node, hn]
  | cons m ms ih =>
    intro h
    have hm : m.key ≠ k := h m (List.mem_cons_self m ms)
    have hms := ih (fun x hx => h x (List.mem_cons_of_mem m hx))
    simp [delete_node, hm, hms]

theorem exists_first_with_key (k : CStr) :
    ∀ l : List node_t, (∃ n ∈ l, n.key = k) →
      ∃ pre n post, l = pre ++ n :: post ∧ n.key = k ∧ ∀ m ∈ pre, m.key ≠ k := by
  intro l
  induction l with
  | nil => intro ⟨n, hn, _⟩; simp at hn
  | cons x xs ih =>
    intro ⟨n, hn, hk⟩
    by_cases hx : x.key = k
    · exact ⟨[], x, xs, rfl, hx, by simp⟩
    · have hmem : n ∈ xs := by
        rcases List.mem_cons.mp hn with e | e
        · exact absurd (e ▸ hk) hx
        · exact e
      obtain ⟨pre, m, post, hl, hm, hpre⟩ := ih ⟨n, hmem, hk⟩
      refine ⟨x :: pre, m, post, by simp [hl], hm, ?_⟩
      intro y hy
      rcases List.mem_cons.mp hy with e | e
      · exact e ▸ hx
      · exact hpre y e

/-- C16: when some entry of `l` has key `k`, `l` splits at the first such entry
as `pre ++ n :: post`, and `delete_node` returns 0 with the list `pre ++ post`:
only that entry is removed and the others keep their order; when no entry has
key `k` (the empty list included), `delete_node` returns -1 and the list is
unchanged. -/
theorem delete_node_removes_first_match (l : List node_t) (k : CStr) :
    ((∃ n ∈ l, n.key = k) →
      ∃ pre n post, l = pre ++ n :: post ∧ n.key = k ∧ (∀ m ∈ pre, m.key ≠ k) ∧
        delete_node l k = (0, pre ++ post)) ∧
    ((∀ m ∈ l, m.key ≠ k) → delete_node l k = (-1, l)) := by
  refine ⟨fun h => ?_, delete_node_of_not_mem k l⟩
  obtain ⟨pre, n, post, hl, hn, hpre⟩ := exists_first_with_key k l h
  exact ⟨pre, n, post, hl, hn, hpre, hl ▸ delete_node_of_split k n post hn pre hpre⟩

/-- C16, at the list `a=1, k=2, b=3, k=4` and the key `k`: the first entry with
key `k` is removed; and at the key `z`, which no entry has. -/
theorem delete_node_removes_first_match_witness :
    (∃ pre n post,
      [({ key := str "a", value := str "1" } : node_t), { key := str "k", value := str "2" },
        { key := str "b", value := str "3" }, { key := str "k", value := str "4" }]
        = pre ++ n :: post ∧ n.key = str "k" ∧ (∀ m ∈ pre, m.key ≠ str "k") ∧
      delete_node
        [{ key := str "a", value := str "1" }, { key := str "k", value := str "2" },
          { key := str "b", value := str "3" }, { key := str "k", value := str "4" }] (str "k")
        = (0, pre ++ post)) ∧
    delete_node
        [{ key := str "a", value := str "1" }, { key := str "k", value := str "2" },
          { key := str "b", value := str "3" }, { key := str "k", value := str "4" }] (str "z")
      = (-1, [{ key := str "a", value := str "1" }, { key := str "k", value := str "2" },
          { key := str "b", value := str "3" }, { key := str "k", value := str "4" }]) :=
  ⟨(delete_node_removes_first_match _ (str "k")).1
      ⟨{ key := str "k", value := str "2" }, by decide, rfl⟩,
   (delete_node_removes_first_match _ (str "z")).2 (by decide)⟩

/-- C14 (as amended): starting from the empty list, after `insert_node(k, v1)`,
`insert_node(k, v2)` and one `delete_node(k)`, which returns 0, `search_node(k)`
finds the entry `(k, v1)`; after a second `delete_node(k)` it finds nothing. -/
theorem search_node_after_delete_node (k v1 v2 : CStr) :
    delete_node (insert_node (insert_node [] k v1).2 k v2).2 k =
      (0, [{ key := k, value := v1 }]) ∧
    search_node (delete_node (insert_node (insert_node [] k v1).2 k v2).2 k).2 k =
      some { key := k, value := v1 } ∧
    search_node
      (delete_node (delete_node (insert_node (insert_node [] k v1).2 k v2).2 k).2 k).2 k
      = none := by
  simp [insert_node, delete_node, search_node]

/-- C14 as stated fails: after inserting `(k, 1)` and `(k, 2)` into the empty
list and deleting `k` once, the lookup of `k` does not return no-value, it
returns the entry with value `1`. -/
theorem search_node_after_delete_node_finds_older :
    search_node
      (delete_node (insert_node (insert_node [] (str "k") (str "1")).2 (str "k") (str "2")).2
        (str "k")).2 (str "k") ≠ none ∧
    get_header
      (delete_node (insert_node (insert_node [] (str "k") (str "1")).2 (str "k") (str "2")).2
        (str "k")).2 (str "k") = some (str "1") := by
  decide

/-! ### Route lookup and registration -/

theorem get_route_eq_loop {H : Type} (rt : Routes H) (m p : CStr) :
    get_route rt m p = get_route_loop (method_routes rt m) p := rfl

theorem method_routes_of_not_mem {H : Type} (rt : Routes H) (m : CStr)
    (hm : m ∉ supported_methods) : method_routes rt m = [] := by
  simp only [supported_methods, List.mem_cons, List.mem_singleton, List.mem_nil_iff,
    or_false, not_or] at hm
  obtain ⟨h1, h2, h3, h4, h5⟩ := hm
  simp [method_routes, h1, h2, h3, h4, h5]

theorem get_route_loop_eq_some {H : Type} (p : CStr) (h : H) :
    ∀ l : List (route_t H), get_route_loop l p = some h → ∃ x ∈ l, x.path = p ∧ x.cb = h := by
  intro l
  induction l with
  | nil => intro e; simp [get_route_loop] at e
  | cons x xs ih =>
    intro e
    unfold get_route_loop at e
    by_cases hx : x.path = p
    · rw [if_pos hx] at e
      exact ⟨x, List.mem_cons_self x xs, hx, Option.some.inj e⟩
    · rw [if_neg hx] at e
      obtain ⟨y, hy, h1, h2⟩ := ih e
      exact ⟨y, List.mem_cons_of_mem x hy, h1, h2⟩

theorem mem_method_routes_add_route {H : Type} (rt : Routes H) (m1 p1 : CStr) (h1 : H)
    (m : CStr) (x : route_t H) (hx : x ∈ method_routes (add_route rt m1 p1 h1).2 m) :
    x ∈ method_routes rt m ∨ (m1 = m ∧ x.path = p1 ∧ x.cb = h1) := by
  have d1 : str "GET" ≠ str "POST" := by decide
  have d2 : str "GET" ≠ str "PUT" := by decide
  have d3 : str "GET" ≠ str "DELETE" := by decide
  have d4 : str "GET" ≠ str "PATCH" := by decide
  have d5 : str "POST" ≠ str "PUT" := by decide
  have d6 : str "POST" ≠ str "DELETE" := by decide
  have d7 : str "POST" ≠ str "PATCH" := by decide
  have d8 : str "PUT" ≠ str "DELETE" := by decide
  have d9 : str "PUT" ≠ str "PATCH" := by decide
  have d10 : str "DELETE" ≠ str "PATCH" := by decide
  unfold add_route insert_route at hx
  unfold method_routes at hx ⊢
  by_cases a1 : m1 = str "GET"
  · by_cases b1 : m = str "GET"
    · subst a1; subst b1
      simp only [if_true, List.mem_cons] at hx ⊢
      rcases hx with e | e
      · exact Or.inr ⟨trivial, by rw [e], by rw [e]⟩
      · exact Or.inl e
    · simp only [a1, b1, if_true, if_false] at hx ⊢
      exact Or.inl hx
  by_cases a2 : m1 = str "POST"
  · by_cases b2 : m = str "POST"
    · subst a2; subst b2
      simp only [d1.symm, if_true, if_false, List.mem_cons] at hx ⊢
      rcases hx with e | e
      · exact Or.inr ⟨trivial, by rw [e], by rw [e]⟩
      · exact Or.inl e
    · simp only [a1, a2, b2, if_true, if_false] at hx ⊢
      exact Or.inl hx
  by_cases a3 : m1 = str "PUT"
  · by_cases b3 : m = str "PUT"
    · subst a3; subst b3
      simp only [d2.symm, d5.symm, if_true, if_false, List.mem_cons] at hx ⊢
      rcases hx with e | e
      · exact Or.inr ⟨trivial, by rw [e], by rw [e]⟩
      · exact Or.inl e
    · simp only [a1, a2, a3, b3, if_true, if_false] at hx ⊢
      exact Or.inl hx
  by_cases a4 : m1 = str "DELETE"
  · by_cases b4 : m = str "DELETE"
    · subst a4; subst b4
      simp only [d3.symm, d6.symm, d8.symm, if_true, if_false, List.mem_cons] at hx ⊢
      rcases hx with e | e
      · exact Or.inr ⟨trivial, by rw [e], by rw [e]⟩
      · exact Or.inl e
    · simp only [a1, a2, a3, a4, b4, if_true, if_false] at hx ⊢
      exact Or.inl hx
  by_cases a5 : m1 = str "PATCH"
  · by_cases b5 : m = str "PATCH"
    · subst a5; subst b5
      simp only [d4.symm, d7.symm, d9.symm, d10.symm, if_true, if_false, List.mem_cons] at hx ⊢
      rcases hx with e | e
      · exact Or.inr ⟨trivial, by rw [e], by rw [e]⟩
      · exact Or.inl e
    · simp only [a1, a2, a3, a4, a5, b5, if_true, if_false] at hx ⊢
      exact Or.inl hx
  simp only [a1, a2, a3, a4, a5, if_false] at hx
  exact Or.inl hx

theorem mem_method_routes_register_all {H : Type} (m : CStr) (x : route_t H) :
    ∀ (regs : List (CStr × CStr × H)) (rt : Routes H),
      x ∈ method_routes (register_all regs rt) m →
        x ∈ method_routes rt m ∨ (m, x.path, x.cb) ∈ regs := by
  intro regs
  induction regs with
  | nil => intro rt hx; exact Or.inl hx
  | cons r rs ih =>
    intro rt hx
    have hx2 : x ∈ method_routes (register_all rs (add_route rt r.1 r.2.1 r.2.2).2) m := hx
    rcases ih _ hx2 with e | e
    · rcases mem_method_routes_add_route rt r.1 r.2.1 r.2.2 m x e with e2 | ⟨e1, e2, e3⟩
      · exact Or.inl e2
      · refine Or.inr (List.mem_cons.mpr (Or.inl ?_))
        rw [← e1, e2, e3]
    · exact Or.inr (List.mem_cons_of_mem r e)

/-- C11: in the table built from the empty one by a list of `add_route` calls,
`get_route(m, p)` returns a handler `h` only if `add_route(m, p, h)` was among
the calls, with exactly this method and this path; it returns no handler when
`m` is not one of the five methods, and when no call registered the path `p`
under the method `m`. -/
theorem get_route_only_registered {H : Type} (regs : List (CStr × CStr × H)) (m p : CStr) :
    (∀ h, get_route (register_all regs (Routes.empty H)) m p = some h → (m, p, h) ∈ regs) ∧
    (m ∉ supported_methods → get_route (register_all regs (Routes.empty H)) m p = none) ∧
    ((∀ h, (m, p, h) ∉ regs) → get_route (register_all regs (Routes.empty H)) m p = none) := by
  have sound : ∀ h, get_route (register_all regs (Routes.empty H)) m p = some h →
      (m, p, h) ∈ regs := by
    intro h e
    rw [get_route_eq_loop] at e
    obtain ⟨x, hx, h1, h2⟩ := get_route_loop_eq_some p h _ e
    rcases mem_method_routes_register_all m x regs _ hx with e1 | e1
    · exfalso
      have : method_routes (Routes.empty H) m = [] := by
        unfold method_routes Routes.empty
        simp
      rw [this] at e1
      simp at e1
    · rw [h1, h2] at e1
      exact e1
  refine ⟨sound, fun hm => ?_, fun hno => ?_⟩
  · rw [get_route_eq_loop, method_routes_of_not_mem _ m hm]
    rfl
  · cases e : get_route (register_all regs (Routes.empty H)) m p with
    | none => rfl
    | some h => exact absurd (sound h e) (hno h)

/-- C11, with `GET /a` registered: `/a/` is not found under GET, `/a` is not
found under POST, and nothing is found under the method `HEAD`. -/
theorem get_route_only_registered_witness :
    get_route (register_all [(str "GET", str "/a", 1)] (Routes.empty Nat)) (str "GET") (str "/a/")
      = none ∧
    get_route (register_all [(str "GET", str "/a", 1)] (Routes.empty Nat)) (str "POST") (str "/a")
      = none ∧
    get_route (register_all [(str "GET", str "/a", 1)] (Routes.empty Nat)) (str "HEAD") (str "/a")
      = none :=
  ⟨(get_route_only_registered [(str "GET", str "/a", 1)] (str "GET") (str "/a/")).2.2
      (fun h hm => by
        simp only [List.mem_singleton, Prod.mk.injEq] at hm
        exact absurd hm.2.1 (by decide)),
   (get_route_only_registered [(str "GET", str "/a", 1)] (str "POST") (str "/a")).2.2
      (fun h hm => by
        simp only [List.mem_singleton, Prod.mk.injEq] at hm
        exact absurd hm.1 (by decide)),
   (get_route_only_registered [(str "GET", str "/a", 1)] (str "HEAD") (str "/a")).2.1
      (by decide)⟩

/-- C12: `add_route` returns -1 exactly when the method is none of `GET`, `POST`,
`PUT`, `DELETE`, `PATCH`, and then the table is unchanged; for each of the five
methods it returns 0 and puts one new route at the head of the list of that
method, leaving the other four lists as they were. -/
theorem add_route_fails_iff_unsupported {H : Type} (rt : Routes H) (m p : CStr) (h : H) :
    ((add_route rt m p h).1 = -1 ↔ m ∉ supported_methods) ∧
    (m ∉ supported_methods → (add_route rt m p h).2 = rt) ∧
    (m = str "GET" → add_route rt m p h =
      (0, { rt with get := { path := p, method := str "GET", cb := h } :: rt.get })) ∧
    (m = str "POST" → add_route rt m p h =
      (0, { rt with post := { path := p, method := str "POST", cb := h } :: rt.post })) ∧
    (m = str "PUT" → add_route rt m p h =
      (0, { rt with put := { path := p, method := str "PUT", cb := h } :: rt.put })) ∧
    (m = str "DELETE" → add_route rt m p h =
      (0, { rt with delete := { path := p, method := str "DELETE", cb := h } :: rt.delete })) ∧
    (m = str "PATCH" → add_route rt m p h =
      (0, { rt with patch := { path := p, method := str "PATCH", cb := h } :: rt.patch })) := by
  have d1 : str "POST" ≠ str "GET" := by decide
  have d2 : str "PUT" ≠ str "GET" := by decide
  have d3 : str "DELETE" ≠ str "GET" := by decide
  have d4 : str "PATCH" ≠ str "GET" := by decide
  have d5 : str "PUT" ≠ str "POST" := by decide
  have d6 : str "DELETE" ≠ str "POST" := by decide
  have d7 : str "PATCH" ≠ str "POST" := by decide
  have d8 : str "DELETE" ≠ str "PUT" := by decide
  have d9 : str "PATCH" ≠ str "PUT" := by decide
  have d10 : str "PATCH" ≠ str "DELETE" := by decide
  refine ⟨?_, ?_, ?_, ?_, ?_, ?_, ?_⟩
  · simp only [supported_methods, List.mem_cons, List.mem_singleton, List.mem_nil_iff,
      or_false, not_or]
    unfold add_route insert_route
    by_cases a1 : m = str "GET"
    · simp [a1]
    by_cases a2 : m = str "POST"
    · simp [a2, d1]
    by_cases a3 : m = str "PUT"
    · simp [a3, d2, d5]
    by_cases a4 : m = str "DELETE"
    · simp [a4, d3, d6, d8]
    by_cases a5 : m = str "PATCH"
    · simp [a5, d4, d7, d9, d10]
    simp [a1, a2, a3, a4, a5]
  · intro hm
    simp only [supported_methods, List.mem_cons, List.mem_singleton, List.mem_nil_iff,
      or_false, not_or] at hm
    obtain ⟨h1, h2, h3, h4, h5⟩ := hm
    simp [add_route, h1, h2, h3, h4, h5]
  · intro e; subst e; simp [add_route, insert_route]
  · intro e; subst e; simp [add_route, insert_route, d1]
  · intro e; subst e; simp [add_route, insert_route, d2, d5]
  · intro e; subst e; simp [add_route, insert_route, d3, d6, d8]
  · intro e; subst e; simp [add_route, insert_route, d4, d7, d9, d10]

/-- C12, at the method `HEAD` (refused, table unchanged) and at the method `PUT`
on the empty table. -/
theorem add_route_fails_iff_unsupported_witness :
    (add_route (Routes.empty Nat) (str "HEAD") (str "/a") 7).2 = Routes.empty Nat ∧
    add_route (Routes.empty Nat) (str "PUT") (str "/a") 7 =
      (0, { Routes.empty Nat with
            put := { path := str "/a", method := str "PUT", cb := 7 } :: (Routes.empty Nat).put }) :=
  ⟨(add_route_fails_iff_unsupported (Routes.empty Nat) (str "HEAD") (str "/a") 7).2.1 (by decide),
   (add_route_fails_iff_unsupported (Routes.empty Nat) (str "PUT") (str "/a") 7).2.2.2.2.1 rfl⟩

/-! ### Lines that the patterns do not match -/

theorem pickLongest_eq_none (ls : List (List Nat)) (h : ls = []) : pickLongest ls = none := by
  subst h
  rfl

theorem regexec_eq_none (pattern : List Atom) :
    ∀ s : List Char, (∀ k, matchLens pattern (s.drop k) = []) → regexec pattern s = none := by
  intro s
  induction s with
  | nil =>
    intro h
    have h0 := h 0
    simp only [List.drop_nil] at h0
    simp [regexec, h0, pickLongest]
  | cons c cs ih =>
    intro h
    have h0 : matchLens pattern (c :: cs) = [] := h 0
    have hrest : ∀ k, matchLens pattern (cs.drop k) = [] := fun k => h (k + 1)
    simp [regexec, h0, pickLongest, ih hrest]

theorem mem_downFrom_iff (k n : Nat) : n ∈ downFrom k ↔ 1 ≤ n ∧ n ≤ k := by
  induction k with
  | zero => simp [downFrom]; omega
  | succ k ih =>
    simp only [downFrom, List.mem_cons, ih]
    omega

theorem mem_matchLens_plus (p : Char → Bool) (R : List Atom) (s : List Char) (l : List Nat)
    (h : l ∈ matchLens (Atom.plus p :: R) s) :
    ∃ n l2, l = n :: l2 ∧ 1 ≤ n ∧ n ≤ classRun p s ∧ l2 ∈ matchLens R (s.drop n) := by
  rw [matchLens_plus] at h
  simp only [List.mem_flatMap, List.mem_map] at h
  obtain ⟨n, hn, l2, hl2, e⟩ := h
  rw [mem_downFrom_iff] at hn
  exact ⟨n, l2, e.symm, hn.1, hn.2, hl2⟩

theorem mem_matchLens_one (p : Char → Bool) (R : List Atom) (s : List Char) (l : List Nat)
    (h : l ∈ matchLens (Atom.one p :: R) s) :
    ∃ c cs l2, s = c :: cs ∧ p c = true ∧ l = 1 :: l2 ∧ l2 ∈ matchLens R cs := by
  cases s with
  | nil => simp [matchLens_one_nil] at h
  | cons c cs =>
    rw [matchLens_one_cons] at h
    by_cases hc : p c = true
    · rw [if_pos hc] at h
      simp only [List.mem_map] at h
      obtain ⟨l2, hl2, e⟩ := h
      exact ⟨c, cs, l2, rfl, hc, e.symm, hl2⟩
    · rw [if_neg hc] at h
      simp at h

theorem classRun_take (p : Char → Bool) :
    ∀ (s : List Char) (n : Nat), n ≤ classRun p s →
      (∀ c ∈ s.take n, p c = true) ∧ (s.take n).length = n := by
  intro s
  induction s with
  | nil =>
    intro n hn
    simp only [classRun] at hn
    have : n = 0 := by omega
    subst this
    simp
  | cons x xs ih =>
    intro n hn
    cases n with
    | zero => simp
    | succ n =>
      by_cases hx : p x = true
      · have hrun : classRun p (x :: xs) = classRun p xs + 1 := by simp [classRun, hx]
        rw [hrun] at hn
        obtain ⟨h1, h2⟩ := ih n (by omega)
        refine ⟨?_, by simp [h2]⟩
        intro c hc
        simp only [List.take_succ_cons, List.mem_cons] at hc
        rcases hc with e | e
        · rw [e]; exact hx
        · exact h1 c e
      · have hrun : classRun p (x :: xs) = 0 := by simp [classRun, hx]
        rw [hrun] at hn
        omega

theorem eq_of_lit (a c : Char) (h : lit a c = true) : c = a := by
  simpa [lit] using h

theorem ne_of_notChar (a c : Char) (h : notChar a c = true) : c ≠ a := by
  simpa [notChar] using h

/-- A match of the pattern of `parse_first_line` at the start of `t` splits `t`
into a method, a space, a path, ` HTTP/`, three version characters and a rest. -/
theorem matchLens_first_line_split (t : List Char) (l : List Nat)
    (h : l ∈ matchLens first_line_pattern t) :
    ∃ M P rest a d b, M ≠ [] ∧ (∀ c ∈ M, upperAZ c = true) ∧ P ≠ [] ∧ (∀ c ∈ P, c ≠ ' ') ∧
      digit09 a = true ∧ digit01 b = true ∧
      t = M ++ [' '] ++ P ++ str " HTTP/" ++ [a, d, b] ++ rest := by
  unfold first_line_pattern at h
  obtain ⟨n1, l1, _, hn1, hrun1, h1⟩ := mem_matchLens_plus _ _ _ _ h
  obtain ⟨c1, t1, l2, ht1, hc1, _, h2⟩ := mem_matchLens_one _ _ _ _ h1
  obtain ⟨n2, l3, _, hn2, hrun2, h3⟩ := mem_matchLens_plus _ _ _ _ h2
  obtain ⟨c2, t2, l4, ht2, hc2, _, h4⟩ := mem_matchLens_one _ _ _ _ h3
  obtain ⟨c3, t3, l5, ht3, hc3, _, h5⟩ := mem_matchLens_one _ _ _ _ h4
  obtain ⟨c4, t4, l6, ht4, hc4, _, h6⟩ := mem_matchLens_one _ _ _ _ h5
  obtain ⟨c5, t5, l7, ht5, hc5, _, h7⟩ := mem_matchLens_one _ _ _ _ h6
  obtain ⟨c6, t6, l8, ht6, hc6, _, h8⟩ := mem_matchLens_one _ _ _ _ h7
  obtain ⟨c7, t7, l9, ht7, hc7, _, h9⟩ := mem_matchLens_one _ _ _ _ h8
  obtain ⟨a, t8, l10, ht8, ha, _, h10⟩ := mem_matchLens_one _ _ _ _ h9
  obtain ⟨d, t9, l11, ht9, _, _, h11⟩ := mem_matchLens_one _ _ _ _ h10
  obtain ⟨b, rest, l12, ht10, hb, _, _⟩ := mem_matchLens_one _ _ _ _ h11
  have e1 := eq_of_lit _ _ hc1
  have e2 := eq_of_lit _ _ hc2
  have e3 := eq_of_lit _ _ hc3
  have e4 := eq_of_lit _ _ hc4
  have e5 := eq_of_lit _ _ hc5
  have e6 := eq_of_lit _ _ hc6
  have e7 := eq_of_lit _ _ hc7
  subst e1 e2 e3 e4 e5 e6 e7
  obtain ⟨hM, hMlen⟩ := classRun_take upperAZ t n1 hrun1
  obtain ⟨hP, hPlen⟩ := classRun_take (notChar ' ') t1 n2 hrun2
  refine ⟨t.take n1, t1.take n2, rest, a, d, b, ?_, hM, ?_, ?_, ha, hb, ?_⟩
  · intro e
    rw [e] at hMlen
    simp at hMlen
    omega
  · intro e
    rw [e] at hPlen
    simp at hPlen
    omega
  · exact fun c hc => ne_of_notChar ' ' c (hP c hc)
  · have s1 : t = t.take n1 ++ t.drop n1 := (List.take_append_drop n1 t).symm
    have s2 : t1 = t1.take n2 ++ t1.drop n2 := (List.take_append_drop n2 t1).symm
    rw [ht1] at s1
    rw [ht2, ht3, ht4, ht5, ht6, ht7, ht8, ht9, ht10] at s2
    have hstr : str " HTTP/" = [' ', 'H', 'T', 'T', 'P', '/'] := by decide
    rw [hstr]
    calc t = t.take n1 ++ ' ' :: t1 := s1
      _ = t.take n1 ++ ' ' :: (t1.take n2 ++ ' ' :: 'H' :: 'T' :: 'T' :: 'P' :: '/' :: a :: d :: b :: rest) := by
          rw [← s2]
      _ = _ := by simp

theorem parse_first_line_of_no_match (req : request_t) (line : CStr)
    (h : ∀ pre M P rest a d b, M ≠ [] → (∀ c ∈ M, upperAZ c = true) → P ≠ [] →
      (∀ c ∈ P, c ≠ ' ') → digit09 a = true → digit01 b = true →
      line ≠ pre ++ (M ++ [' '] ++ P ++ str " HTTP/" ++ [a, d, b] ++ rest)) :
    parse_first_line req line = some (-1, req) := by
  have hnone : regexec first_line_pattern line = none := by
    apply regexec_eq_none
    intro k
    cases hm : matchLens first_line_pattern (line.drop k) with
    | nil => rfl
    | cons l ls =>
      exfalso
      have hl : l ∈ matchLens first_line_pattern (line.drop k) := by
        rw [hm]; exact List.mem_cons_self l ls
      obtain ⟨M, P, rest, a, d, b, hM, hMu, hP, hPs, ha, hb, e⟩ :=
        matchLens_first_line_split _ l hl
      apply h (line.take k) M P rest a d b hM hMu hP hPs ha hb
      rw [← e, List.take_append_drop]
  unfold parse_first_line
  simp only [hnone]

/-- What holds of C17: `parse_first_line` returns -1 and leaves the request as it
was for every line no part of which has the form METHOD SP PATH SP `HTTP/`
followed by a digit, one more character and `0` or `1`, with METHOD a non-empty
run of uppercase letters and PATH a non-empty run of characters other than
space. -/
theorem parse_first_line_fails_without_match (req : request_t) (line : CStr)
    (h : ∀ pre M P rest a d b, M ≠ [] → (∀ c ∈ M, upperAZ c = true) → P ≠ [] →
      (∀ c ∈ P, c ≠ ' ') → digit09 a = true → digit01 b = true →
      line ≠ pre ++ (M ++ [' '] ++ P ++ str " HTTP/" ++ [a, d, b] ++ rest)) :
    parse_first_line req line = some (-1, req) :=
  parse_first_line_of_no_match req line h

/-- The line `GET /index.html`, which has no `HTTP/` part, as an instance. -/
theorem parse_first_line_fails_without_match_witness :
    parse_first_line init_request (str "GET /index.html") = some (-1, init_request) :=
  parse_first_line_fails_without_match init_request (str "GET /index.html")
    (fun pre M P rest a d b _ _ _ _ _ _ e => by
      have hH : 'H' ∈ pre ++ (M ++ [' '] ++ P ++ str " HTTP/" ++ [a, d, b] ++ rest) := by
        have : 'H' ∈ str " HTTP/" := by decide
        simp [this]
      rw [← e] at hH
      exact absurd hH (by decide))

/-- C17 fails on the code: the pattern of `parse_first_line` asks for a method of
uppercase letters and a version of a digit, a dot and a digit, but it is not
anchored at the start of the line and its dot is not escaped. The line
`gET / HTTP/1.1` is not rejected, it is parsed with the method `ET`; and the line
`GET / HTTP/1x1` is not rejected, it is parsed with the version `1x1`. -/
theorem parse_first_line_accepts_partial_match :
    parse_first_line init_request (str "gET / HTTP/1.1") =
      some (0, { init_request with method := some (str "ET"), path := some (str "/"),
                                   version := some (str "1.1") }) ∧
    parse_first_line init_request (str "GET / HTTP/1x1") =
      some (0, { init_request with method := some (str "GET"), path := some (str "/"),
                                   version := some (str "1x1") }) := by
  decide

theorem strtok_all_header_block_append (X : CStr) :
    ∀ (kvs : List (CStr × CStr)),
      (∀ kv ∈ kvs, kv.1 ≠ [] ∧ (∀ c ∈ kv.1, c ≠ '\r' ∧ c ≠ '\n') ∧
        (∀ c ∈ kv.2, c ≠ '\r' ∧ c ≠ '\n')) →
      strtok_all (header_block kvs ++ X) (str "\r\n") =
        kvs.map (fun kv => kv.1 ++ str ": " ++ kv.2) ++ strtok_all X (str "\r\n") := by
  intro kvs
  induction kvs with
  | nil => intro _; simp [header_block]
  | cons kv kvs ih =>
    intro h
    obtain ⟨hk, hkc, hvc⟩ := h kv (List.mem_cons_self kv kvs)
    have hrest := ih (fun x hx => h x (List.mem_cons_of_mem kv hx))
    have hblock : header_block (kv :: kvs) ++ X =
        (kv.1 ++ str ": " ++ kv.2) ++ '\r' :: '\n' :: (header_block kvs ++ X) := by
      simp [header_block, str]
    have hcr : '\r' ∈ str "\r\n" := by decide
    have hlf : '\n' ∈ str "\r\n" := by decide
    have hmem : ∀ x : Char, x ∈ str "\r\n" → x = '\r' ∨ x = '\n' := by
      intro x hx
      simpa [str] using hx
    rw [hblock, strtok_all_append _ '\r' _ _ hcr, strtok_all_cons_delim _ '\n' _ hlf, hrest]
    · rfl
    · cases hk1 : kv.1 with
      | nil => exact absurd hk1 hk
      | cons x xs => simp
    · intro x hx hd
      simp only [List.mem_append] at hx
      rcases hx with (hx | hx) | hx
      · rcases hmem x hd with e | e
        · exact (hkc x hx).1 e
        · exact (hkc x hx).2 e
      · have : x = ':' ∨ x = ' ' := by simpa [str] using hx
        rcases this with e | e <;> subst e <;> exact absurd hd (by decide)
      · rcases hmem x hd with e | e
        · exact (hvc x hx).1 e
        · exact (hvc x hx).2 e

theorem parse_headers_loop_append (Y : List CStr) :
    ∀ (kvs : List (CStr × CStr)) (headers : List node_t),
      (∀ kv ∈ kvs, kv.1 ≠ [] ∧ (∀ c ∈ kv.1, c ≠ ':') ∧ kv.2 ≠ []) →
      parse_headers_loop (kvs.map (fun kv => kv.1 ++ str ": " ++ kv.2) ++ Y) headers =
        parse_headers_loop Y ((kvs.map node_of).reverse ++ headers) := by
  intro kvs
  induction kvs with
  | nil => intro headers _; simp
  | cons kv kvs ih =>
    intro headers h
    obtain ⟨hk, hkc, hv⟩ := h kv (List.mem_cons_self kv kvs)
    obtain ⟨s1, s2⟩ := submatch_header_line kv.1 kv.2
    simp only [List.map_cons, List.cons_append, parse_headers_loop,
      regexec_header_line kv.1 kv.2 hk hkc hv, s1, s2, List.append_eq]
    rw [ih _ (fun x hx => h x (List.mem_cons_of_mem kv hx))]
    simp [add_header, insert_node, node_of]

theorem parse_headers_of_bad_line (req : request_t) (good : List (CStr × CStr))
    (bad more : CStr)
    (h : ∀ kv ∈ good, (kv.1 ≠ [] ∧ ∀ c ∈ kv.1, c ≠ ':' ∧ c ≠ '\r' ∧ c ≠ '\n') ∧
      (kv.2 ≠ [] ∧ ∀ c ∈ kv.2, c ≠ '\r' ∧ c ≠ '\n'))
    (hne : bad ≠ []) (hfree : ∀ c ∈ bad, c ≠ '\r' ∧ c ≠ '\n')
    (hbad : regexec header_pattern bad = none) :
    parse_headers req (header_block good ++ (bad ++ str "\r\n" ++ more)) =
      (-1, { req with headers := (good.map node_of).reverse ++ req.headers }) := by
  have hcr : '\r' ∈ str "\r\n" := by decide
  have hmem : ∀ x : Char, x ∈ str "\r\n" → x = '\r' ∨ x = '\n' := by
    intro x hx
    simpa [str] using hx
  have htok : strtok_all (bad ++ str "\r\n" ++ more) (str "\r\n") =
      bad :: strtok_all ('\n' :: more) (str "\r\n") := by
    have e : bad ++ str "\r\n" ++ more = bad ++ '\r' :: ('\n' :: more) := by simp [str]
    rw [e]
    apply strtok_all_append _ '\r' _ _ hcr hne
    intro x hx hd
    rcases hmem x hd with e | e
    · exact (hfree x hx).1 e
    · exact (hfree x hx).2 e
  unfold parse_headers
  rw [strtok_all_header_block_append _ good
    (fun kv hkv => ⟨(h kv hkv).1.1, fun c hc => ((h kv hkv).1.2 c hc).2, (h kv hkv).2.2⟩)]
  rw [htok, parse_headers_loop_append _ good req.headers
    (fun kv hkv => ⟨(h kv hkv).1.1, fun c hc => ((h kv hkv).1.2 c hc).1, (h kv hkv).2.1⟩)]
  simp [parse_headers_loop, hbad]

/-- A line that nowhere has a colon directly followed by a space does not match
the pattern of `parse_headers`. -/
theorem regexec_header_pattern_of_no_colon_space (line : CStr)
    (h : ∀ pre post, line ≠ pre ++ ':' :: ' ' :: post) :
    regexec header_pattern line = none := by
  apply regexec_eq_none
  intro k
  cases hm : matchLens header_pattern (line.drop k) with
  | nil => rfl
  | cons l ls =>
    exfalso
    have hl : l ∈ matchLens header_pattern (line.drop k) := by
      rw [hm]; exact List.mem_cons_self l ls
    unfold header_pattern at hl
    obtain ⟨n1, l1, _, _, _, h1⟩ := mem_matchLens_plus _ _ _ _ hl
    obtain ⟨c1, t1, l2, ht1, hc1, _, h2⟩ := mem_matchLens_one _ _ _ _ h1
    obtain ⟨c2, t2, l3, ht2, hc2, _, _⟩ := mem_matchLens_one _ _ _ _ h2
    have e1 := eq_of_lit _ _ hc1
    have e2 := eq_of_lit _ _ hc2
    subst e1 e2
    apply h (line.take (k + n1)) t2
    have s1 : line = line.take (k + n1) ++ line.drop (k + n1) :=
      (List.take_append_drop _ _).symm
    have s2 : line.drop (k + n1) = (line.drop k).drop n1 := by
      rw [List.drop_drop, Nat.add_comm]
    rw [s2, ht1, ht2] at s1
    exact s1

/-- C19 (as amended): when a block starts with well-formed lines `K: V\r\n` and
then has a line that does not match the pattern of `parse_headers`,
`parse_headers` returns -1, the headers of the well-formed lines before that line
have been added to the header list of the request, and nothing after that line is
looked at. -/
theorem parse_headers_fails_and_keeps_earlier (req : request_t) (good : List (CStr × CStr))
    (bad more : CStr)
    (h : ∀ kv ∈ good, (kv.1 ≠ [] ∧ ∀ c ∈ kv.1, c ≠ ':' ∧ c ≠ '\r' ∧ c ≠ '\n') ∧
      (kv.2 ≠ [] ∧ ∀ c ∈ kv.2, c ≠ '\r' ∧ c ≠ '\n'))
    (hne : bad ≠ []) (hfree : ∀ c ∈ bad, c ≠ '\r' ∧ c ≠ '\n')
    (hbad : regexec header_pattern bad = none) :
    parse_headers req (header_block good ++ (bad ++ str "\r\n" ++ more)) =
      (-1, { req with headers := (good.map node_of).reverse ++ req.headers }) :=
  parse_headers_of_bad_line req good bad more h hne hfree hbad

/-- C19, at the block `A: 1`, `B: 2`, `Host:x`, `C: 3` and the empty line. -/
theorem parse_headers_fails_and_keeps_earlier_witness :
    parse_headers init_request
        (header_block [(str "A", str "1"), (str "B", str "2")]
          ++ (str "Host:x" ++ str "\r\n" ++ str "C: 3\r\n\r\n")) =
      (-1, { init_request with
             headers := ([(str "A", str "1"), (str "B", str "2")].map node_of).reverse
               ++ init_request.headers }) :=
  parse_headers_fails_and_keeps_earlier init_request [(str "A", str "1"), (str "B", str "2")]
    (str "Host:x") (str "C: 3\r\n\r\n") (by decide) (by decide) (by decide) (by decide)

/-- C19 as stated fails: for the blocks `A: 1`, `Host:x` and `A: 1`, `Host`
`parse_headers` returns -1, but the header list of the request is not what it was
before the call (empty): it holds the header `A: 1` of the earlier line. -/
theorem parse_headers_retains_earlier_headers :
    parse_headers init_request (str "A: 1\r\nHost:x\r\n\r\n") =
      (-1, { init_request with headers := [{ key := str "A", value := str "1" }] }) ∧
    parse_headers init_request (str "A: 1\r\nHost\r\n\r\n") =
      (-1, { init_request with headers := [{ key := str "A", value := str "1" }] }) ∧
    (parse_headers init_request (str "A: 1\r\nHost:x\r\n\r\n")).2.headers
      ≠ init_request.headers := by
  decide

/-! ### The body stage without a recognized content type -/

/-- With a `Content-Type` header whose value is neither `application/json` nor
`application/x-www-form-urlencoded`, and a buffer that holds `size` bytes,
`parse_body` returns 0, stores the first `size` bytes in `body.data` and changes
nothing else: `body.params` and `n_params` are as before. -/
theorem parse_body_unrecognized_content_type (req : request_t) (node : node_t)
    (buffer : List Char) (size : Nat)
    (hct : search_node req.headers (str "Content-Type") = some node)
    (hj : node.value ≠ str "application/json")
    (hu : node.value ≠ str "application/x-www-form-urlencoded")
    (hsize : size ≤ buffer.length) :
    parse_body req buffer size =
      some (0, { req with body := { req.body with data := some (buffer.take size) } }) := by
  have hlt : ¬ buffer.length < size := by omega
  unfold parse_body
  simp [hct, hj, hu, set_body, hlt]

/-- C20 fails on the code for a request without a `Content-Type` header: with the
single header `Content-Length: 1` and the body `x`, `parse_body` reads `->value`
of the `NULL` that `search_node` returns, which is undefined behaviour, instead of
storing the body and returning 0; with `Content-Type: text/plain` it stores the
byte and leaves the params alone. -/
theorem parse_body_without_content_type :
    parse_body
        { init_request with headers := [{ key := str "Content-Length", value := str "1" }] }
        (str "x" ++ [NUL]) 1 = none ∧
    parse_body
        { init_request with headers := [{ key := str "Content-Type", value := str "text/plain" }] }
        (str "x" ++ [NUL]) 1 =
      some (0, { init_request with
        headers := [{ key := str "Content-Type", value := str "text/plain" }],
        body := { data := some (str "x"), params := [], n_params := 0 } }) := by
  decide

/-! ### Query keys that are empty or white space -/

theorem strtok_all_query_run_append (X : CStr) :
    ∀ (kvs : List (CStr × CStr)),
      (∀ kv ∈ kvs, (∀ c ∈ kv.1, c ≠ '&') ∧ (∀ c ∈ kv.2, c ≠ '&')) →
      strtok_all (query_run kvs ++ X) (str "&") =
        kvs.map (fun kv => kv.1 ++ '=' :: kv.2) ++ strtok_all X (str "&") := by
  have hamp : '&' ∈ str "&" := by decide
  have hmem : ∀ x : Char, x ∈ str "&" → x = '&' := by
    intro x hx
    simpa [str] using hx
  intro kvs
  induction kvs with
  | nil => intro _; simp [query_run]
  | cons kv kvs ih =>
    intro h
    obtain ⟨hkc, hvc⟩ := h kv (List.mem_cons_self kv kvs)
    have hrest := ih (fun x hx => h x (List.mem_cons_of_mem kv hx))
    have e : query_run (kv :: kvs) ++ X =
        (kv.1 ++ '=' :: kv.2) ++ '&' :: (query_run kvs ++ X) := by
      simp [query_run]
    rw [e, strtok_all_append _ '&' _ _ hamp (by simp), hrest]
    · rfl
    · intro x hx hd
      have e2 := hmem x hd
      subst e2
      simp only [List.mem_append, List.mem_cons] at hx
      rcases hx with hx | hx | hx
      · exact hkc _ hx rfl
      · exact absurd hx (by decide)
      · exact hvc _ hx rfl

theorem process_query_loop_append (Y : List CStr) :
    ∀ (kvs : List (CStr × CStr)) (params : List node_t) (n : Nat),
      (∀ kv ∈ kvs, '=' ∉ kv.1 ∧ is_valid_key kv.1 = true) →
      process_query_loop (kvs.map (fun kv => kv.1 ++ '=' :: kv.2) ++ Y) params n =
        process_query_loop Y ((kvs.map node_of).reverse ++ params) (n + kvs.length) := by
  intro kvs
  induction kvs with
  | nil => intro params n _; simp
  | cons kv kvs ih =>
    intro params n h
    obtain ⟨hk, hv⟩ := h kv (List.mem_cons_self kv kvs)
    have e1 : (kv.1 ++ '=' :: kv.2).take kv.1.length = kv.1 := List.take_left _ _
    have e2 : (kv.1 ++ '=' :: kv.2).drop (kv.1.length + 1) = kv.2 := by
      have : kv.1 ++ '=' :: kv.2 = (kv.1 ++ ['=']) ++ kv.2 := by simp
      rw [this]
      have hl : (kv.1 ++ ['=']).length = kv.1.length + 1 := by simp
      rw [← hl]
      exact List.drop_left _ _
    have step : process_query_loop ((kv.1 ++ '=' :: kv.2) ::
        (kvs.map (fun kv => kv.1 ++ '=' :: kv.2) ++ Y)) params n =
        process_query_loop (kvs.map (fun kv => kv.1 ++ '=' :: kv.2) ++ Y)
          (add_param params kv.1 kv.2) (n + 1) := by
      conv => lhs; unfold process_query_loop
      simp only [strchr_append kv.1 kv.2 '=' hk, e1, e2, hv]
      simp
    rw [List.map_cons, List.cons_append, step,
      ih _ _ (fun x hx => h x (List.mem_cons_of_mem kv hx))]
    have hn : n + 1 + kvs.length = n + (kv :: kvs).length := by
      simp only [List.length_cons]; omega
    rw [hn]
    simp [add_param, insert_node, node_of]

theorem takeWhile_of_strchr (a : Char) :
    ∀ (s : CStr),
      (match strchr s a with
       | some i => s.take i
       | none => s) = s.takeWhile (fun c => !(c == a)) := by
  intro s
  induction s with
  | nil => rfl
  | cons c cs ih =>
    by_cases hc : c = a
    · subst hc
      simp [strchr]
    · have hca : (c == a) = false := by simp [hc]
      cases hs : strchr cs a with
      | none =>
        rw [hs] at ih
        simp only [strchr, hc, if_false, hs, Option.map_none', List.takeWhile_cons, hca,
          Bool.not_false, if_true]
        rw [← ih]
      | some i =>
        rw [hs] at ih
        simp only [strchr, hc, if_false, hs, Option.map_some', List.takeWhile_cons, hca,
          Bool.not_false, if_true, List.take_succ_cons]
        rw [← ih]

theorem process_query_loop_invalid_key (token : CStr) (Y : List CStr) (params : List node_t)
    (n : Nat)
    (hkey : is_valid_key (token.takeWhile (fun c => !(c == '='))) = false) :
    process_query_loop (token :: Y) params n = some (-1, params, n) := by
  have ht := takeWhile_of_strchr '=' token
  unfold process_query_loop
  cases hs : strchr token '=' with
  | none =>
    rw [hs] at ht
    simp only at ht
    rw [← ht] at hkey
    simp [hkey]
  | some i =>
    rw [hs] at ht
    simp only at ht
    rw [← ht] at hkey
    simp [hkey]

theorem process_query_of_invalid_key (req : request_t) (p : CStr) (good : List (CStr × CStr))
    (token more : CStr) (hp : '?' ∉ p)
    (h : ∀ kv ∈ good, (is_valid_key kv.1 = true ∧ ∀ c ∈ kv.1, c ≠ '=' ∧ c ≠ '&') ∧
      ∀ c ∈ kv.2, c ≠ '&')
    (hne : token ≠ []) (hamp : ∀ c ∈ token, c ≠ '&')
    (hmore : ∀ c, more.head? = some c → c = '&')
    (hkey : is_valid_key (token.takeWhile (fun c => !(c == '='))) = false) :
    process_query req (p ++ '?' :: (query_run good ++ (token ++ more))) =
      some (-1, { req with
        path := some p,
        body := { req.body with params := (good.map node_of).reverse ++ req.body.params } }) := by
  have hand : '&' ∈ str "&" := by decide
  have hmem : ∀ x : Char, x ∈ str "&" → x = '&' := by
    intro x hx
    simpa [str] using hx
  have hfree : ∀ x ∈ token, x ∉ str "&" := fun x hx hd => hamp x hx (hmem x hd)
  have htok : ∃ Y, strtok_all (token ++ more) (str "&") = token :: Y := by
    cases more with
    | nil =>
      refine ⟨[], ?_⟩
      rw [List.append_nil]
      exact strtok_all_of_free _ _ hne hfree
    | cons c cs =>
      have hc : c = '&' := hmore c rfl
      subst hc
      exact ⟨_, strtok_all_append _ '&' cs token hand hne hfree⟩
  obtain ⟨Y, hY⟩ := htok
  unfold process_query
  have e1 : (p ++ '?' :: (query_run good ++ (token ++ more))).take p.length = p :=
    List.take_left _ _
  have e2 : (p ++ '?' :: (query_run good ++ (token ++ more))).drop (p.length + 1) =
      query_run good ++ (token ++ more) := by
    have : p ++ '?' :: (query_run good ++ (token ++ more)) =
        (p ++ ['?']) ++ (query_run good ++ (token ++ more)) := by simp
    rw [this]
    have hl : (p ++ ['?']).length = p.length + 1 := by simp
    rw [← hl]
    exact List.drop_left _ _
  simp only [strchr_append p _ '?' hp, e1, e2]
  rw [strtok_all_query_run_append _ good
    (fun kv hkv => ⟨fun c hc => ((h kv hkv).1.2 c hc).2, (h kv hkv).2⟩), hY]
  rw [process_query_loop_append _ good _ 0
    (fun kv hkv => ⟨fun hc => ((h kv hkv).1.2 _ hc).1 rfl, (h kv hkv).1.1⟩)]
  rw [process_query_loop_invalid_key token Y _ _ hkey]
  simp

/-- For a request line whose query string is a run of pairs `k=v&` with valid
keys followed by a token whose key (the text before its `=`, or the whole token
when it has none) is empty or white space only, `process_query` returns -1 and so
does `parse_first_line`: the pairs before that token have been added to
`body.params`, and `n_params` is as before. -/
theorem parse_first_line_of_invalid_key (req : request_t) (M p rest : List Char) (a b : Char)
    (good : List (CStr × CStr)) (token more : CStr)
    (hM : M ≠ []) (hMu : ∀ c ∈ M, upperAZ c = true)
    (hp : ∀ c ∈ p, c ≠ ' ' ∧ c ≠ '?')
    (h : ∀ kv ∈ good,
      (is_valid_key kv.1 = true ∧ ∀ c ∈ kv.1, c ≠ '=' ∧ c ≠ '&' ∧ c ≠ ' ') ∧
      ∀ c ∈ kv.2, c ≠ '&' ∧ c ≠ ' ')
    (hne : token ≠ []) (htok : ∀ c ∈ token, c ≠ '&' ∧ c ≠ ' ')
    (hmore : ∀ c, more.head? = some c → c = '&') (hmores : ∀ c ∈ more, c ≠ ' ')
    (hkey : is_valid_key (token.takeWhile (fun c => !(c == '='))) = false)
    (ha : digit09 a = true) (hb : digit01 b = true) :
    process_query
        { req with method := some M,
                   path := some (p ++ '?' :: (query_run good ++ (token ++ more))),
                   version := some [a, '.', b] }
        (p ++ '?' :: (query_run good ++ (token ++ more))) =
      some (-1, { req with
        method := some M, path := some p, version := some [a, '.', b],
        body := { req.body with params := (good.map node_of).reverse ++ req.body.params } }) ∧
    parse_first_line req
        (M ++ [' '] ++ (p ++ '?' :: (query_run good ++ (token ++ more))) ++ str " HTTP/"
          ++ [a, '.', b] ++ rest) =
      some (-1, { req with
        method := some M, path := some p, version := some [a, '.', b],
        body := { req.body with params := (good.map node_of).reverse ++ req.body.params } }) := by
  have hq : ∀ c ∈ query_run good, c ≠ ' ' := by
    intro c hc
    simp only [query_run, List.mem_flatMap, List.mem_append, List.mem_cons,
      List.mem_singleton, List.mem_nil_iff, or_false, or_assoc] at hc
    obtain ⟨kv, hkv, hc⟩ := hc
    rcases hc with hc | hc | hc | hc
    · exact ((h kv hkv).1.2 c hc).2.2
    · subst hc; decide
    · exact ((h kv hkv).2 c hc).2
    · subst hc; decide
  have hPs : ∀ c ∈ p ++ '?' :: (query_run good ++ (token ++ more)), c ≠ ' ' := by
    intro c hc
    simp only [List.mem_append, List.mem_cons] at hc
    rcases hc with hc | hc | hc | hc | hc
    · exact (hp c hc).1
    · subst hc; decide
    · exact hq c hc
    · exact (htok c hc).2
    · exact hmores c hc
  have hpq := process_query_of_invalid_key
    { req with method := some M,
               path := some (p ++ '?' :: (query_run good ++ (token ++ more))),
               version := some [a, '.', b] }
    p good token more (fun hc => (hp _ hc).2 rfl)
    (fun kv hkv => ⟨⟨(h kv hkv).1.1,
      fun c hc => ⟨((h kv hkv).1.2 c hc).1, ((h kv hkv).1.2 c hc).2.1⟩⟩,
      fun c hc => ((h kv hkv).2 c hc).1⟩)
    hne (fun c hc => (htok c hc).1) hmore hkey
  refine ⟨hpq, ?_⟩
  rw [parse_first_line_eq_process_query req M _ rest a '.' b hM hMu (by simp) hPs ha hb, hpq]
  simp

/-- C18 fails on the code when a token without `=` comes before the pair with
the bad key: for `GET /a?x&=1 HTTP/1.1` the loop of `process_query` calls `free`
on the string literal `""` after storing `x`, which is undefined behaviour, so
neither `process_query` nor `parse_first_line` returns failure. On the lines
`GET /a?=1 HTTP/1.1`, `GET /a?k=v&=1 HTTP/1.1` and the line whose key is a single
tab, `parse_first_line` returns -1. -/
theorem parse_first_line_invalid_key_after_bare_key :
    parse_first_line init_request (str "GET /a?x&=1 HTTP/1.1") = none ∧
    process_query init_request (str "/a?x&=1") = none ∧
    parse_first_line init_request (str "GET /a?=1 HTTP/1.1") =
      some (-1, { init_request with method := some (str "GET"), path := some (str "/a"),
                                    version := some (str "1.1") }) ∧
    parse_first_line init_request (str "GET /a?k=v&=1 HTTP/1.1") =
      some (-1, { init_request with
        method := some (str "GET"), path := some (str "/a"), version := some (str "1.1"),
        body := { data := none, params := [{ key := str "k", value := str "v" }],
                  n_params := 0 } }) ∧
    parse_first_line init_request (str "GET /a?\t=1 HTTP/1.1") =
      some (-1, { init_request with method := some (str "GET"), path := some (str "/a"),
                                    version := some (str "1.1") }) := by
  decide

/-! ### What validation leaves in place -/

theorem validate_response_of_success (res res1 : response_t)
    (hok : validate_response res = (0, res1)) :
    res1.version = some (match res.version with
                         | some v => v
                         | none => str "1.1") ∧
    res1.status_code = some (match res.status_code with
                             | some s => s
                             | none => str "200") ∧
    res1.body = res.body ∧
    (res1.headers = res.headers ∨
      ∃ v, res1.headers = { key := str "Content-Length", value := v } :: res.headers) := by
  unfold validate_response at hok
  cases hh : res.headers with
  | nil => simp [hh] at hok
  | cons n ns =>
    cases hv : res.version <;> cases hs : res.status_code <;>
      cases hct : get_header (n :: ns) (str "Content-Type") <;>
      cases hcl : get_header (n :: ns) (str "Content-Length") <;>
      simp [hh, hv, hs, hct, hcl, add_header, insert_node] at hok <;>
      subst hok <;> simp [hh, hv, hs]

/-- C25: when `validate_response` succeeds, the version afterwards is the one set
before the call, or `1.1` if none was set; the status code is the one set before
the call, or `200` if none was set; the body is unchanged; and the header list is
the one before the call, either as it was or with one `Content-Length` node put
in front of it, so every header present before the call is still there,
unchanged. -/
theorem validate_response_defaults (res res1 : response_t)
    (hok : validate_response res = (0, res1)) :
    res1.version = some (match res.version with
                         | some v => v
                         | none => str "1.1") ∧
    res1.status_code = some (match res.status_code with
                             | some s => s
                             | none => str "200") ∧
    res1.body = res.body ∧
    (res1.headers = res.headers ∨
      ∃ v, res1.headers = { key := str "Content-Length", value := v } :: res.headers) :=
  validate_response_of_success res res1 hok

/-- C25, at a response with only a `Content-Type` header and a body. -/
theorem validate_response_defaults_witness :
    (validate_response (handler_response (str "text/plain") (str "hello"))).2.version =
      some (match (handler_response (str "text/plain") (str "hello")).version with
            | some v => v
            | none => str "1.1") ∧
    (validate_response (handler_response (str "text/plain") (str "hello"))).2.body =
      (handler_response (str "text/plain") (str "hello")).body :=
  ⟨(validate_response_defaults (handler_response (str "text/plain") (str "hello"))
      (validate_response (handler_response (str "text/plain") (str "hello"))).2
      (by decide)).1,
   (validate_response_defaults (handler_response (str "text/plain") (str "hello"))
      (validate_response (handler_response (str "text/plain") (str "hello"))).2
      (by decide)).2.2.1⟩

/-! ### Status codes outside the table -/

theorem status_message_of_not_mem (code : CStr) (h : code ∉ status_codes) :
    status_message code = str "Unknown" := by
  simp only [status_codes, List.mem_cons, List.mem_singleton, List.mem_nil_iff, or_false,
    not_or] at h
  obtain ⟨h1, h2, h3, h4, h5, h6, h7, h8, h9, h10, h11, h12, h13, h14, h15, h16, h17, h18,
    h19⟩ := h
  simp [status_message, h1, h2, h3, h4, h5, h6, h7, h8, h9, h10, h11, h12, h13, h14, h15,
    h16, h17, h18, h19]

theorem validate_response_rc (res : response_t) :
    (validate_response res).1 = 0 ∨ (validate_response res).1 = -1 := by
  unfold validate_response
  cases hh : res.headers with
  | nil => simp
  | cons n ns =>
    cases hv : res.version <;> cases hs : res.status_code <;>
      cases hct : get_header (n :: ns) (str "Content-Type") <;>
      cases hcl : get_header (n :: ns) (str "Content-Length") <;>
      simp [hh, hv, hs, hct, hcl]

/-- With the two `"Unknown"` literals at one address, `serialize` returns `NULL`
for every response whose status code is outside the table; `get_status_message`
returns `"Unknown"` for it in any case. -/
theorem serialize_unknown_status_merged (res : response_t) (code : CStr)
    (hs : res.status_code = some code) (h : code ∉ status_codes) :
    get_status_message res = some (str "Unknown") ∧
    ∃ r, serialize true res = some (none, r) := by
  have hmsg := status_message_of_not_mem code h
  refine ⟨by simp [get_status_message, hs, hmsg], ?_⟩
  unfold serialize
  cases hval : validate_response res with
  | mk rc res1 =>
    simp only
    have hrc := validate_response_rc res
    rw [hval] at hrc
    simp only at hrc
    rcases hrc with e | e
    · subst e
      obtain ⟨hv, hs1, _, _⟩ := validate_response_of_success res res1 hval
      rw [hs] at hs1
      simp only at hs1
      refine ⟨res1, ?_⟩
      simp [get_status_message, hs1, hv, hmsg]
    · subst e
      exact ⟨res1, by simp⟩

/-- C26 fails on the code when the `"Unknown"` literal of server.c and the one of
process_response.c have different addresses: for the status code `999`
`get_status_message` returns `"Unknown"`, but the address comparison in
`serialize` is false and `serialize` returns a status line with the reason phrase
`Unknown`; with the literals at one address it returns `NULL`. -/
theorem serialize_unknown_status_by_address :
    str "999" ∉ status_codes ∧
    get_status_message unknown_status_response = some (str "Unknown") ∧
    (serialize false unknown_status_response).map (fun r => r.1) =
      some (some (str "HTTP/1.1 999 Unknown\r\nContent-Length: 1\r\nContent-Type: text/plain\r\n\r\nx")) ∧
    (serialize true unknown_status_response).map (fun r => r.1) = some none := by
  decide

/-! ### The body stage under `application/json` and under the form type -/

theorem json_ne_urlencoded : str "application/json" ≠ str "application/x-www-form-urlencoded" := by
  decide

/-- Under `application/json`, `parse_body` is `process_json` followed, when it
succeeded, by `set_body`. -/
theorem parse_body_json_eq (req : request_t) (node : node_t) (buffer : List Char) (size : Nat)
    (hct : search_node req.headers (str "Content-Type") = some node)
    (hv : node.value = str "application/json") :
    parse_body req buffer size =
      (process_json req buffer size).bind (fun r =>
        if r.1 < 0 then some (-1, r.2)
        else if buffer.length < size then none
        else some (0, { r.2 with body := { r.2.body with data := some (buffer.take size) } })) := by
  unfold parse_body
  simp only [hct, hv, if_pos, json_ne_urlencoded, if_false]
  cases hj : process_json req buffer size with
  | none => rfl
  | some r =>
    obtain ⟨rc, req1⟩ := r
    by_cases hrc : rc < 0
    · simp [hrc]
    · by_cases hlen : buffer.length < size
      · simp [hrc, set_body, hlen]
      · simp [hrc, set_body, hlen]

/-- Under `application/x-www-form-urlencoded`, `parse_body` is
`process_urlencoded` followed, when it succeeded, by `set_body`. -/
theorem parse_body_urlencoded_eq (req : request_t) (node : node_t) (buffer : List Char)
    (size : Nat)
    (hct : search_node req.headers (str "Content-Type") = some node)
    (hv : node.value = str "application/x-www-form-urlencoded") :
    parse_body req buffer size =
      (process_urlencoded req buffer size).bind (fun r =>
        if r.1 < 0 then some (-1, r.2)
        else if buffer.length < size then none
        else some (0, { r.2 with body := { r.2.body with data := some (buffer.take size) } })) := by
  unfold parse_body
  simp only [hct, hv, json_ne_urlencoded.symm, if_false, if_pos]
  cases hj : process_urlencoded req buffer size with
  | none => simp
  | some r =>
    obtain ⟨rc, req1⟩ := r
    by_cases hrc : rc < 0
    · simp [hrc]
    · by_cases hlen : buffer.length < size
      · simp [hrc, set_body, hlen]
      · simp [hrc, set_body, hlen]

theorem process_json_loop_of_braces :
    ∀ (tokens : List CStr) (params : List node_t) (n : Nat),
      (∀ t ∈ tokens, starts_with_brace t = true) →
      process_json_loop tokens params n = (0, params, n) := by
  intro tokens
  induction tokens with
  | nil => intro params n _; rfl
  | cons t ts ih =>
    intro params n h
    have ht : starts_with_brace t = true := h t (List.mem_cons_self t ts)
    unfold starts_with_brace at ht
    unfold process_json_loop
    rw [if_pos ht]
    exact ih params n (fun x hx => h x (List.mem_cons_of_mem t hx))

/-- C22: under `Content-Type: application/json`, when the buffer holds a
terminated string all of whose lines begin with an opening or closing brace, and
holds `size` bytes, `parse_body` succeeds, stores the first `size` bytes unchanged
in `body.data`, leaves `body.params` as it was and sets `n_params` to 0. -/
theorem parse_body_json_brace_lines (req : request_t) (node : node_t) (buffer : List Char)
    (size : Nat)
    (hct : search_node req.headers (str "Content-Type") = some node)
    (hv : node.value = str "application/json")
    (hnul : buffer.contains NUL = true)
    (hlines : ∀ t ∈ strtok_all (cstr buffer) (str "\r\n"), starts_with_brace t = true)
    (hsize : size ≤ buffer.length) :
    parse_body req buffer size =
      some (0, { req with body := { data := some (buffer.take size),
                                    params := req.body.params, n_params := 0 } }) := by
  have hlen : ¬ buffer.length < size := by omega
  rw [parse_body_json_eq req node buffer size hct hv]
  unfold process_json
  rw [process_json_loop_of_braces _ _ _ hlines]
  have hmem : NUL ∈ buffer := by simpa using hnul
  simp [hnul, hlen, hmem]

/-- C22, at the two-byte body of an opening and a closing brace. -/
theorem parse_body_json_brace_lines_witness :
    parse_body json_request (str "\x7b\x7d" ++ [NUL]) 2 =
      some (0, { json_request with body := { data := some ((str "\x7b\x7d" ++ [NUL]).take 2),
                                             params := json_request.body.params,
                                             n_params := 0 } }) :=
  parse_body_json_brace_lines json_request
    { key := str "Content-Type", value := str "application/json" } (str "\x7b\x7d" ++ [NUL]) 2
    (by decide) (by decide) (by decide) (by decide) (by decide)

/-! ### A body that its parser rejects -/

theorem process_json_keeps_data (req r : request_t) (buffer : List Char) (size : Nat) (rc : Int)
    (h : process_json req buffer size = some (rc, r)) : r.body.data = req.body.data := by
  unfold process_json at h
  split at h
  · simp at h
  · split at h
    split at h
    · simp only [Option.some.injEq, Prod.mk.injEq] at h
      rw [← h.2]
    · simp only [Option.some.injEq, Prod.mk.injEq] at h
      rw [← h.2]

theorem process_urlencoded_keeps_data (req r : request_t) (buffer : List Char) (size : Nat)
    (rc : Int) (h : process_urlencoded req buffer size = some (rc, r)) :
    r.body.data = req.body.data := by
  unfold process_urlencoded at h
  split at h
  · simp at h
  · split at h
    split at h
    · simp only [Option.some.injEq, Prod.mk.injEq] at h
      rw [← h.2]
    · simp only [Option.some.injEq, Prod.mk.injEq] at h
      rw [← h.2]

/-- C24 (as amended): when the JSON parser or the urlencoded parser of the
request's content type fails, `parse_body` returns -1 with the request as that
parser left it, and `set_body` is not reached: `body.data` is what it was before
the call, not the bytes of this body. -/
theorem parse_body_failure_leaves_data (req r : request_t) (node : node_t) (buffer : List Char)
    (size : Nat) (rc : Int)
    (hct : search_node req.headers (str "Content-Type") = some node)
    (hfail : (node.value = str "application/json" ∧
                process_json req buffer size = some (rc, r)) ∨
             (node.value = str "application/x-www-form-urlencoded" ∧
                process_urlencoded req buffer size = some (rc, r)))
    (hrc : rc < 0) :
    parse_body req buffer size = some (-1, r) ∧ r.body.data = req.body.data := by
  rcases hfail with ⟨hv, hp⟩ | ⟨hv, hp⟩
  · refine ⟨?_, process_json_keeps_data req r buffer size rc hp⟩
    rw [parse_body_json_eq req node buffer size hct hv, hp]
    simp [hrc]
  · refine ⟨?_, process_urlencoded_keeps_data req r buffer size rc hp⟩
    rw [parse_body_urlencoded_eq req node buffer size hct hv, hp]
    simp [hrc]

/-- C24, at a request that already holds the data `old`, with a JSON body whose
first line is the pair `a`, `b` and whose second line is `oops`: the failure is
reported, the pair of the first line stays in the params and `body.data` is
still `old`. -/
theorem parse_body_failure_leaves_data_witness :
    parse_body { json_request with body := { json_request.body with data := some (str "old") } }
        (json_bad_second_line ++ [NUL]) json_bad_second_line.length =
      some (-1, { json_request with
        body := { data := some (str "old"), params := [{ key := str "a", value := str "b" }],
                  n_params := 0 } }) ∧
    ({ json_request with
        body := { data := some (str "old"), params := [{ key := str "a", value := str "b" }],
                  n_params := 0 } } : request_t).body.data =
      ({ json_request with body := { json_request.body with data := some (str "old") } } :
        request_t).body.data :=
  parse_body_failure_leaves_data
    { json_request with body := { json_request.body with data := some (str "old") } }
    { json_request with
        body := { data := some (str "old"), params := [{ key := str "a", value := str "b" }],
                  n_params := 0 } }
    { key := str "Content-Type", value := str "application/json" }
    (json_bad_second_line ++ [NUL]) json_bad_second_line.length (-1)
    (by decide) (Or.inl ⟨by decide, by decide⟩) (by decide)

/-- C24 as stated fails: for the JSON body `oops` and for the form body `oops`,
each of four bytes on a fresh request, `parse_body` returns -1 and `body.data` is
`NULL` afterwards, so the payload cannot be read from the request. -/
theorem parse_body_failure_drops_raw_body :
    (parse_body json_request (str "oops" ++ [NUL]) 4).map (fun r => (r.1, r.2.body.data)) =
      some (-1, none) ∧
    (parse_body form_request (str "oops" ++ [NUL]) 4).map (fun r => (r.1, r.2.body.data)) =
      some (-1, none) := by
  decide

/-! ### The lines of a JSON body -/

theorem strtok_all_skip_delims (delim : CStr) (rest : CStr) :
    ∀ (sep : CStr), (∀ x ∈ sep, x ∈ delim) →
      strtok_all (sep ++ rest) delim = strtok_all rest delim := by
  intro sep
  induction sep with
  | nil => intro _; rfl
  | cons x xs ih =>
    intro h
    rw [List.cons_append, strtok_all_cons_delim delim x _ (h x (List.mem_cons_self x xs))]
    exact ih (fun y hy => h y (List.mem_cons_of_mem x hy))

theorem strtok_all_sep_join (delim sep : CStr) (hne : sep ≠ []) (hsep : ∀ x ∈ sep, x ∈ delim) :
    ∀ (ts : List CStr), (∀ t ∈ ts, t ≠ [] ∧ ∀ x ∈ t, x ∉ delim) →
      strtok_all (sep_join sep ts) delim = ts := by
  intro ts
  induction ts with
  | nil => intro _; rfl
  | cons t ts ih =>
    intro h
    obtain ⟨ht, htf⟩ := h t (List.mem_cons_self t ts)
    cases ts with
    | nil => exact strtok_all_of_free delim t ht htf
    | cons t2 rest =>
      cases sep with
      | nil => exact absurd rfl hne
      | cons c sep2 =>
        have hc : c ∈ delim := hsep c (List.mem_cons_self c sep2)
        have e : sep_join (c :: sep2) (t :: t2 :: rest) =
            t ++ c :: (sep2 ++ sep_join (c :: sep2) (t2 :: rest)) := by
          simp [sep_join]
        rw [e, strtok_all_append delim c _ t hc ht htf,
          strtok_all_skip_delims delim _ sep2
            (fun x hx => hsep x (List.mem_cons_of_mem c hx)),
          ih (fun x hx => h x (List.mem_cons_of_mem t hx))]

theorem regexec_skip (p : Char → Bool) (rest : List Atom) (s : List Char) (so : Nat)
    (l : List Nat) (h : regexec (Atom.one p :: rest) s = some (so, l)) :
    ∀ (pre : List Char), (∀ x ∈ pre, p x = false) →
      regexec (Atom.one p :: rest) (pre ++ s) = some (so + pre.length, l) := by
  intro pre
  induction pre with
  | nil => intro _; simpa using h
  | cons c cs ih =>
    intro hpre
    have hc : p c = false := hpre c (List.mem_cons_self c cs)
    have e : regexec (Atom.one p :: rest) (c :: (cs ++ s)) =
        (regexec (Atom.one p :: rest) (cs ++ s)).map (fun r => (r.1 + 1, r.2)) := by
      simp [regexec, matchLens, hc, pickLongest]
    rw [List.cons_append, e, ih (fun x hx => hpre x (List.mem_cons_of_mem c hx))]
    simp [Nat.add_assoc]

theorem lit_dquote_of_notChar (x : Char) (h : notChar dquote x = true) : lit dquote x = false := by
  unfold notChar at h
  unfold lit
  simpa using h

theorem matchLens_json_pair (k v trailer : List Char) (hk : k ≠ [])
    (hkq : ∀ x ∈ k, notChar dquote x = true) (hv : v ≠ [])
    (hvq : ∀ x ∈ v, notChar dquote x = true) :
    matchLens json_pattern
        (dquote :: (k ++ (dquote :: ':' :: ' ' :: dquote :: (v ++ (dquote :: trailer))))) =
      [[1, k.length, 1, 1, 1, 1, v.length, 1]] := by
  unfold json_pattern
  rw [matchLens_one_cons, lit_self, if_pos rfl,
    matchLens_plus_one (notChar dquote) (lit dquote) _ k dquote _ hk hkq
      (fun x hx => lit_dquote_of_notChar x (hkq x hx)) (notChar_self dquote) (lit_self dquote),
    matchLens_one_cons, lit_self, if_pos rfl, matchLens_one_cons, lit_self, if_pos rfl,
    matchLens_one_cons, lit_self, if_pos rfl,
    matchLens_plus_one (notChar dquote) (lit dquote) _ v dquote _ hv hvq
      (fun x hx => lit_dquote_of_notChar x (hvq x hx)) (notChar_self dquote) (lit_self dquote)]
  simp [matchLens]

theorem regexec_json_pair (indent k v trailer : List Char)
    (hi : ∀ x ∈ indent, notChar dquote x = true) (hk : k ≠ [])
    (hkq : ∀ x ∈ k, notChar dquote x = true) (hv : v ≠ [])
    (hvq : ∀ x ∈ v, notChar dquote x = true) :
    regexec json_pattern (json_line.text (json_line.pair indent k v trailer)) =
      some (indent.length, [1, k.length, 1, 1, 1, 1, v.length, 1]) := by
  have h0 := regexec_of_pickLongest json_pattern _ _
    (by rw [matchLens_json_pair k v trailer hk hkq hv hvq]; exact pickLongest_singleton _)
  have h1 := regexec_skip (lit dquote) _ _ 0 _ h0 indent
    (fun x hx => lit_dquote_of_notChar x (hi x hx))
  simpa [json_line.text] using h1

theorem submatch_json_pair (indent k v trailer : List Char) :
    submatch (json_line.text (json_line.pair indent k v trailer)) indent.length
        [1, k.length, 1, 1, 1, 1, v.length, 1] 1 2 = k ∧
    submatch (json_line.text (json_line.pair indent k v trailer)) indent.length
        [1, k.length, 1, 1, 1, 1, v.length, 1] 6 7 = v := by
  constructor
  · have := submatch_eq (indent ++ [dquote]) k
      (dquote :: ':' :: ' ' :: dquote :: (v ++ (dquote :: trailer))) indent.length
      [1, k.length, 1, 1, 1, 1, v.length, 1] 1 2 (by simp) (by simp)
    simpa [json_line.text, List.append_assoc] using this
  · have := submatch_eq (indent ++ dquote :: (k ++ [dquote, ':', ' ', dquote])) v
      (dquote :: trailer) indent.length
      [1, k.length, 1, 1, 1, 1, v.length, 1] 6 7 (by simp; omega) (by simp)
    simpa [json_line.text, List.append_assoc] using this

theorem json_line_wf_skipped (t : CStr) (h : json_line.wf (json_line.skipped t) = true) :
    starts_with_brace t = true ∧ ∀ x ∈ t, line_char x = true := by
  simpa [json_line.wf] using h

theorem json_line_wf_pair (indent k v trailer : CStr)
    (h : json_line.wf (json_line.pair indent k v trailer) = true) :
    starts_with_brace (json_line.text (json_line.pair indent k v trailer)) = false ∧
    (∀ x ∈ indent, notChar dquote x = true) ∧ k ≠ [] ∧ (∀ x ∈ k, notChar dquote x = true) ∧
    v ≠ [] ∧ (∀ x ∈ v, notChar dquote x = true) ∧
    ∀ x ∈ json_line.text (json_line.pair indent k v trailer), line_char x = true := by
  simp only [json_line.wf, Bool.and_eq_true, Bool.not_eq_true', List.all_eq_true,
    List.isEmpty_eq_false] at h
  obtain ⟨⟨⟨⟨⟨⟨h1, h2⟩, h3⟩, h4⟩, h5⟩, h6⟩, h7⟩ := h
  exact ⟨h1, h2, h3, h4, h5, h6, h7⟩

theorem json_line_text_ne_nil (l : json_line) (h : l.wf = true) : l.text ≠ [] := by
  cases l with
  | skipped t =>
    obtain ⟨hb, _⟩ := json_line_wf_skipped t h
    intro e
    simp only [json_line.text] at e
    subst e
    exact absurd hb (by decide)
  | pair indent k v trailer => simp [json_line.text]

theorem json_line_text_chars (l : json_line) (h : l.wf = true) :
    ∀ x ∈ l.text, line_char x = true := by
  cases l with
  | skipped t => exact (json_line_wf_skipped t h).2
  | pair indent k v trailer => exact (json_line_wf_pair indent k v trailer h).2.2.2.2.2.2

theorem not_delim_of_line_char (x : Char) (h : line_char x = true) : x ∉ str "\r\n" := by
  intro hd
  have e : x = '\r' ∨ x = '\n' := by simpa [str] using hd
  rcases e with e | e <;> subst e <;> exact absurd h (by decide)

theorem ne_NUL_of_line_char (x : Char) (h : line_char x = true) : x ≠ NUL := by
  intro e
  subst e
  exact absurd h (by decide)

theorem process_json_loop_lines :
    ∀ (lines : List json_line) (params : List node_t) (n : Nat),
      (∀ l ∈ lines, l.wf = true) →
      process_json_loop (lines.map json_line.text) params n =
        (0, (lines.flatMap json_line.params).reverse ++ params,
          n + (lines.flatMap json_line.params).length) := by
  intro lines
  induction lines with
  | nil => intro params n _; simp [process_json_loop]
  | cons l ls ih =>
    intro params n h
    have hl := h l (List.mem_cons_self l ls)
    have hls : ∀ x ∈ ls, x.wf = true := fun x hx => h x (List.mem_cons_of_mem l hx)
    cases l with
    | skipped t =>
      obtain ⟨hb, _⟩ := json_line_wf_skipped t hl
      unfold starts_with_brace at hb
      simp only [List.map_cons, json_line.text]
      unfold process_json_loop
      rw [if_pos hb, ih params n hls]
      simp [json_line.params]
    | pair indent k v trailer =>
      obtain ⟨hb, hi, hk, hkq, hv, hvq, _⟩ := json_line_wf_pair indent k v trailer hl
      have hb2 : ¬ ((decide ((json_line.text (json_line.pair indent k v trailer)).head? =
            some (Char.ofNat 123)) ||
          decide ((json_line.text (json_line.pair indent k v trailer)).head? =
            some (Char.ofNat 125))) = true) := by
        unfold starts_with_brace at hb
        rw [hb]
        decide
      obtain ⟨s1, s2⟩ := submatch_json_pair indent k v trailer
      simp only [List.map_cons]
      unfold process_json_loop
      rw [if_neg hb2]
      simp only [regexec_json_pair indent k v trailer hi hk hkq hv hvq, s1, s2]
      rw [ih _ _ hls]
      simp [json_line.params, add_param, insert_node]
      omega

theorem mem_sep_join (sep : CStr) (x : Char) :
    ∀ (ts : List CStr), x ∈ sep_join sep ts → x ∈ sep ∨ ∃ t ∈ ts, x ∈ t := by
  intro ts
  induction ts with
  | nil => intro h; simp [sep_join] at h
  | cons t ts ih =>
    intro h
    cases ts with
    | nil =>
      simp only [sep_join] at h
      exact Or.inr ⟨t, List.mem_cons_self _ _, h⟩
    | cons t2 rest =>
      simp only [sep_join, List.mem_append] at h
      rcases h with (h | h) | h
      · exact Or.inr ⟨t, List.mem_cons_self _ _, h⟩
      · exact Or.inl h
      · rcases ih h with h2 | ⟨u, hu, hx⟩
        · exact Or.inl h2
        · exact Or.inr ⟨u, List.mem_cons_of_mem _ hu, hx⟩

theorem cstr_append_NUL (rest : List Char) :
    ∀ (body : List Char), (∀ x ∈ body, x ≠ NUL) → cstr (body ++ NUL :: rest) = body := by
  intro body
  induction body with
  | nil => intro _; simp [cstr]
  | cons c cs ih =>
    intro h
    have hc : c ≠ NUL := h c (List.mem_cons_self c cs)
    have hcs := ih (fun x hx => h x (List.mem_cons_of_mem c hx))
    have hb : (!(c == NUL)) = true := by simpa using hc
    unfold cstr at hcs ⊢
    rw [List.cons_append, List.takeWhile_cons, hb, if_pos rfl, hcs]

/-- C21 (as amended): under `Content-Type: application/json`, for a body made of
lines separated by line breaks, where each line either begins with a brace (it is
skipped whole) or does not begin with a brace and reads `indent "k": "v" trailer`
with no quote in the indent and with `k` and `v` non-empty and free of quotes,
`parse_body` succeeds, stores the body, adds exactly the pairs `k`, `v` of the
lines of the second kind to `body.params`, later lines nearer the head, and sets
`n_params` to their number. -/
theorem parse_body_json_lines (req : request_t) (node : node_t) (lines : List json_line)
    (sep rest : CStr)
    (hct : search_node req.headers (str "Content-Type") = some node)
    (hv : node.value = str "application/json")
    (hwf : ∀ l ∈ lines, l.wf = true)
    (hsep : sep ≠ []) (hsepc : ∀ x ∈ sep, x ∈ str "\r\n") :
    parse_body req (sep_join sep (lines.map json_line.text) ++ NUL :: rest)
        (sep_join sep (lines.map json_line.text)).length =
      some (0, { req with body :=
        { data := some (sep_join sep (lines.map json_line.text)),
          params := (lines.flatMap json_line.params).reverse ++ req.body.params,
          n_params := (lines.flatMap json_line.params).length } }) := by
  have hnul : ∀ x ∈ sep_join sep (lines.map json_line.text), x ≠ NUL := by
    intro x hx
    rcases mem_sep_join sep x _ hx with h | ⟨t, ht, hxt⟩
    · intro e
      subst e
      exact absurd (hsepc _ h) (by decide)
    · obtain ⟨l, hl, rfl⟩ := List.mem_map.mp ht
      exact ne_NUL_of_line_char x (json_line_text_chars l (hwf l hl) x hxt)
  have htok : strtok_all (sep_join sep (lines.map json_line.text)) (str "\r\n") =
      lines.map json_line.text := by
    apply strtok_all_sep_join _ _ hsep hsepc
    intro t ht
    obtain ⟨l, hl, rfl⟩ := List.mem_map.mp ht
    exact ⟨json_line_text_ne_nil l (hwf l hl),
      fun x hx => not_delim_of_line_char x (json_line_text_chars l (hwf l hl) x hx)⟩
  rw [parse_body_json_eq req node _ _ hct hv]
  unfold process_json
  rw [cstr_append_NUL rest _ hnul, htok, process_json_loop_lines lines _ 0 hwf]
  simp

/-- C21, at the object with the pair `a`, `b` written on three lines. -/
theorem parse_body_json_lines_witness :
    parse_body json_request
        (sep_join (str "\n") (json_object_lines.map json_line.text) ++ NUL :: [])
        (sep_join (str "\n") (json_object_lines.map json_line.text)).length =
      some (0, { json_request with body :=
        { data := some (sep_join (str "\n") (json_object_lines.map json_line.text)),
          params := (json_object_lines.flatMap json_line.params).reverse ++
            json_request.body.params,
          n_params := (json_object_lines.flatMap json_line.params).length } }) :=
  parse_body_json_lines json_request
    { key := str "Content-Type", value := str "application/json" } json_object_lines
    (str "\n") [] (by decide) (by decide) (by decide) (by decide) (by decide)

/-- C21 as stated fails: the one-line body with the pair `a`, `b` between braces
begins with a brace and is skipped whole, so no param is added; and in a body
whose first line is `[` the pair `a`, `b` of the second line is not added either,
because the first line fails the stage. -/
theorem process_json_skips_one_line_object :
    parse_body json_request (json_one_line ++ [NUL]) json_one_line.length =
      some (0, { json_request with
        body := { data := some json_one_line, params := [], n_params := 0 } }) ∧
    (parse_body json_request (json_array_lines ++ [NUL]) json_array_lines.length).map
        (fun r => (r.1, r.2.body.params)) = some (-1, []) := by
  decide

/-! ### The tokens of a form body -/

theorem classRun_le_length (p : Char → Bool) : ∀ s : List Char, classRun p s ≤ s.length := by
  intro s
  induction s with
  | nil => simp [classRun]
  | cons c cs ih =>
    by_cases hc : p c = true
    · simp only [classRun, hc, if_true, List.length_cons]
      omega
    · simp [classRun, hc]

theorem matchLens_sum_le :
    ∀ (pattern : List Atom) (s : List Char) (l : List Nat),
      l ∈ matchLens pattern s → l.sum ≤ s.length := by
  intro pattern
  induction pattern with
  | nil =>
    intro s l h
    simp only [matchLens, List.mem_singleton] at h
    subst h
    simp
  | cons a R ih =>
    intro s l h
    cases a with
    | one p =>
      obtain ⟨c, cs, l2, hs, _, hl, hl2⟩ := mem_matchLens_one p R s l h
      subst hs
      subst hl
      have := ih cs l2 hl2
      simp only [List.sum_cons, List.length_cons]
      omega
    | plus p =>
      obtain ⟨n, l2, hl, _, hn, hl2⟩ := mem_matchLens_plus p R s l h
      subst hl
      have h1 := ih (s.drop n) l2 hl2
      have h2 := classRun_le_length p s
      simp only [List.length_drop] at h1
      simp only [List.sum_cons]
      omega

theorem flatMap_downFrom_skip (f : Nat → List (List Nat)) (b : Nat) :
    ∀ a : Nat, (∀ n, b < n → n ≤ b + a → f n = []) →
      (downFrom (b + a)).flatMap f = (downFrom b).flatMap f := by
  intro a
  induction a with
  | zero => intro _; rfl
  | succ a ih =>
    intro h
    have e : b + (a + 1) = (b + a) + 1 := by omega
    rw [e]
    simp only [downFrom, List.flatMap_cons, h (b + a + 1) (by omega) (by omega), List.nil_append]
    exact ih (fun n h1 h2 => h n h1 (by omega))

/-- For a token `K=V` with a non-empty `K` free of colons and a non-empty `V` free
of `=`, the first candidate of the urlencoded pattern takes `K` whole. -/
theorem matchLens_urlencoded_token (K V : List Char) (hK : K ≠ []) (hKc : ∀ c ∈ K, c ≠ ':')
    (hV : V ≠ []) (hVe : ∀ c ∈ V, c ≠ '=') :
    ∃ tail, matchLens urlencoded_pattern (K ++ '=' :: V) = [K.length, 1, V.length] :: tail := by
  unfold urlencoded_pattern
  rw [matchLens_plus,
    classRun_append (notChar ':') K (fun x hx => notChar_eq_true_of_ne ':' x (hKc x hx))]
  rw [flatMap_downFrom_skip _ K.length (classRun (notChar ':') ('=' :: V))]
  · cases hlen : K.length with
    | zero => exact absurd (List.length_eq_zero.mp hlen) hK
    | succ k =>
      have hdrop : (K ++ '=' :: V).drop (k + 1) = '=' :: V := by
        rw [← hlen]; exact List.drop_left _ _
      simp only [downFrom, List.flatMap_cons]
      rw [hdrop, matchLens_one_cons, lit_self, if_pos rfl, matchLens_plus_any_last]
      cases hvlen : V.length with
      | zero => exact absurd (List.length_eq_zero.mp hvlen) hV
      | succ j =>
        simp only [downFrom, List.map_cons, List.cons_append]
        exact ⟨_, rfl⟩
  · intro n h1 h2
    obtain ⟨m, rfl⟩ : ∃ m, n = K.length + 1 + m := ⟨n - K.length - 1, by omega⟩
    have hd : (K ++ '=' :: V).drop (K.length + 1 + m) = V.drop m := by
      rw [List.drop_append_eq_append_drop, List.drop_eq_nil_of_le (by omega), List.nil_append]
      have e : K.length + 1 + m - K.length = m + 1 := by omega
      rw [e, List.drop_succ_cons]
    rw [hd]
    cases hs : V.drop m with
    | nil => simp [matchLens_one_nil]
    | cons c cs =>
      have hc : c ∈ V := List.mem_of_mem_drop (hs ▸ List.mem_cons_self c cs)
      rw [matchLens_one_cons, lit_eq_false_of_ne '=' c (hVe c hc)]
      simp

theorem regexec_urlencoded_token (K V : List Char) (hK : K ≠ []) (hKc : ∀ c ∈ K, c ≠ ':')
    (hV : V ≠ []) (hVe : ∀ c ∈ V, c ≠ '=') :
    regexec urlencoded_pattern (K ++ '=' :: V) = some (0, [K.length, 1, V.length]) := by
  obtain ⟨tail, ht⟩ := matchLens_urlencoded_token K V hK hKc hV hVe
  apply regexec_of_pickLongest
  rw [ht]
  apply pickLongest_head
  intro x hx
  have hmem : x ∈ matchLens urlencoded_pattern (K ++ '=' :: V) := by
    rw [ht]; exact List.mem_cons_of_mem _ hx
  have := matchLens_sum_le _ _ _ hmem
  simp only [List.length_append, List.length_cons] at this
  simp only [List.sum_cons, List.sum_nil]
  omega

theorem submatch_urlencoded_token (K V : List Char) :
    submatch (K ++ '=' :: V) 0 [K.length, 1, V.length] 0 1 = K ∧
    submatch (K ++ '=' :: V) 0 [K.length, 1, V.length] 2 3 = V := by
  constructor
  · have := submatch_eq [] K ('=' :: V) 0 [K.length, 1, V.length] 0 1 (by simp) (by simp)
    simpa [List.append_assoc] using this
  · have := submatch_eq (K ++ ['=']) V [] 0 [K.length, 1, V.length] 2 3 (by simp) (by simp)
    simpa [List.append_assoc] using this

theorem process_urlencoded_loop_pairs :
    ∀ (kvs : List (CStr × CStr)) (params : List node_t) (n : Nat),
      (∀ kv ∈ kvs, kv.1 ≠ [] ∧ (∀ c ∈ kv.1, c ≠ ':') ∧ kv.2 ≠ [] ∧ (∀ c ∈ kv.2, c ≠ '=')) →
      process_urlencoded_loop (kvs.map (fun kv => kv.1 ++ '=' :: kv.2)) params n =
        (0, (kvs.map node_of).reverse ++ params, n + kvs.length) := by
  intro kvs
  induction kvs with
  | nil => intro params n _; simp [process_urlencoded_loop]
  | cons kv kvs ih =>
    intro params n h
    obtain ⟨hk, hkc, hv, hve⟩ := h kv (List.mem_cons_self kv kvs)
    obtain ⟨s1, s2⟩ := submatch_urlencoded_token kv.1 kv.2
    simp only [List.map_cons, process_urlencoded_loop,
      regexec_urlencoded_token kv.1 kv.2 hk hkc hv hve, s1, s2]
    rw [ih _ _ (fun x hx => h x (List.mem_cons_of_mem kv hx))]
    simp [add_param, insert_node, node_of]
    omega

/-- What `process_urlencoded` does with `=`: for a form body of tokens `K=V`
joined by `&`, where each `K` is non-empty and free of colons and each `V` is
non-empty and free of `=` (so that `K` is the text before the last `=` of the
token and may itself hold `=`), `parse_body` succeeds and stores the key `K` and
the value `V` of each token, later tokens nearer the head. -/
theorem parse_body_urlencoded_pairs (req : request_t) (node : node_t)
    (kvs : List (CStr × CStr)) (rest : CStr)
    (hct : search_node req.headers (str "Content-Type") = some node)
    (hv : node.value = str "application/x-www-form-urlencoded")
    (h : ∀ kv ∈ kvs, (kv.1 ≠ [] ∧ ∀ c ∈ kv.1, c ≠ ':' ∧ c ≠ '&' ∧ c ≠ NUL) ∧
      (kv.2 ≠ [] ∧ ∀ c ∈ kv.2, c ≠ '=' ∧ c ≠ '&' ∧ c ≠ NUL)) :
    parse_body req
        (sep_join (str "&") (kvs.map (fun kv => kv.1 ++ '=' :: kv.2)) ++ NUL :: rest)
        (sep_join (str "&") (kvs.map (fun kv => kv.1 ++ '=' :: kv.2))).length =
      some (0, { req with body :=
        { data := some (sep_join (str "&") (kvs.map (fun kv => kv.1 ++ '=' :: kv.2))),
          params := (kvs.map node_of).reverse ++ req.body.params,
          n_params := kvs.length } }) := by
  have hmem : ∀ x : Char, x ∈ str "&" → x = '&' := by
    intro x hx
    simpa [str] using hx
  have hchars : ∀ t ∈ kvs.map (fun kv => kv.1 ++ '=' :: kv.2),
      t ≠ [] ∧ ∀ x ∈ t, x ≠ '&' ∧ x ≠ NUL := by
    intro t ht
    obtain ⟨kv, hkv, rfl⟩ := List.mem_map.mp ht
    refine ⟨by simp, fun x hx => ?_⟩
    simp only [List.mem_append, List.mem_cons] at hx
    rcases hx with hx | hx | hx
    · exact ⟨((h kv hkv).1.2 x hx).2.1, ((h kv hkv).1.2 x hx).2.2⟩
    · subst hx
      exact ⟨by decide, by decide⟩
    · exact ⟨((h kv hkv).2.2 x hx).2.1, ((h kv hkv).2.2 x hx).2.2⟩
  have hnul : ∀ x ∈ sep_join (str "&") (kvs.map (fun kv => kv.1 ++ '=' :: kv.2)), x ≠ NUL := by
    intro x hx
    rcases mem_sep_join _ x _ hx with h1 | ⟨t, ht, hxt⟩
    · rw [hmem x h1]
      decide
    · exact ((hchars t ht).2 x hxt).2
  have htok : strtok_all (sep_join (str "&") (kvs.map (fun kv => kv.1 ++ '=' :: kv.2)))
      (str "&") = kvs.map (fun kv => kv.1 ++ '=' :: kv.2) := by
    apply strtok_all_sep_join _ _ (by decide) (fun x hx => hx)
    intro t ht
    exact ⟨(hchars t ht).1, fun x hx hd => ((hchars t ht).2 x hx).1 (hmem x hd)⟩
  rw [parse_body_urlencoded_eq req node _ _ hct hv]
  unfold process_urlencoded
  rw [cstr_append_NUL rest _ hnul, htok, process_urlencoded_loop_pairs kvs _ 0
    (fun kv hkv => ⟨(h kv hkv).1.1, fun c hc => ((h kv hkv).1.2 c hc).1, (h kv hkv).2.1,
      fun c hc => ((h kv hkv).2.2 c hc).1⟩)]
  simp

/-- C23 fails on the code: for the form body `a=b=c` the stored key is `a=b` and
the stored value is `c`; the token is split at its last `=`, not at its first, so
the value `b=c` is not preserved. `process_query` splits the same token of a
query string at the first `=`. -/
theorem process_urlencoded_splits_at_last_equals :
    parse_body form_request (str "a=b=c" ++ [NUL]) 5 =
      some (0, { form_request with
        body := { data := some (str "a=b=c"),
                  params := [{ key := str "a=b", value := str "c" }], n_params := 1 } }) ∧
    (parse_first_line init_request (str "GET /p?a=b=c HTTP/1.1\r\n")).map
        (fun r => r.2.body.params) = some [{ key := str "a", value := str "b=c" }] := by
  decide

/-! ### Error replies of the driver -/

theorem send_error_eq (merged : Bool) (client : client_t) (status_code message : CStr) :
    send_error merged client status_code message =
      match serialize merged (error_response status_code message) with
      | none => none
      | some (none, res1) => some { client with res := res1 }
      | some (some response, res1) =>
        some { client with res := res1, out := client.out ++ [response] } := by
  have e : ({ add_body_res (add_status_code_res init_response status_code) message with
        headers := add_header
          (add_body_res (add_status_code_res init_response status_code) message).headers
          (str "Content-Type") (str "text/plain") } : response_t) =
      error_response status_code message := rfl
  simp only [send_error, send_response, e]
  cases serialize merged (error_response status_code message) with
  | none => rfl
  | some r =>
    obtain ⟨b, r1⟩ := r
    cases b <;> rfl

theorem send_error_of_bytes (merged : Bool) (client : client_t) (status_code message bytes : CStr)
    (h : (serialize merged (error_response status_code message)).map (fun r => r.1) =
      some (some bytes)) :
    ∃ res1, send_error merged client status_code message =
      some { req := client.req, res := res1, out := client.out ++ [bytes] } := by
  rw [send_error_eq]
  cases hs : serialize merged (error_response status_code message) with
  | none => rw [hs] at h; simp at h
  | some r =>
    obtain ⟨b, r1⟩ := r
    rw [hs] at h
    simp only [Option.map_some', Option.some.injEq] at h
    subst h
    exact ⟨r1, rfl⟩

theorem send_error_bad_request (merged : Bool) (client : client_t) :
    ∃ res1, send_error merged client (str "400") (str "Bad Request") =
      some { req := client.req, res := res1, out := client.out ++ [bad_request_bytes] } := by
  apply send_error_of_bytes
  cases merged <;> decide

theorem handle_request_step_eq (merged : Bool) (rt : Routes callback) (c : conn_t)
    (buffer : List Char) :
    handle_request_step merged rt c buffer =
      (step_receive merged c buffer).bind (from_first_line merged rt) := rfl

theorem cstr_memwrite_NUL (request : List Char) : cstr (memwrite request 0 [NUL]) = [] := by
  simp [memwrite, cstr, List.takeWhile]

theorem step_reset_of_reset (c : conn_t) (h : c.state = STATE_RESET) :
    step_reset c = after_reset c c.client.out := by
  simp [step_reset, h, after_reset]

theorem from_elaborate_of_reset (merged : Bool) (rt : Routes callback) (c : conn_t)
    (h : c.state = STATE_RESET) : from_elaborate merged rt c = some (after_reset c c.client.out) := by
  have h3 : c.state ≠ STATE_ELABORATE_RESPONSE := by rw [h]; decide
  simp [from_elaborate, step_elaborate, h3, step_reset_of_reset c h]

theorem from_body_of_reset (merged : Bool) (rt : Routes callback) (c : conn_t)
    (h : c.state = STATE_RESET) : from_body merged rt c = some (after_reset c c.client.out) := by
  have h2 : c.state ≠ STATE_BODY := by rw [h]; decide
  simp [from_body, step_body, h2, from_elaborate_of_reset merged rt c h]

theorem from_headers_of_reset (merged : Bool) (rt : Routes callback) (c : conn_t)
    (h : c.state = STATE_RESET) : from_headers merged rt c = some (after_reset c c.client.out) := by
  have h1 : c.state ≠ STATE_HEADERS := by rw [h]; decide
  simp [from_headers, step_headers, h1, from_body_of_reset merged rt c h]

theorem after_reset_fields (c : conn_t) (out : List CStr) :
    (after_reset c out).state = STATE_FIRST_LINE ∧ cstr (after_reset c out).request = [] ∧
    (after_reset c out).client.req = init_request ∧
    (after_reset c out).client.res = init_response ∧ (after_reset c out).client.out = out :=
  ⟨rfl, cstr_memwrite_NUL c.request, rfl, rfl, rfl⟩

theorem step_first_line_of_fail (merged : Bool) (c : conn_t) (h : line_stage_fails c = true) :
    ∃ c2, step_first_line merged c = some c2 ∧ c2.state = STATE_RESET ∧
      c2.client.out = c.client.out ++ [bad_request_bytes] := by
  unfold line_stage_fails at h
  simp only [Bool.and_eq_true, decide_eq_true_eq] at h
  obtain ⟨hs, h2⟩ := h
  cases he : strstr (cstr c.request) (str "\r\n") with
  | none => rw [he] at h2; simp at h2
  | some e =>
    rw [he] at h2
    simp only at h2
    cases hp : parse_first_line c.client.req ((cstr c.request).take (e + 2)) with
    | none => rw [hp] at h2; simp at h2
    | some r =>
      obtain ⟨rc, req1⟩ := r
      rw [hp] at h2
      simp only [decide_eq_true_eq] at h2
      obtain ⟨res1, hsend⟩ := send_error_bad_request merged { c.client with req := req1 }
      simp [step_first_line, hs, he, handle_line, hp, h2, hsend]

theorem step_headers_of_fail (merged : Bool) (c : conn_t) (h : headers_stage_fails c = true) :
    ∃ c3, step_headers merged c = some c3 ∧ c3.state = STATE_RESET ∧
      c3.client.out = c.client.out ++ [bad_request_bytes] := by
  unfold headers_stage_fails at h
  simp only [Bool.and_eq_true, decide_eq_true_eq] at h
  obtain ⟨hs, h2⟩ := h
  cases he : strstr (cstr c.request) (str "\r\n\r\n") with
  | none => rw [he] at h2; simp at h2
  | some e =>
    rw [he] at h2
    simp only [decide_eq_true_eq] at h2
    obtain ⟨res1, hsend⟩ := send_error_bad_request merged
      { c.client with req := (parse_headers c.client.req ((cstr c.request).take (e + 4))).2 }
    simp [step_headers, hs, he, handle_headers, h2, hsend]

theorem step_body_of_fail (merged : Bool) (c : conn_t) (h : body_stage_fails c = true) :
    ∃ c4, step_body merged c = some c4 ∧ c4.state = STATE_RESET ∧
      c4.client.out = c.client.out ++ [bad_request_bytes] := by
  unfold body_stage_fails at h
  simp only [Bool.and_eq_true, decide_eq_true_eq] at h
  obtain ⟨hs, h2⟩ := h
  cases hh : get_header c.client.req.headers (str "Content-Length") with
  | none => rw [hh] at h2; simp at h2
  | some v =>
    rw [hh] at h2
    simp only at h2
    by_cases hgt : strtoul v < strlen c.request
    · obtain ⟨res1, hsend⟩ := send_error_bad_request merged c.client
      have hne : strlen c.request ≠ strtoul v := by omega
      simp [step_body, hs, hh, hne, hgt, hsend]
    · rw [if_neg hgt] at h2
      by_cases heq : strlen c.request = strtoul v ∧ strtoul v ≤ MAX_SIZE
      · rw [if_pos heq] at h2
        have hmax : ¬ MAX_SIZE < strtoul v := by omega
        cases hp : parse_body c.client.req (c.request ++ [NUL]) (strtoul v) with
        | none => rw [hp] at h2; simp at h2
        | some r =>
          obtain ⟨rc, req1⟩ := r
          rw [hp] at h2
          simp only [decide_eq_true_eq] at h2
          obtain ⟨res1, hsend⟩ := send_error_bad_request merged { c.client with req := req1 }
          simp [step_body, hs, hh, heq.1, handle_body, hmax, hp, h2, hsend]
      · rw [if_neg heq] at h2
        simp at h2

theorem step_receive_client (merged : Bool) (c c1 : conn_t) (buffer : List Char)
    (h : step_receive merged c buffer = some c1) (hs : c1.state ≠ STATE_RESET) :
    c1.client = c.client := by
  unfold step_receive at h
  simp only at h
  split at h
  · split at h
    · simp at h
    · simp only [Option.some.injEq] at h
      subst h
      exact absurd rfl hs
  · split at h
    · simp at h
    · split at h
      · simp at h
      · simp only [Option.some.injEq] at h
        subst h
        rfl

theorem handle_line_out (merged : Bool) (client client1 : client_t) (request request1 : List Char)
    (rc : Int) (h : handle_line merged client request = some (rc, client1, request1))
    (hrc : ¬ rc < 0) : client1.out = client.out := by
  unfold handle_line at h
  cases he : strstr (cstr request) (str "\r\n") with
  | none => simp [he] at h
  | some e =>
    cases hp : parse_first_line client.req ((cstr request).take (e + 2)) with
    | none => simp [he, hp] at h
    | some r =>
      obtain ⟨rc0, req1⟩ := r
      by_cases h0 : rc0 < 0
      · cases hsend : send_error merged { client with req := req1 } (str "400")
            (str "Bad Request") with
        | none => simp [he, hp, h0, hsend] at h
        | some cl =>
          simp [he, hp, h0, hsend] at h
          exact absurd (h.1 ▸ (by decide : (-1 : Int) < 0)) hrc
      · simp [he, hp, h0] at h
        rw [← h.2.1]

theorem handle_headers_out (merged : Bool) (client client1 : client_t) (request : List Char)
    (rc : Int) (h : handle_headers merged client request = some (rc, client1))
    (hrc : ¬ rc < 0) : client1.out = client.out := by
  unfold handle_headers at h
  cases he : strstr (cstr request) (str "\r\n\r\n") with
  | none => simp [he] at h
  | some e =>
    by_cases h0 : (parse_headers client.req ((cstr request).take (e + 4))).1 < 0
    · cases hsend : send_error merged
          { client with req := (parse_headers client.req ((cstr request).take (e + 4))).2 }
          (str "400") (str "Bad Request") with
      | none => simp [he, h0, hsend] at h
      | some cl =>
        simp [he, h0, hsend] at h
        exact absurd (h.1 ▸ (by decide : (-1 : Int) < 0)) hrc
    · simp [he, h0] at h
      rw [← h.2]

theorem step_first_line_out (merged : Bool) (c c2 : conn_t)
    (h : step_first_line merged c = some c2) (hs : c2.state ≠ STATE_RESET) :
    c2.client.out = c.client.out := by
  unfold step_first_line at h
  split at h
  · split at h
    · cases hl : handle_line merged c.client c.request with
      | none => simp [hl] at h
      | some r =>
        obtain ⟨rc, client1, request1⟩ := r
        simp only [hl, Option.some.injEq] at h
        subst h
        by_cases hrc : rc < 0
        · simp [hrc] at hs
        · exact handle_line_out merged c.client client1 c.request request1 rc hl hrc
    · simp only [Option.some.injEq] at h
      subst h
      rfl
  · simp only [Option.some.injEq] at h
    subst h
    rfl

theorem step_headers_out (merged : Bool) (c c3 : conn_t)
    (h : step_headers merged c = some c3) (hs : c3.state ≠ STATE_RESET) :
    c3.client.out = c.client.out := by
  unfold step_headers at h
  split at h
  · cases he : strstr (cstr c.request) (str "\r\n\r\n") with
    | none =>
      simp only [he, Option.some.injEq] at h
      subst h
      rfl
    | some e =>
      cases hl : handle_headers merged c.client c.request with
      | none => simp [he, hl] at h
      | some r =>
        obtain ⟨rc, client1⟩ := r
        simp only [he, hl, Option.some.injEq] at h
        subst h
        by_cases hrc : rc < 0
        · simp [hrc] at hs
        · exact handle_headers_out merged c.client client1 c.request rc hl hrc
  · simp only [Option.some.injEq] at h
    subst h
    rfl

theorem step_first_line_state (merged : Bool) (c c2 : conn_t)
    (h : step_first_line merged c = some c2) (hs : c2.state ≠ STATE_RESET) :
    c.state ≠ STATE_RESET := by
  intro hc
  have h0 : c.state ≠ STATE_FIRST_LINE := by rw [hc]; decide
  simp only [step_first_line, h0, if_false, Option.some.injEq] at h
  subst h
  exact hs hc

theorem step_headers_state (merged : Bool) (c c3 : conn_t)
    (h : step_headers merged c = some c3) (hs : c3.state ≠ STATE_RESET) :
    c.state ≠ STATE_RESET := by
  intro hc
  have h0 : c.state ≠ STATE_HEADERS := by rw [hc]; decide
  simp only [step_headers, h0, if_false, Option.some.injEq] at h
  subst h
  exact hs hc

theorem line_stage_fails_state (c : conn_t) (h : line_stage_fails c = true) :
    c.state = STATE_FIRST_LINE := by
  unfold line_stage_fails at h
  simp only [Bool.and_eq_true, decide_eq_true_eq] at h
  exact h.1

theorem headers_stage_fails_state (c : conn_t) (h : headers_stage_fails c = true) :
    c.state = STATE_HEADERS := by
  unfold headers_stage_fails at h
  simp only [Bool.and_eq_true, decide_eq_true_eq] at h
  exact h.1

theorem body_stage_fails_state (c : conn_t) (h : body_stage_fails c = true) :
    c.state = STATE_BODY := by
  unfold body_stage_fails at h
  simp only [Bool.and_eq_true, decide_eq_true_eq] at h
  exact h.1

/-- What holds of C27: when, in a step of the loop, the line stage, the headers
stage or the body stage fails (the body stage also by holding more bytes than
declared), the step ends with exactly one more byte string sent than before, the
400 response `HTTP/1.1 400 Bad Request`, in state `STATE_FIRST_LINE`, with a
terminator at the start of the request buffer and a fresh request and response;
the state reached does not depend on the route table, so no handler has run, and
the loop goes on to the next `recv`. Nothing is said here of the bytes behind
the terminator or of the byte counter. -/
theorem stage_failure_sends_bad_request (merged : Bool) (c c1 : conn_t) (buffer : List Char)
    (hrecv : step_receive merged c buffer = some c1)
    (hfail : line_stage_fails c1 = true ∨
      ∃ c2, step_first_line merged c1 = some c2 ∧
        (headers_stage_fails c2 = true ∨
          ∃ c3, step_headers merged c2 = some c3 ∧ body_stage_fails c3 = true)) :
    ∃ c5, (∀ rt, handle_request_step merged rt c buffer = some c5) ∧
      c5.state = STATE_FIRST_LINE ∧ cstr c5.request = [] ∧
      c5.client.req = init_request ∧ c5.client.res = init_response ∧
      c5.client.out = c.client.out ++ [bad_request_bytes] := by
  rcases hfail with hl | ⟨c2, h2, hh | ⟨c3, h3, hb⟩⟩
  · obtain ⟨cr, hstep, hst, hout⟩ := step_first_line_of_fail merged c1 hl
    have hc1 : c1.state ≠ STATE_RESET := by rw [line_stage_fails_state c1 hl]; decide
    have hcl := step_receive_client merged c c1 buffer hrecv hc1
    refine ⟨after_reset cr cr.client.out, fun rt => ?_, ?_⟩
    · rw [handle_request_step_eq, hrecv]
      simp only [Option.bind, from_first_line, hstep]
      exact from_headers_of_reset merged rt cr hst
    · obtain ⟨a1, a2, a3, a4, a5⟩ := after_reset_fields cr cr.client.out
      exact ⟨a1, a2, a3, a4, by rw [a5, hout, hcl]⟩
  · obtain ⟨cr, hstep, hst, hout⟩ := step_headers_of_fail merged c2 hh
    have hc2 : c2.state ≠ STATE_RESET := by rw [headers_stage_fails_state c2 hh]; decide
    have hc1 := step_first_line_state merged c1 c2 h2 hc2
    have hcl := step_receive_client merged c c1 buffer hrecv hc1
    have ho2 := step_first_line_out merged c1 c2 h2 hc2
    refine ⟨after_reset cr cr.client.out, fun rt => ?_, ?_⟩
    · rw [handle_request_step_eq, hrecv]
      simp only [Option.bind, from_first_line, h2, from_headers, hstep]
      exact from_body_of_reset merged rt cr hst
    · obtain ⟨a1, a2, a3, a4, a5⟩ := after_reset_fields cr cr.client.out
      exact ⟨a1, a2, a3, a4, by rw [a5, hout, ho2, hcl]⟩
  · obtain ⟨cr, hstep, hst, hout⟩ := step_body_of_fail merged c3 hb
    have hc3 : c3.state ≠ STATE_RESET := by rw [body_stage_fails_state c3 hb]; decide
    have hc2 := step_headers_state merged c2 c3 h3 hc3
    have hc1 := step_first_line_state merged c1 c2 h2 hc2
    have hcl := step_receive_client merged c c1 buffer hrecv hc1
    have ho2 := step_first_line_out merged c1 c2 h2 hc2
    have ho3 := step_headers_out merged c2 c3 h3 hc3
    refine ⟨after_reset cr cr.client.out, fun rt => ?_, ?_⟩
    · rw [handle_request_step_eq, hrecv]
      simp only [Option.bind, from_first_line, h2, from_headers, h3, from_body, hstep]
      exact from_elaborate_of_reset merged rt cr hst
    · obtain ⟨a1, a2, a3, a4, a5⟩ := after_reset_fields cr cr.client.out
      exact ⟨a1, a2, a3, a4, by rw [a5, hout, ho3, ho2, hcl]⟩

/-- A fresh connection that receives the line `bad`, as an instance. -/
theorem stage_failure_sends_bad_request_witness :
    ∃ c5, (∀ rt, handle_request_step false rt (conn_init fresh_client) (str "bad\r\n") = some c5) ∧
      c5.state = STATE_FIRST_LINE ∧ cstr c5.request = [] ∧
      c5.client.req = init_request ∧ c5.client.res = init_response ∧
      c5.client.out = (conn_init fresh_client).client.out ++ [bad_request_bytes] :=
  stage_failure_sends_bad_request false (conn_init fresh_client)
    { state := STATE_FIRST_LINE, total_received := 5, request := str "bad\r\n" ++ [NUL],
      client := fresh_client }
    (str "bad\r\n") (by decide) (Or.inl (by decide))

/-! ### Dispatch -/

/-- In `STATE_BODY` with a declared `Content-Length` above `MAX_SIZE` and a
request string of at most `MAX_SIZE` bytes (all that the buffer can hold), the
body block does nothing: `handle_body`, which holds the 413 reply, is not
called. -/
theorem step_body_waits_above_max (merged : Bool) (c : conn_t) (h : CStr)
    (hs : c.state = STATE_BODY)
    (hh : get_header c.client.req.headers (str "Content-Length") = some h)
    (hbig : MAX_SIZE < strtoul h) (hlen : strlen c.request ≤ MAX_SIZE) :
    step_body merged c = some c := by
  have hne : strlen c.request ≠ strtoul h := by omega
  have hng : ¬ strtoul h < strlen c.request := by omega
  simp [step_body, hs, hh, hne, hng]

/-- C30 fails on the code: a request head that declares `Content-Length: 2000000`
gets no reply at all (no 413), the connection waits in `STATE_BODY` for the body,
and a complete valid request sent next on the connection is taken for body bytes
and gets no reply either; on a fresh connection the same valid request is
answered by its handler. -/
theorem oversize_content_length_gets_no_reply :
    replies false get_routes [oversize_head] = some [] ∧
    replies false get_routes [oversize_head, get_request] = some [] ∧
    (handle_request_loop false get_routes (conn_init fresh_client)
        [oversize_head, get_request]).map (fun c => c.state) = some STATE_BODY ∧
    replies false get_routes [get_request] =
      some [str "HTTP/1.1 200 OK\r\nContent-Length: 11\r\nContent-Type: text/html\r\n\r\n<h1>Hi</h1>"] := by
  decide!

/-! ### The byte counter across exchanges -/

theorem step_reset_total_received (c : conn_t) :
    (step_reset c).total_received = c.total_received := by
  unfold step_reset
  split <;> rfl

/-! ### Receiving on a closed or failed socket -/

/-- C33 fails on the code for a negative return value of `recv`: -1 is stored in
the `size_t` variable `received` as 2^64 - 1, the test `> 0` holds, and the loop
body runs and starts with the store `buffer[received] = 0`, far outside the
buffer (undefined behaviour), instead of ending the loop. For the return value 0
the loop ends, nothing runs or is sent, and `remove_client` closes the socket and
unlinks the entry. -/
theorem recv_error_enters_loop_body (merged : Bool) (rt : Routes callback) (c : conn_t)
    (clients : List entry_t) (client_fd : Int) (rest : List recv_t) :
    handle_request_recv merged rt c recv_t.error = none ∧
    handle_request merged rt clients client_fd c (recv_t.error :: rest) = none ∧
    handle_request_recv merged rt c recv_t.closed = some none ∧
    handle_request merged rt clients client_fd c (recv_t.closed :: rest) =
      some (c, remove_client clients client_fd) := by
  have h1 : handle_request_recv merged rt c recv_t.error = none := by
    unfold handle_request_recv
    have e : ((recv_t.ret recv_t.error) % 2 ^ 64).toNat = 18446744073709551615 := by decide
    simp only [e]
    rfl
  have h2 : handle_request_recv merged rt c recv_t.closed = some none := by
    unfold handle_request_recv
    have e : ((recv_t.ret recv_t.closed) % 2 ^ 64).toNat = 0 := by decide
    simp only [e]
    rfl
  refine ⟨h1, ?_, h2, ?_⟩
  · simp [handle_request, h1]
  · simp [handle_request, h2]

theorem remove_client_closes (clients : List entry_t) (e : entry_t) (h : e ∈ clients) :
    (remove_client clients e.client_fd).1 = [e.client_fd] := by
  induction clients with
  | nil => simp at h
  | cons x xs ih =>
    by_cases hx : x.client_fd = e.client_fd
    · simp [remove_client, hx]
    · have hm : e ∈ xs := by
        rcases List.mem_cons.mp h with h1 | h1
        · exact absurd (h1 ▸ rfl) hx
        · exact h1
      simp [remove_client, hx, ih hm]

/-! ### Teardown of the client list -/

theorem free_clients_loop_closed (head : entry_t) :
    ∀ (l : List entry_t) (f : Bool) (closed : List Int) (cancelled : List Nat)
      (r : List Int × List Nat),
      free_clients_loop head l f closed cancelled = some r →
      (∀ fd ∈ closed, fd = head.client_fd) → ∀ fd ∈ r.1, fd = head.client_fd := by
  intro l
  induction l with
  | nil =>
    intro f closed cancelled r h hc
    simp only [free_clients_loop, Option.some.injEq] at h
    subst h
    exact hc
  | cons x xs ih =>
    intro f closed cancelled r h hc
    unfold free_clients_loop at h
    split at h
    · simp at h
    · refine ih _ _ _ r h ?_
      intro fd hfd
      rcases List.mem_append.mp hfd with h1 | h1
      · exact hc fd h1
      · simpa using h1

/-- Whatever the list, `free_clients` passes no descriptor to `close` but that of
the first entry, and with two or more entries it reads the first entry after
having freed it. -/
theorem free_clients_closes_only_head (head : entry_t) (rest : List entry_t) :
    (∀ r, free_clients (head :: rest) = some r → ∀ fd ∈ r.1, fd = head.client_fd) ∧
    (rest ≠ [] → free_clients (head :: rest) = none) ∧
    (rest = [] → free_clients (head :: rest) =
      some ([head.client_fd], (if head.thread_id ≠ 0 then [head.thread_id] else []), [])) := by
  refine ⟨fun r h => ?_, fun hne => ?_, fun he => ?_⟩
  · unfold free_clients at h
    simp only [Option.map_eq_some'] at h
    obtain ⟨r0, h0, rfl⟩ := h
    exact free_clients_loop_closed head _ _ _ _ r0 h0 (by simp)
  · cases rest with
    | nil => exact absurd rfl hne
    | cons x xs => simp [free_clients, free_clients_loop]
  · subst he
    by_cases ht : head.thread_id = 0 <;> simp [free_clients, free_clients_loop, ht]

/-- C35 fails on the code: for a list of two connections with the sockets 4 and
5, `free_clients` closes socket 4 in the first iteration and frees that entry,
and in the second iteration it passes `clients->client_fd`, read from the freed
first entry, to `close` (undefined behaviour); socket 5 is not passed to `close`
at all. For a list of a single connection the socket is closed once and the list
is emptied. -/
theorem free_clients_reads_freed_head :
    free_clients [{ client_fd := 4, thread_id := 1 }, { client_fd := 5, thread_id := 2 }] = none ∧
    free_clients_loop { client_fd := 4, thread_id := 1 } [{ client_fd := 5, thread_id := 2 }]
      true [4] [1] = none ∧
    free_clients [{ client_fd := 4, thread_id := 1 }] = some ([4], [1], []) := by
  decide

/-! ### Evaluations of the driver -/

theorem first_exchange_leaves_idle_conn :
    handle_request_step false get_routes (conn_init fresh_client) get_request =
      some (idle_conn 19 [hi_bytes]) := by
  decide!

theorem replies_after_error_reset :
    replies false post_routes [post_request] = some [hi_bytes] ∧
    replies false post_routes [long_bad_line, post_request] =
      some [bad_request_bytes, bad_request_bytes] ∧
    replies false post_routes [long_get_request, post_request] =
      some [not_found_bytes, bad_request_bytes] := by
  decide!

/-- C34 fails on the code: when the matched handler leaves a response without a
`Content-Type` header, or (with the two `Unknown` literals at one address) with
the status code `999`, the exchange ends with no byte sent and the loop goes on:
the state is `STATE_FIRST_LINE` again and the next request on the connection is
answered. -/
theorem unserializable_response_sends_nothing :
    (handle_request_loop false bare_routes (conn_init fresh_client) [get_request]).map
        (fun c => (c.state, c.client.out)) = some (STATE_FIRST_LINE, []) ∧
    replies false bare_routes [get_request, get_x_request] = some [not_found_bytes] ∧
    (handle_request_loop true odd_status_routes (conn_init fresh_client) [get_request]).map
        (fun c => (c.state, c.client.out)) = some (STATE_FIRST_LINE, []) := by
  decide!

/-- C36 fails on the code: after `post_head` has been received and its request
line and header block consumed, the request string is empty; the receive of the
single byte `x` then leaves a request string that is not `x` but `x` followed by
bytes of the consumed header block, which were still behind the terminator. On a
fresh connection the same receive gives the string `x`. -/
theorem receive_appends_stale_bytes :
    (handle_request_step false post_routes (conn_init fresh_client) post_head).map
        (fun c => (c.state, cstr c.request)) = some (STATE_BODY, []) ∧
    ((handle_request_step false post_routes (conn_init fresh_client) post_head).bind
        (fun c => step_receive false c (str "x"))).map (fun c => cstr c.request) =
      some (str "xontent-Type: text/plain\r\nContent-Length: 1\r\n\r\n") ∧
    (step_receive false (conn_init fresh_client) (str "x")).map (fun c => cstr c.request) =
      some (str "x") := by
  decide!

/-- C37 fails on the code: for the request line `POST /p?x=1 HTTP/1.1`, the
header `Content-Type: application/json` and the body with the pair `a`, `b`, all
three stages succeed and `body.params` holds the two entries `a` and `x`, but
`n_params` is 1: `process_json` stores its own count over the count of
`process_query`. -/
theorem n_params_counts_last_stage_only :
    (parse_all query_and_json_line json_header_block json_pair_body).map
        (fun r => (r.body.params, r.body.n_params)) =
      some ([{ key := str "a", value := str "b" }, { key := str "x", value := str "1" }], 1) := by
  decide!

/-- C38 fails on the code: the request `POST / HTTP/1.1` with the single header
`Content-Length: 0` brings the driver to `STATE_BODY` with a request that has no
`Content-Type` header; the buffer holds the zero declared bytes, `handle_body`
calls `parse_body`, and `parse_body` reads `->value` of the `NULL` that
`search_node` returns (undefined behaviour). -/
theorem body_stage_without_content_type :
    ((step_receive false (conn_init fresh_client) empty_body_request).bind
        (fun c1 => (step_first_line false c1).bind (step_headers false))).map
      (fun c => (c.state, search_node c.client.req.headers (str "Content-Type"),
        get_header c.client.req.headers (str "Content-Length"), strlen c.request)) =
      some (STATE_BODY, none, some (str "0"), 0) ∧
    handle_request_step false post_routes (conn_init fresh_client) empty_body_request = none ∧
    replies false post_routes [empty_body_request] = none := by
  decide!

/-- C39 fails on the code: the request `GET / HTTP/1.1` followed directly by the
empty line, received in one chunk on a fresh connection, sends nothing and leaves
the driver in `STATE_HEADERS`: once the request line and its line end are
consumed only one line end is left, and the header block is looked for as two
line ends in a row. A second such request on the connection is then answered
with a 400. -/
theorem request_without_headers_waits :
    (handle_request_step false get_routes (conn_init fresh_client) bare_get_request).map
        (fun c => (c.state, cstr c.request, c.client.out)) =
      some (STATE_HEADERS, str "\r\n", []) ∧
    replies false get_routes [bare_get_request] = some [] ∧
    replies false get_routes [bare_get_request, bare_get_request] = some [bad_request_bytes] ∧
    replies false get_routes [get_request] = some [hi_bytes] := by
  decide!

/-! ### Many exchanges on one connection -/

theorem exchange_receive (t : Nat) (o : List CStr) (h : t + 27 ≤ MAX_SIZE) :
    step_receive false (idle_conn t o) get_request =
      some { state := STATE_FIRST_LINE, total_received := t + 27,
             request := get_request ++ [NUL],
             client := { req := init_request, res := init_response, out := o } } := by
  have hl : get_request.length = 27 := by decide
  have hs : strlen idle_request = 0 := by decide
  have hm : memwrite idle_request 0 get_request = get_request ++ [NUL] := by decide
  have hs2 : strlen (get_request ++ [NUL]) = 27 := by decide
  have hm2 : memwrite (get_request ++ [NUL]) 27 [NUL] = get_request ++ [NUL] := by decide
  have hmod : (t + 27) % 2 ^ 64 = t + 27 := by
    unfold MAX_SIZE at h
    exact Nat.mod_eq_of_lt (by omega)
  have h1 : ¬ MAX_SIZE < t + 27 := by omega
  have h2 : ¬ MAX_SIZE + 1 < 0 + 27 := by decide
  have h3 : ¬ MAX_SIZE < 27 := by decide
  simp only [step_receive, idle_conn, hl, hs, hm, hs2, hm2, hmod, h1, h2, h3, if_false]

theorem exchange_first_line (T : Nat) (o : List CStr) :
    step_first_line false
        { state := STATE_FIRST_LINE, total_received := T, request := get_request ++ [NUL],
          client := { req := init_request, res := init_response, out := o } } =
      some { state := STATE_HEADERS, total_received := T, request := idle_request_headers,
             client := { req := get_request_line_fields, res := init_response, out := o } } := by
  have f1 : strstr (cstr (get_request ++ [NUL])) (str "\r\n") = some 14 := by decide
  have f2 : parse_first_line init_request ((cstr (get_request ++ [NUL])).take (14 + 2)) =
      some (0, get_request_line_fields) := by decide
  have f3 : memwrite (get_request ++ [NUL]) 0 ((cstr (get_request ++ [NUL])).drop (14 + 2) ++ [NUL]) =
      idle_request_headers := by decide
  have f4 : ¬ ((0 : Int) < 0) := by decide
  simp only [step_first_line, handle_line, f1, f2, f3, f4, if_true, if_false, Option.isSome_some]

theorem exchange_headers (T : Nat) (o : List CStr) (h8 : 8 ≤ T) (hT : T < 2 ^ 64) :
    step_headers false
        { state := STATE_HEADERS, total_received := T, request := idle_request_headers,
          client := { req := get_request_line_fields, res := init_response, out := o } } =
      some { state := STATE_ELABORATE_RESPONSE, total_received := T - 8, request := idle_request,
             client := { req := get_request_fields, res := init_response, out := o } } := by
  have f1 : strstr (cstr idle_request_headers) (str "\r\n\r\n") = some 7 := by decide
  have f2 : parse_headers get_request_line_fields ((cstr idle_request_headers).take (7 + 4)) =
      (0, get_request_fields) := by decide
  have f3 : memwrite idle_request_headers 0 ((cstr idle_request_headers).drop (7 + 4) ++ [NUL]) =
      idle_request := by decide
  have f4 : ¬ ((0 : Int) < 0) := by decide
  have f5 : get_header get_request_fields.headers (str "Content-Length") = none := by decide
  have f6 : strlen (idle_request.drop 7) = 4 := by decide
  have f7 : (T + 2 ^ 64 - (4 + 4) % 2 ^ 64) % 2 ^ 64 = T - 8 := by
    have e : (4 + 4) % 2 ^ 64 = 8 := by decide
    rw [e]
    have e2 : T + 2 ^ 64 - 8 = (T - 8) + 2 ^ 64 := by omega
    rw [e2, Nat.add_mod_right]
    exact Nat.mod_eq_of_lt (by omega)
  simp only [step_headers, handle_headers, f1, f2, f3, f4, f5, f6, f7, if_true, if_false,
    Option.isSome_none]
  rfl

theorem exchange_dispatch (T : Nat) (o : List CStr) :
    from_body false get_routes
        { state := STATE_ELABORATE_RESPONSE, total_received := T, request := idle_request,
          client := { req := get_request_fields, res := init_response, out := o } } =
      some (idle_conn T (o ++ [hi_bytes])) := by
  have f1 : get_route get_routes (str "GET") (str "/") = some hi_handler := rfl
  have f2 : serialize false (hi_handler get_request_fields init_response) =
      some (some hi_bytes, (validate_response (hi_handler get_request_fields init_response)).2) := by
    decide
  have f3 : memwrite idle_request 0 [NUL] = idle_request := by decide
  have f4 : ¬ ((0 : Int) < 0) := by decide
  have s1 : STATE_ELABORATE_RESPONSE ≠ STATE_BODY := by decide
  have e1 : get_request_fields.path = some (str "/") := rfl
  have e2 : get_request_fields.method = some (str "GET") := rfl
  simp only [from_body, step_body, s1, if_false, Option.some_bind, from_elaborate, step_elaborate,
    if_true, handle_response, e1, e2, f1, f4, send_response, f2, step_reset, f3, idle_conn]

/-- One more exchange of `get_request` on a connection that has only answered
such requests: the reply is sent and the byte counter has grown by 19. -/
theorem exchange_step (t : Nat) (o : List CStr) (h : t + 27 ≤ MAX_SIZE) :
    handle_request_step false get_routes (idle_conn t o) get_request =
      some (idle_conn (t + 19) (o ++ [hi_bytes])) := by
  have hT : t + 27 < 2 ^ 64 := by
    unfold MAX_SIZE at h
    omega
  rw [handle_request_step_eq, exchange_receive t o h, Option.some_bind, from_first_line,
    exchange_first_line, Option.some_bind, from_headers,
    exchange_headers (t + 27) o (by omega) hT, Option.some_bind, exchange_dispatch]
  have e : t + 27 - 8 = t + 19 := by omega
  rw [e]

theorem exchange_loop :
    ∀ (n : Nat) (t : Nat) (o : List CStr), t + 19 * n + 8 ≤ MAX_SIZE →
      handle_request_loop false get_routes (idle_conn t o) (List.replicate n get_request) =
        some (idle_conn (t + 19 * n) (o ++ List.replicate n hi_bytes)) := by
  intro n
  induction n with
  | zero => intro t o _; simp [handle_request_loop]
  | succ n ih =>
    intro t o h
    rw [List.replicate_succ, handle_request_loop, exchange_step t o (by omega)]
    simp only
    rw [ih (t + 19) (o ++ [hi_bytes]) (by omega)]
    have e : t + 19 + 19 * n = t + 19 * (n + 1) := by omega
    rw [e, List.append_assoc, List.singleton_append, ← List.replicate_succ]

/-- Once the byte counter has passed `MAX_SIZE`, the next chunk is answered with
the 413 of the cap whatever it holds, and the counter stays above `MAX_SIZE`. -/
theorem exchange_over_cap (t : Nat) (o : List CStr) (h : MAX_SIZE < t + 27)
    (hT : t + 27 < 2 ^ 64) :
    handle_request_step false get_routes (idle_conn t o) get_request =
      some (idle_conn (t + 27) (o ++ [too_large_bytes])) := by
  have hl : get_request.length = 27 := by decide
  have hmod : (t + 27) % 2 ^ 64 = t + 27 := Nat.mod_eq_of_lt hT
  have hs : send_error false { req := init_request, res := init_response, out := o } (str "413")
      (str "Request Entity Too Large") =
      some { req := init_request,
             res := (validate_response
               (error_response (str "413") (str "Request Entity Too Large"))).2,
             out := o ++ [too_large_bytes] } := by
    rw [send_error_eq]
    have f : serialize false (error_response (str "413") (str "Request Entity Too Large")) =
        some (some too_large_bytes,
          (validate_response (error_response (str "413") (str "Request Entity Too Large"))).2) := by
      decide
    rw [f]
  have f3 : memwrite idle_request 0 [NUL] = idle_request := by decide
  have e0 : step_receive false (idle_conn t o) get_request =
      some { state := STATE_RESET, total_received := t + 27, request := idle_request,
             client := { req := init_request,
                         res := (validate_response
                           (error_response (str "413") (str "Request Entity Too Large"))).2,
                         out := o ++ [too_large_bytes] } } := by
    simp only [step_receive, idle_conn, hl, hmod, h, if_true, hs]
  rw [handle_request_step_eq, e0, Option.some_bind, from_first_line]
  have s0 : STATE_RESET ≠ STATE_FIRST_LINE := by decide
  simp only [step_first_line, s0, if_false, Option.some_bind]
  rw [from_headers_of_reset _ _ _ rfl]
  simp only [after_reset, idle_conn, f3]

theorem handle_request_loop_append (merged : Bool) (rt : Routes callback) :
    ∀ (xs ys : List (List Char)) (c : conn_t),
      handle_request_loop merged rt c (xs ++ ys) =
        (handle_request_loop merged rt c xs).bind
          (fun c1 => handle_request_loop merged rt c1 ys) := by
  intro xs
  induction xs with
  | nil => intro ys c; rfl
  | cons x xs ih =>
    intro ys c
    simp only [List.cons_append, handle_request_loop]
    cases handle_request_step merged rt c x with
    | none => rfl
    | some c1 => exact ih ys c1

/-- After `n + 1` exchanges of `get_request` on a fresh connection, as long as
the byte counter stays within `MAX_SIZE`, every request has been answered and the
counter is at `19 * (n + 1)`. -/
theorem exchanges_from_fresh (n : Nat) (h : 19 * (n + 1) + 8 ≤ MAX_SIZE) :
    handle_request_loop false get_routes (conn_init fresh_client)
        (List.replicate (n + 1) get_request) =
      some (idle_conn (19 * (n + 1)) (List.replicate (n + 1) hi_bytes)) := by
  rw [List.replicate_succ, handle_request_loop, first_exchange_leaves_idle_conn]
  simp only
  rw [exchange_loop n 19 [hi_bytes] (by omega)]
  have e : 19 + 19 * n = 19 * (n + 1) := by omega
  rw [e, List.singleton_append, ← List.replicate_succ]

theorem exchanges_until_cap :
    handle_request_loop false get_routes (conn_init fresh_client)
        (List.replicate 55187 get_request) =
      some (idle_conn 1048553 (List.replicate 55187 hi_bytes)) :=
  exchanges_from_fresh 55186 (by decide)

theorem exchange_at_cap :
    handle_request_loop false get_routes (conn_init fresh_client)
        (List.replicate 55187 get_request ++ [get_request]) =
      some (idle_conn 1048580 (List.replicate 55187 hi_bytes ++ [too_large_bytes])) := by
  rw [handle_request_loop_append, exchanges_until_cap, Option.some_bind, handle_request_loop,
    exchange_over_cap 1048553 _ (by decide) (by decide)]
  rfl

theorem exchange_after_cap :
    handle_request_loop false get_routes (conn_init fresh_client)
        (List.replicate 55187 get_request ++ [get_request, get_request]) =
      some (idle_conn 1048607
        (List.replicate 55187 hi_bytes ++ [too_large_bytes] ++ [too_large_bytes])) := by
  have e : List.replicate 55187 get_request ++ [get_request, get_request] =
      (List.replicate 55187 get_request ++ [get_request]) ++ [get_request] := by
    rw [List.append_assoc]
    rfl
  rw [e, handle_request_loop_append, exchange_at_cap, Option.some_bind, handle_request_loop,
    exchange_over_cap 1048580 _ (by decide) (by decide)]
  rfl

theorem replies_eq (merged : Bool) (rt : Routes callback) (chunks : List (List Char)) :
    replies merged rt chunks =
      (handle_request_loop merged rt (conn_init fresh_client) chunks).map
        (fun c => c.client.out) := rfl

/-- C31 fails on the code: the byte counter that is compared with the maximum is
not set back by the reset block. After the first exchange of the 27-byte request
`get_request` on a fresh connection the driver is in `STATE_FIRST_LINE` with the
counter at 19, and each further such exchange adds 19; the first 55187 requests
are answered by the handler, and the next one, again 27 bytes, is answered with
the 413 of the cap. -/
theorem byte_counter_survives_reset :
    (handle_request_loop false get_routes (conn_init fresh_client) [get_request]).map
        (fun c => (c.state, c.total_received, c.client.req, c.client.res)) =
      some (STATE_FIRST_LINE, 19, init_request, init_response) ∧
    get_request.length = 27 ∧
    replies false get_routes (List.replicate 55187 get_request) =
      some (List.replicate 55187 hi_bytes) ∧
    replies false get_routes (List.replicate 55187 get_request ++ [get_request]) =
      some (List.replicate 55187 hi_bytes ++ [too_large_bytes]) := by
  refine ⟨?_, by decide, ?_, ?_⟩
  · rw [handle_request_loop, first_exchange_leaves_idle_conn]
    rfl
  · rw [replies_eq, exchanges_until_cap]
    rfl
  · rw [replies_eq, exchange_at_cap]
    rfl

/-- C32 fails on the code: after the 400 reset that answers `long_bad_line`, and
after the 404 reset that answers `long_get_request`, the complete valid request
`post_request` is answered with a 400, while a newly accepted connection answers
it by its handler: the bytes of the earlier chunk stay in the request buffer
behind the terminator and are taken for body bytes of the new request. After a
413 reset of the cap the byte counter stays above the maximum, so the valid
request `get_request` is answered with 413 again. -/
theorem request_after_error_reset_differs :
    (replies false post_routes [post_request] = some [hi_bytes] ∧
     replies false post_routes [long_bad_line, post_request] =
       some [bad_request_bytes, bad_request_bytes] ∧
     replies false post_routes [long_get_request, post_request] =
       some [not_found_bytes, bad_request_bytes]) ∧
    replies false get_routes [get_request] = some [hi_bytes] ∧
    replies false get_routes (List.replicate 55187 get_request ++ [get_request]) =
      some (List.replicate 55187 hi_bytes ++ [too_large_bytes]) ∧
    replies false get_routes (List.replicate 55187 get_request ++ [get_request, get_request]) =
      some (List.replicate 55187 hi_bytes ++ [too_large_bytes] ++ [too_large_bytes]) := by
  refine ⟨replies_after_error_reset, ?_, ?_, ?_⟩
  · rw [replies_eq, handle_request_loop, first_exchange_leaves_idle_conn]
    rfl
  · rw [replies_eq, exchange_at_cap]
    rfl
  · rw [replies_eq, exchange_after_cap]
    rfl

/-! ### A handler response that cannot be serialized -/

/-- In `STATE_ELABORATE_RESPONSE`, when the route is found and `serialize` returns
`NULL` for the response that the callback leaves, the dispatch block and the
reset block send nothing and end in `STATE_FIRST_LINE` with a fresh request and
response. -/
theorem dispatch_of_serialize_null (merged : Bool) (rt : Routes callback) (c : conn_t)
    (m p : CStr) (cb : callback) (res1 : response_t)
    (hs : c.state = STATE_ELABORATE_RESPONSE)
    (hm : c.client.req.method = some m) (hp : c.client.req.path = some p)
    (hr : get_route rt m p = some cb)
    (hser : serialize merged (cb c.client.req c.client.res) = some (none, res1)) :
    (step_elaborate merged rt c).map step_reset = some (after_reset c c.client.out) := by
  simp [step_elaborate, hs, handle_response, hm, hp, hr, send_response, hser, step_reset,
    after_reset]

/-! ### The cap on the byte counter -/

/-- The receive block sends the 413 of the cap exactly when the byte counter,
increased by the size of the chunk (modulo 2^64), is above `MAX_SIZE`; the
counter is whatever the earlier steps left, the reset block included. -/
theorem step_receive_cap (merged : Bool) (c : conn_t) (buffer : List Char) :
    (MAX_SIZE < (c.total_received + buffer.length) % 2 ^ 64 →
      ∃ res1, step_receive merged c buffer =
        some { c with total_received := (c.total_received + buffer.length) % 2 ^ 64,
                      client := { req := c.client.req, res := res1,
                                  out := c.client.out ++ [too_large_bytes] },
                      state := STATE_RESET }) ∧
    (¬ MAX_SIZE < (c.total_received + buffer.length) % 2 ^ 64 →
      ∀ c1, step_receive merged c buffer = some c1 →
        c1.client = c.client ∧ c1.state = c.state) := by
  constructor
  · intro h
    obtain ⟨res1, hsend⟩ := send_error_of_bytes merged c.client (str "413")
      (str "Request Entity Too Large") too_large_bytes (by cases merged <;> decide)
    exact ⟨res1, by simp only [step_receive, h, if_true, hsend]⟩
  · intro h c1 h1
    unfold step_receive at h1
    simp only [h, if_false] at h1
    split at h1
    · simp at h1
    · split at h1
      · simp at h1
      · simp only [Option.some.injEq] at h1
        subst h1
        exact ⟨rfl, rfl⟩

/-! ### A request line followed directly by the empty line -/

theorem strstr_append_of_free (a : Char) (ns rest : CStr) :
    ∀ (L : CStr), (∀ x ∈ L, x ≠ a) →
      strstr (L ++ ((a :: ns) ++ rest)) (a :: ns) = some L.length := by
  intro L
  induction L with
  | nil =>
    intro _
    have hp : (a :: ns).isPrefixOf ((a :: ns) ++ rest) = true := by
      rw [List.isPrefixOf_iff_prefix]
      exact List.prefix_append _ _
    simp only [List.nil_append, List.cons_append] at hp ⊢
    simp [strstr, hp]
  | cons x xs ih =>
    intro h
    have hx : x ≠ a := h x (List.mem_cons_self x xs)
    have hxs := ih (fun y hy => h y (List.mem_cons_of_mem x hy))
    have hnp : (a :: ns).isPrefixOf (x :: (xs ++ ((a :: ns) ++ rest))) = false := by
      simp [List.isPrefixOf, Ne.symm hx]
    simp only [List.cons_append] at hxs hnp ⊢
    simp [strstr, hnp, hxs]

theorem cstr_of_free : ∀ (body : List Char), (∀ x ∈ body, x ≠ NUL) → cstr body = body := by
  intro body h
  have e := cstr_append_NUL [] body h
  unfold cstr at e ⊢
  rw [List.takeWhile_eq_self_iff]
  intro x hx
  simpa using h x hx

theorem memwrite_at_end (X : List Char) : memwrite X X.length [NUL] = X ++ [NUL] := by
  unfold memwrite
  simp [List.drop_eq_nil_of_le]

/-- For every request line `L` (no carriage return and no NUL inside) that the
line stage accepts, the chunk `L`, line end, line end on a fresh connection ends
the step in `STATE_HEADERS` with only one line end left in the request string and
nothing sent, whatever the route table holds. -/
theorem request_line_and_empty_line_stays (merged : Bool) (rt : Routes callback) (L : CStr)
    (req1 : request_t)
    (hL : ∀ x ∈ L, x ≠ '\r' ∧ x ≠ NUL) (hlen : L.length + 4 ≤ MAX_SIZE)
    (hparse : parse_first_line init_request (L ++ str "\r\n") = some (0, req1)) :
    ∃ c1, handle_request_step merged rt (conn_init fresh_client) (L ++ str "\r\n\r\n") = some c1 ∧
      c1.state = STATE_HEADERS ∧ cstr c1.request = str "\r\n" ∧ c1.client.req = req1 ∧
      c1.client.out = [] := by
  have hchunk : L ++ str "\r\n\r\n" = L ++ ((str "\r\n") ++ str "\r\n") := by
    rw [show str "\r\n\r\n" = str "\r\n" ++ str "\r\n" from by decide]
  have hclen : (L ++ str "\r\n\r\n").length = L.length + 4 := by
    rw [List.length_append]
    rfl
  have hnul : ∀ x ∈ L ++ str "\r\n\r\n", x ≠ NUL := by
    intro x hx
    rcases List.mem_append.mp hx with h | h
    · exact (hL x h).2
    · intro e
      subst e
      exact absurd h (by decide)
  have hcstr0 : cstr (L ++ str "\r\n\r\n") = L ++ str "\r\n\r\n" := cstr_of_free _ hnul
  have hcstr1 : cstr ((L ++ str "\r\n\r\n") ++ [NUL]) = L ++ str "\r\n\r\n" :=
    cstr_append_NUL [] _ hnul
  -- the receive block
  have hmod : (0 + (L.length + 4)) % 2 ^ 64 = L.length + 4 := by
    rw [Nat.zero_add]
    unfold MAX_SIZE at hlen
    exact Nat.mod_eq_of_lt (by omega)
  have hs0 : strlen [NUL] = 0 := by decide
  have hm1 : memwrite [NUL] 0 (L ++ str "\r\n\r\n") = L ++ str "\r\n\r\n" := by
    unfold memwrite
    have : List.drop (0 + (L ++ str "\r\n\r\n").length) [NUL] = [] := by
      rw [hclen]
      exact List.drop_eq_nil_of_le (by simp)
    rw [this]
    simp
  have hs1 : strlen (L ++ str "\r\n\r\n") = L.length + 4 := by
    unfold strlen
    rw [hcstr0, hclen]
  have hm2 : memwrite (L ++ str "\r\n\r\n") (L.length + 4) [NUL] = (L ++ str "\r\n\r\n") ++ [NUL] := by
    have e := memwrite_at_end (L ++ str "\r\n\r\n")
    rw [hclen] at e
    exact e
  have hrecv : step_receive merged (conn_init fresh_client) (L ++ str "\r\n\r\n") =
      some { state := STATE_FIRST_LINE, total_received := L.length + 4,
             request := (L ++ str "\r\n\r\n") ++ [NUL], client := fresh_client } := by
    have h1 : ¬ MAX_SIZE < L.length + 4 := by omega
    have h2 : ¬ MAX_SIZE + 1 < 0 + (L.length + 4) := by omega
    simp only [step_receive, conn_init, hmod, h1, if_false, hs0, hclen, h2, hm1, hs1, hm2]
  -- the line block
  have hstr : strstr (L ++ str "\r\n\r\n") (str "\r\n") = some L.length := by
    rw [hchunk]
    exact strstr_append_of_free '\r' ['\n'] (str "\r\n") L (fun x hx => (hL x hx).1)
  have htake : (L ++ str "\r\n\r\n").take (L.length + 2) = L ++ str "\r\n" := by
    rw [hchunk, ← List.append_assoc]
    have : L.length + 2 = (L ++ str "\r\n").length := by
      rw [List.length_append]
      rfl
    rw [this, List.take_left]
  have hdrop : (L ++ str "\r\n\r\n").drop (L.length + 2) = str "\r\n" := by
    rw [hchunk, ← List.append_assoc]
    have : L.length + 2 = (L ++ str "\r\n").length := by
      rw [List.length_append]
      rfl
    rw [this, List.drop_left]
  have hline : step_first_line merged
      { state := STATE_FIRST_LINE, total_received := L.length + 4,
        request := (L ++ str "\r\n\r\n") ++ [NUL], client := fresh_client } =
      some { state := STATE_HEADERS, total_received := L.length + 4,
             request := memwrite ((L ++ str "\r\n\r\n") ++ [NUL]) 0 (str "\r\n" ++ [NUL]),
             client := { fresh_client with req := req1 } } := by
    have f4 : ¬ ((0 : Int) < 0) := by decide
    have hparse2 : parse_first_line fresh_client.req (L ++ str "\r\n") = some (0, req1) := hparse
    simp only [step_first_line, handle_line, hcstr1, hstr, htake, hdrop, hparse2, f4, if_true,
      if_false, Option.isSome_some]
  have hreq2 : cstr (memwrite ((L ++ str "\r\n\r\n") ++ [NUL]) 0 (str "\r\n" ++ [NUL])) =
      str "\r\n" := by
    have e : memwrite ((L ++ str "\r\n\r\n") ++ [NUL]) 0 (str "\r\n" ++ [NUL]) =
        str "\r\n" ++ NUL :: List.drop 3 ((L ++ str "\r\n\r\n") ++ [NUL]) := by
      unfold memwrite
      simp [str]
    rw [e]
    exact cstr_append_NUL _ _ (by decide)
  have hnone : strstr (str "\r\n") (str "\r\n\r\n") = none := by decide
  refine ⟨{ state := STATE_HEADERS, total_received := L.length + 4,
            request := memwrite ((L ++ str "\r\n\r\n") ++ [NUL]) 0 (str "\r\n" ++ [NUL]),
            client := { fresh_client with req := req1 } }, ?_, rfl, hreq2, rfl, rfl⟩
  have s2 : STATE_HEADERS ≠ STATE_BODY := by decide
  have s3 : STATE_HEADERS ≠ STATE_ELABORATE_RESPONSE := by decide
  have s4 : STATE_HEADERS ≠ STATE_RESET := by decide
  rw [handle_request_step_eq, hrecv, Option.some_bind, from_first_line, hline, Option.some_bind]
  simp only [from_headers, step_headers, if_true, hreq2, hnone, Option.some_bind, from_body,
    step_body, s2, if_false, from_elaborate, step_elaborate, s3, step_reset, s4]

/-! ### The append of a received chunk -/

theorem cstr_no_NUL (mem : List Char) : ∀ x ∈ cstr mem, x ≠ NUL := by
  intro x hx
  unfold cstr at hx
  have := List.mem_takeWhile_imp hx
  simpa using this

theorem take_strlen_self (mem : List Char) : mem.take (strlen mem) = cstr mem := by
  induction mem with
  | nil => rfl
  | cons x xs ih =>
    unfold strlen cstr at ih ⊢
    by_cases hx : x = NUL
    · subst hx
      rfl
    · have hb : (!(x == NUL)) = true := by simpa using hx
      rw [List.takeWhile_cons, hb, if_pos rfl, List.length_cons, List.take_succ_cons, ih]

theorem strlen_le_length (mem : List Char) : strlen mem ≤ mem.length := by
  unfold strlen cstr
  exact (List.takeWhile_sublist _).length_le

theorem cstr_of_zero_behind (X tail : List Char) (hX : ∀ x ∈ X, x ≠ NUL)
    (ht : ∀ x ∈ tail.head?, x = NUL) : cstr (X ++ tail) = X := by
  cases tail with
  | nil =>
    rw [List.append_nil]
    exact cstr_of_free X hX
  | cons y ys =>
    have hy : y = NUL := ht y (by simp)
    subst hy
    exact cstr_append_NUL ys X hX

theorem memwrite_NUL_behind (Y tail : List Char) :
    memwrite (Y ++ tail) Y.length [NUL] = Y ++ NUL :: (Y ++ tail).drop (Y.length + 1) := by
  unfold memwrite
  have h0 : Y.length - (Y ++ tail).length = 0 := by
    rw [List.length_append]
    omega
  rw [List.take_left, h0]
  simp

/-- What holds of C36: when the chunk has no NUL, keeps the counter within the cap
and fits, and the byte of the request buffer right behind the place of the new
bytes is zero or was never written, the request string after the receive is the
string before followed by exactly the received bytes. -/
theorem step_receive_appends (merged : Bool) (c : conn_t) (buffer : List Char)
    (hcap : ¬ MAX_SIZE < (c.total_received + buffer.length) % 2 ^ 64)
    (hfit : strlen c.request + buffer.length ≤ MAX_SIZE)
    (hnul : ∀ x ∈ buffer, x ≠ NUL)
    (hzero : ∀ x ∈ (c.request.drop (strlen c.request + buffer.length)).head?, x = NUL) :
    ∃ c1, step_receive merged c buffer = some c1 ∧
      cstr c1.request = cstr c.request ++ buffer ∧ c1.state = c.state ∧
      c1.client = c.client := by
  have hX : ∀ x ∈ cstr c.request ++ buffer, x ≠ NUL := by
    intro x hx
    rcases List.mem_append.mp hx with h | h
    · exact cstr_no_NUL _ x h
    · exact hnul x h
  have hm1 : memwrite c.request (strlen c.request) buffer =
      (cstr c.request ++ buffer) ++ c.request.drop (strlen c.request + buffer.length) := by
    unfold memwrite
    have h0 : strlen c.request - c.request.length = 0 := by
      have := strlen_le_length c.request
      omega
    rw [take_strlen_self, h0]
    simp
  have hl : strlen c.request + buffer.length = (cstr c.request ++ buffer).length := by
    rw [List.length_append]
    rfl
  have hs1 : strlen (memwrite c.request (strlen c.request) buffer) =
      strlen c.request + buffer.length := by
    have e : ∀ A : List Char, strlen A = (cstr A).length := fun _ => rfl
    rw [hm1, e (cstr c.request ++ buffer ++ _), cstr_of_zero_behind _ _ hX hzero, hl]
  have hm2 : cstr (memwrite (memwrite c.request (strlen c.request) buffer)
      (strlen c.request + buffer.length) [NUL]) = cstr c.request ++ buffer := by
    rw [hm1, hl, memwrite_NUL_behind]
    exact cstr_append_NUL _ _ hX
  have h2 : ¬ MAX_SIZE + 1 < strlen c.request + buffer.length := by omega
  have h3 : ¬ MAX_SIZE < strlen c.request + buffer.length := by omega
  refine ⟨{ c with total_received := (c.total_received + buffer.length) % 2 ^ 64,
                   request := memwrite (memwrite c.request (strlen c.request) buffer)
                     (strlen c.request + buffer.length) [NUL] }, ?_, hm2, rfl, rfl⟩
  simp only [step_receive, hcap, if_false, h2, hs1, h3]

/-! ### The count of params -/

theorem process_query_loop_count :
    ∀ (tokens : List CStr) (params : List node_t) (n : Nat) (rc : Int) (params1 : List node_t)
      (n1 : Nat), process_query_loop tokens params n = some (rc, params1, n1) →
      params1.length + n = params.length + n1 := by
  intro tokens
  induction tokens with
  | nil =>
    intro params n rc params1 n1 h
    simp only [process_query_loop, Option.some.injEq, Prod.mk.injEq] at h
    obtain ⟨_, h2, h3⟩ := h
    subst h2 h3
    rfl
  | cons t ts ih =>
    intro params n rc params1 n1 h
    unfold process_query_loop at h
    cases hc : strchr t '=' with
    | none =>
      simp only [hc] at h
      split at h
      · simp only [Option.some.injEq, Prod.mk.injEq] at h
        obtain ⟨_, h2, h3⟩ := h
        subst h2 h3
        rfl
      · simp at h
    | some e =>
      simp only [hc] at h
      split at h
      · simp only [Option.some.injEq, Prod.mk.injEq] at h
        obtain ⟨_, h2, h3⟩ := h
        subst h2 h3
        rfl
      · have := ih _ _ rc params1 n1 h
        simp only [add_param, insert_node, List.length_cons] at this
        omega

theorem process_json_loop_count :
    ∀ (tokens : List CStr) (params : List node_t) (n : Nat),
      (process_json_loop tokens params n).2.1.length + n =
        params.length + (process_json_loop tokens params n).2.2 := by
  intro tokens
  induction tokens with
  | nil => intro params n; rfl
  | cons t ts ih =>
    intro params n
    unfold process_json_loop
    split
    · exact ih params n
    · cases hr : regexec json_pattern t with
      | none => rfl
      | some r =>
        obtain ⟨so, lens⟩ := r
        simp only
        have := ih (add_param params (submatch t so lens 1 2) (submatch t so lens 6 7)) (n + 1)
        simp only [add_param, insert_node, List.length_cons] at this ⊢
        omega

theorem process_urlencoded_loop_count :
    ∀ (tokens : List CStr) (params : List node_t) (n : Nat),
      (process_urlencoded_loop tokens params n).2.1.length + n =
        params.length + (process_urlencoded_loop tokens params n).2.2 := by
  intro tokens
  induction tokens with
  | nil => intro params n; rfl
  | cons t ts ih =>
    intro params n
    unfold process_urlencoded_loop
    cases hr : regexec urlencoded_pattern t with
    | none => rfl
    | some r =>
      obtain ⟨so, lens⟩ := r
      simp only
      have := ih (add_param params (submatch t so lens 0 1) (submatch t so lens 2 3)) (n + 1)
      simp only [add_param, insert_node, List.length_cons] at this ⊢
      omega

/-- What holds of C37 for the body stage: after a successful body stage under
`application/json` or `application/x-www-form-urlencoded`, `n_params` is the
number of entries that this stage has added to `body.params`; it equals the
number of entries only when the list was empty before. -/
theorem parse_body_counts_own_params (req r : request_t) (node : node_t) (buffer : List Char)
    (size : Nat)
    (hct : search_node req.headers (str "Content-Type") = some node)
    (hv : node.value = str "application/json" ∨
      node.value = str "application/x-www-form-urlencoded")
    (hok : parse_body req buffer size = some (0, r)) :
    r.body.params.length = req.body.params.length + r.body.n_params := by
  rcases hv with hv | hv
  · rw [parse_body_json_eq req node buffer size hct hv] at hok
    unfold process_json at hok
    split at hok
    · simp at hok
    · have hc := process_json_loop_count (strtok_all (cstr buffer) (str "\r\n")) req.body.params 0
      generalize process_json_loop (strtok_all (cstr buffer) (str "\r\n")) req.body.params 0 = res
        at hok hc
      obtain ⟨rc, params, n⟩ := res
      simp only at hok hc
      by_cases hrc : rc < 0
      · simp [hrc] at hok
      · by_cases hlen : buffer.length < size
        · simp [hrc, hlen] at hok
        · simp only [hrc, if_false, hlen, Option.some_bind, Int.lt_irrefl, Option.some.injEq,
            Prod.mk.injEq, true_and] at hok
          subst hok
          simp only
          omega
  · rw [parse_body_urlencoded_eq req node buffer size hct hv] at hok
    unfold process_urlencoded at hok
    split at hok
    · simp at hok
    · have hc := process_urlencoded_loop_count (strtok_all (cstr buffer) (str "&"))
        req.body.params 0
      generalize process_urlencoded_loop (strtok_all (cstr buffer) (str "&")) req.body.params 0
        = res at hok hc
      obtain ⟨rc, params, n⟩ := res
      simp only at hok hc
      by_cases hrc : rc < 0
      · simp [hrc] at hok
      · by_cases hlen : buffer.length < size
        · simp [hrc, hlen] at hok
        · simp only [hrc, if_false, hlen, Option.some_bind, Int.lt_irrefl, Option.some.injEq,
            Prod.mk.injEq, true_and] at hok
          subst hok
          simp only
          omega

/-- What holds of C37 for the line stage: after a successful line stage on a
fresh request, `n_params` is the number of entries of `body.params`. -/
theorem parse_first_line_counts_params (line : CStr) (r : request_t)
    (hok : parse_first_line init_request line = some (0, r)) :
    r.body.n_params = r.body.params.length := by
  unfold parse_first_line at hok
  simp only at hok
  cases hre : regexec first_line_pattern line with
  | none => simp [hre] at hok
  | some m =>
    obtain ⟨so, lens⟩ := m
    simp only [hre] at hok
    unfold process_query at hok
    cases hq : strchr (submatch line so lens 2 3) '?' with
    | none =>
      simp only [hq] at hok
      simp only [Int.lt_irrefl, if_false, Option.some.injEq, Prod.mk.injEq, true_and] at hok
      subst hok
      rfl
    | some e =>
      simp only [hq] at hok
      cases hl : process_query_loop
          (strtok_all ((submatch line so lens 2 3).drop (e + 1)) (str "&"))
          init_request.body.params 0 with
      | none =>
        simp only [init_request] at hl
        simp [hl, init_request] at hok
      | some res =>
        obtain ⟨rc, params, n⟩ := res
        have hc := process_query_loop_count _ _ _ rc params n hl
        simp only [init_request] at hl
        simp only [init_request, hl] at hok
        by_cases hrc : rc < 0
        · simp [hrc] at hok
        · simp only [hrc, if_false, Int.lt_irrefl, Option.some.injEq, Prod.mk.injEq,
            true_and] at hok
          subst hok
          simp only [init_request, List.length_nil] at hc ⊢
          omega

/-! ### Instances of the general statements -/

/-- The request line `GET / HTTP/1.1` as an instance. -/
theorem request_line_and_empty_line_stays_witness :
    ∃ c1, handle_request_step false get_routes (conn_init fresh_client)
        (str "GET / HTTP/1.1" ++ str "\r\n\r\n") = some c1 ∧
      c1.state = STATE_HEADERS ∧ cstr c1.request = str "\r\n" ∧
      c1.client.req = get_request_line_fields ∧ c1.client.out = [] :=
  request_line_and_empty_line_stays false get_routes (str "GET / HTTP/1.1")
    get_request_line_fields (by decide) (by decide) (by decide)

/-- The first receive on a fresh connection as an instance. -/
theorem step_receive_appends_witness :
    ∃ c1, step_receive false (conn_init fresh_client) (str "GET /") = some c1 ∧
      cstr c1.request = cstr (conn_init fresh_client).request ++ str "GET /" ∧
      c1.state = (conn_init fresh_client).state ∧ c1.client = (conn_init fresh_client).client :=
  step_receive_appends false (conn_init fresh_client) (str "GET /") (by decide) (by decide)
    (by decide) (by decide)

/-- The JSON body with the pair `a`, `b` on a request without query params as an
instance. -/
theorem parse_body_counts_own_params_witness :
    ({ json_request with
        body := { data := some json_pair_body,
                  params := [{ key := str "a", value := str "b" }], n_params := 1 } } :
      request_t).body.params.length =
      json_request.body.params.length +
        ({ json_request with
            body := { data := some json_pair_body,
                      params := [{ key := str "a", value := str "b" }], n_params := 1 } } :
          request_t).body.n_params :=
  parse_body_counts_own_params json_request _
    { key := str "Content-Type", value := str "application/json" }
    (json_pair_body ++ [NUL]) json_pair_body.length (by decide) (Or.inl (by decide)) (by decide)

/-- The request line `POST /p?x=1 HTTP/1.1` as an instance. -/
theorem parse_first_line_counts_params_witness :
    ({ init_request with
        method := some (str "POST"), path := some (str "/p"), version := some (str "1.1"),
        body := { data := none, params := [{ key := str "x", value := str "1" }],
                  n_params := 1 } } : request_t).body.n_params =
      ({ init_request with
        method := some (str "POST"), path := some (str "/p"), version := some (str "1.1"),
        body := { data := none, params := [{ key := str "x", value := str "1" }],
                  n_params := 1 } } : request_t).body.params.length :=
  parse_first_line_counts_params query_and_json_line _ (by decide)

/-- The handler without `Content-Type` as an instance. -/
theorem dispatch_of_serialize_null_witness :
    (step_elaborate false bare_routes dispatch_conn).map step_reset =
      some (after_reset dispatch_conn dispatch_conn.client.out) :=
  dispatch_of_serialize_null false bare_routes dispatch_conn (str "GET") (str "/") bare_handler
    bare_dispatch_response (by decide) (by decide) (by decide) rfl (by decide)

/-! ### The buffer after a reset -/

/-- The reset block changes one byte of the request buffer, the first: every byte
behind it is what it was. -/
theorem step_reset_request (c : conn_t) (h : c.state = STATE_RESET) :
    (step_reset c).request = NUL :: c.request.drop 1 ∧
    (step_reset c).total_received = c.total_received := by
  simp [step_reset, h, memwrite]

/-- C27 fails on the code: on a fresh connection the chunk `long_bad_line` fails
the line stage, and the step sends the 400 and ends in `STATE_FIRST_LINE` with a
fresh request and response, but not with an empty buffer: the reset block only
stores a terminator at the start of the buffer, so the other 102 of its 103
bytes still hold the failed line, and the byte counter stays at 102. The valid
request `post_request` received next is written over the front of those bytes,
the rest of them is taken for body bytes, and it is answered with a 400; on a
newly accepted connection it is answered by its handler. -/
theorem reset_leaves_failed_line_in_buffer :
    (step_receive false (conn_init fresh_client) long_bad_line).map line_stage_fails =
      some true ∧
    handle_request_step false post_routes (conn_init fresh_client) long_bad_line =
      some { state := STATE_FIRST_LINE, total_received := 102,
             request := NUL :: (List.replicate 99 'x' ++ (str "\r\n" ++ [NUL])),
             client := { req := init_request, res := init_response,
                         out := [bad_request_bytes] } } ∧
    replies false post_routes [long_bad_line, post_request] =
      some [bad_request_bytes, bad_request_bytes] ∧
    replies false post_routes [post_request] = some [hi_bytes] := by
  decide!

end CWebServer
